import Mathlib

/-!
Shallow embedding of the `pencil_decomp` repository (Rust) in Lean 4,
together with theorems settling the frozen claims about it.

The embedding follows the source files:
* `src/distribution.rs` : the 1-D balanced partition (`Distribution`).
* `src/pencil.rs`       : the `Pencil` type, its topology queries and the
  count/displacement computations for the collective exchanges.
* `src/decomp2.rs`, `src/decomp3.rs` : the pack (`split_*`) and unpack
  (`merge_*`) routines and the public transpose/gather operations.

Rust `usize` values are modelled as `Nat`.  Code paths that panic in Rust
(assertions, checked unsigned underflow, out-of-bounds indexing) are
modelled by `Option`-returning functions where the claims are about the
panic behaviour; elsewhere the stated preconditions keep every operation
in range, which is proved where a claim needs it.  Rust `Vec<usize>` is
modelled as `List Nat`; the mutable per-index loop state inside
`Distribution::distribute` is modelled as total maps `Nat → Nat` updated
with `Function.update`, and the resulting vectors of length `nprocs` are
read back with `(List.range nprocs).map`.

The MPI layer is an external collaborator of the repository (not part of
its sources); the blocking variable-count all-to-all is modelled by its
interface contract: process `r` of the sub-group receives, concatenated
in peer-rank order, the segment `[displs_q[r], displs_q[r] + counts_q[r])`
of each peer `q`'s send buffer.
-/

namespace PencilDecomp

/-! ## Model of `src/distribution.rs` -/

/-- Model of `struct Distribution`: size and inclusive first/last global
index of the current processor, and the same data for every processor
along the axis. -/
structure Distribution where
  sz : Nat
  st : Nat
  en : Nat
  sz_procs : List Nat
  st_procs : List Nat
  en_procs : List Nat
deriving DecidableEq, Repr

instance : Inhabited Distribution := ⟨⟨0, 0, 0, [], [], []⟩⟩

/-- Model of `Distribution::contiguous`: one chunk holding all `n_global`
points.  The Rust code computes `en = n_global - 1` on a `usize`
(see `contiguousChecked` for the underflow-faithful variant). -/
def Distribution.contiguous (n_global : Nat) : Distribution :=
  let st := 0
  let en := n_global - 1
  let sz := n_global
  { sz := sz, st := st, en := en,
    sz_procs := [sz], st_procs := [st], en_procs := [en] }

/-- Body of the first loop of `Distribution::distribute`
(`st[i] = st[i-1] + size; sz[i] = size; en[i] = en[i-1] + size;`),
on the state triple `(st, en, sz)` of vectors as total maps. -/
def distributeLoop1Body (size : Nat)
    (s : (Nat → Nat) × (Nat → Nat) × (Nat → Nat)) (i : Nat) :
    (Nat → Nat) × (Nat → Nat) × (Nat → Nat) :=
  (Function.update s.1 i (s.1 (i - 1) + size),
   Function.update s.2.1 i (s.2.1 (i - 1) + size),
   Function.update s.2.2 i size)

/-- First loop of `Distribution::distribute` (`for i in i..nl`, called with
`i = 1`), as a fold over the loop's index range. -/
def distributeLoop1 (size nl : Nat) (i : Nat) (st en sz : Nat → Nat) :
    (Nat → Nat) × (Nat → Nat) × (Nat → Nat) :=
  (List.range' i (nl - i)).foldl (distributeLoop1Body size) (st, en, sz)

/-- Body of the second loop of `Distribution::distribute`
(`st[i] = en[i-1] + 1; sz[i] = size; en[i] = en[i-1] + size;`). -/
def distributeLoop2Body (size : Nat)
    (s : (Nat → Nat) × (Nat → Nat) × (Nat → Nat)) (i : Nat) :
    (Nat → Nat) × (Nat → Nat) × (Nat → Nat) :=
  (Function.update s.1 i (s.2.1 (i - 1) + 1),
   Function.update s.2.1 i (s.2.1 (i - 1) + size),
   Function.update s.2.2 i size)

/-- Second loop of `Distribution::distribute` (`for i in i..nprocs`,
called with `i = nl`). -/
def distributeLoop2 (size nprocs : Nat) (i : Nat) (st en sz : Nat → Nat) :
    (Nat → Nat) × (Nat → Nat) × (Nat → Nat) :=
  (List.range' i (nprocs - i)).foldl (distributeLoop2Body size) (st, en, sz)

/-- Model of `Distribution::distribute`: returns `(st, en, sz)` vectors of
length `nprocs`.  The body follows the Rust statement for statement;
see `distributeChecked` for the variant that tracks the unsigned
underflows and bounds checks. -/
def Distribution.distribute (n_global nprocs : Nat) : List Nat × List Nat × List Nat :=
  let size := n_global / nprocs
  let st : Nat → Nat := fun _ => 0
  let en : Nat → Nat := fun _ => 0
  let sz : Nat → Nat := fun _ => 0
  let st := Function.update st 0 0
  let sz := Function.update sz 0 size
  let en := Function.update en 0 (size - 1)
  let nu := n_global - size * nprocs
  let nl := nprocs - nu
  let r1 := distributeLoop1 size nl 1 st en sz
  let st := r1.1
  let en := r1.2.1
  let sz := r1.2.2
  let size := size + 1
  let r2 := distributeLoop2 size nprocs nl st en sz
  let st := r2.1
  let en := r2.2.1
  let sz := r2.2.2
  let en := Function.update en (nprocs - 1) (n_global - 1)
  let sz := Function.update sz (nprocs - 1) (en (nprocs - 1) - st (nprocs - 1) + 1)
  ((List.range nprocs).map st, (List.range nprocs).map en, (List.range nprocs).map sz)

/-- Model of `Distribution::split`: the per-axis distribution of processor
`nrank` among `nprocs` processors. -/
def Distribution.split (n_global nprocs nrank : Nat) : Distribution :=
  let r := Distribution.distribute n_global nprocs
  let st_procs := r.1
  let en_procs := r.2.1
  let sz_procs := r.2.2
  { sz := sz_procs.getD nrank 0, st := st_procs.getD nrank 0, en := en_procs.getD nrank 0,
    sz_procs := sz_procs, st_procs := st_procs, en_procs := en_procs }

/-! ### Checked-arithmetic variant (models Rust `usize` panics)

Rust `usize` subtraction panics on underflow, `/` panics on a zero
divisor, and `Vec` indexing panics out of bounds.  The following mirror
of `Distribution::contiguous` / `Distribution::distribute` makes each of
those operations `Option`-valued, so `none` means the Rust code panics. -/

/-- Checked `usize` subtraction: `none` models the Rust underflow panic. -/
def csub (a b : Nat) : Option Nat := if b ≤ a then some (a - b) else none

/-- Checked `usize` division: `none` models the Rust division-by-zero panic. -/
def cdiv (a b : Nat) : Option Nat := if b = 0 then none else some (a / b)

/-- Checked read of a `Vec<usize>` of length `len`. -/
def cidx (f : Nat → Nat) (len i : Nat) : Option Nat :=
  if i < len then some (f i) else none

/-- Checked write to a `Vec<usize>` of length `len`. -/
def cset (f : Nat → Nat) (len i v : Nat) : Option (Nat → Nat) :=
  if i < len then some (Function.update f i v) else none

/-- Checked variant of `Distribution::contiguous` (`en = n_global - 1`). -/
def contiguousChecked (n_global : Nat) : Option Distribution := do
  let st := 0
  let en ← csub n_global 1
  let sz := n_global
  some { sz := sz, st := st, en := en,
         sz_procs := [sz], st_procs := [st], en_procs := [en] }

/-- Checked variant of `distributeLoop1Body`. -/
def distributeLoop1BodyC (size len : Nat)
    (s : (Nat → Nat) × (Nat → Nat) × (Nat → Nat)) (i : Nat) :
    Option ((Nat → Nat) × (Nat → Nat) × (Nat → Nat)) := do
  let im ← csub i 1
  let stp ← cidx s.1 len im
  let st ← cset s.1 len i (stp + size)
  let sz ← cset s.2.2 len i size
  let enp ← cidx s.2.1 len im
  let en ← cset s.2.1 len i (enp + size)
  some (st, en, sz)

/-- Checked variant of the first loop of `Distribution::distribute`. -/
def distributeLoop1C (size nl len : Nat) (i : Nat) (st en sz : Nat → Nat) :
    Option ((Nat → Nat) × (Nat → Nat) × (Nat → Nat)) :=
  (List.range' i (nl - i)).foldlM (distributeLoop1BodyC size len) (st, en, sz)

/-- Checked variant of `distributeLoop2Body`. -/
def distributeLoop2BodyC (size len : Nat)
    (s : (Nat → Nat) × (Nat → Nat) × (Nat → Nat)) (i : Nat) :
    Option ((Nat → Nat) × (Nat → Nat) × (Nat → Nat)) := do
  let im ← csub i 1
  let enp ← cidx s.2.1 len im
  let st ← cset s.1 len i (enp + 1)
  let sz ← cset s.2.2 len i size
  let en ← cset s.2.1 len i (enp + size)
  some (st, en, sz)

/-- Checked variant of the second loop of `Distribution::distribute`. -/
def distributeLoop2C (size nprocs len : Nat) (i : Nat) (st en sz : Nat → Nat) :
    Option ((Nat → Nat) × (Nat → Nat) × (Nat → Nat)) :=
  (List.range' i (nprocs - i)).foldlM (distributeLoop2BodyC size len) (st, en, sz)

/-- Intermediate state of the checked `Distribution::distribute`:
the chunk size `size`, the loop boundary `nl`, and the three vectors. -/
structure DPre where
  size : Nat
  nl : Nat
  st : Nat → Nat
  en : Nat → Nat
  sz : Nat → Nat

/-- Checked variant of the statements of `Distribution::distribute` before
the two loops (`let size = n_global / nprocs; ... let nl = nprocs - nu;`). -/
def distributeCheckedPre (n_global nprocs : Nat) : Option DPre := do
  let size ← cdiv n_global nprocs
  let st0 ← cset (fun _ => 0) nprocs 0 0
  let sz0 ← cset (fun _ => 0) nprocs 0 size
  let en0v ← csub size 1
  let en0 ← cset (fun _ => 0) nprocs 0 en0v
  let nu ← csub n_global (size * nprocs)
  let nl ← csub nprocs nu
  some { size := size, nl := nl, st := st0, en := en0, sz := sz0 }

/-- Checked variant of the statements of `Distribution::distribute` after
the two loops (`en[nprocs-1] = n_global-1; sz[nprocs-1] = en[..]-st[..]+1;`). -/
def distributeCheckedPost (n_global nprocs : Nat)
    (st en sz : Nat → Nat) : Option (List Nat × List Nat × List Nat) := do
  let last ← csub nprocs 1
  let enLast ← csub n_global 1
  let en2 ← cset en nprocs last enLast
  let enl ← cidx en2 nprocs last
  let stl ← cidx st nprocs last
  let szl ← csub enl stl
  let sz2 ← cset sz nprocs last (szl + 1)
  some ((List.range nprocs).map st, (List.range nprocs).map en2,
        (List.range nprocs).map sz2)

/-- Checked variant of `Distribution::distribute`: `none` exactly when the
Rust function panics (an unsigned subtraction underflows, the divisor is
zero, or a vector access is out of bounds). -/
def distributeChecked (n_global nprocs : Nat) :
    Option (List Nat × List Nat × List Nat) := do
  let pre ← distributeCheckedPre n_global nprocs
  let r1 ← distributeLoop1C pre.size pre.nl nprocs 1 pre.st pre.en pre.sz
  let r2 ← distributeLoop2C (pre.size + 1) nprocs nprocs pre.nl r1.1 r1.2.1 r1.2.2
  distributeCheckedPost n_global nprocs r2.1 r2.2.1 r2.2.2

/-! ## Closed forms for the balanced partition (proof-side definitions)

With `b = n / p` and `nl = p - n % p`, the vectors produced by
`Distribution::distribute` are `st[i] = stClosed b nl i`,
`en[i] = enClosed b nl i`, `sz[i] = szClosed b nl i`; proved below. -/

/-- Closed form of `st_procs` of the balanced partition. -/
def stClosed (b nl i : Nat) : Nat := i * b + (i - nl)

/-- Closed form of `sz_procs` of the balanced partition. -/
def szClosed (b nl i : Nat) : Nat := if i < nl then b else b + 1

/-- Closed form of `en_procs` of the balanced partition. -/
def enClosed (b nl i : Nat) : Nat := stClosed b nl (i + 1) - 1

/-! ## Model of `src/pencil.rs` -/

/-- Model of `struct Pencil`: the per-axis distributions, the contiguous
axis, and the data of the cartesian communicator that the count and
topology queries read (`cart_dims`, this process's `coords`). -/
structure Pencil where
  dists : List Distribution
  axis_contig : Nat
  cart_dims : List Nat
  coords : List Nat
deriving DecidableEq, Repr

/-- The loop in `Pencil::new` that pushes one `Distribution` per grid axis:
axis `axis_contig` gets `Distribution::contiguous`, every other axis gets
`Distribution::split` with the next cartesian dimension and coordinate
(`dim` is incremented only on split axes). -/
def buildDists (axis_contig : Nat) (cart_dims coords : List Nat) :
    List Nat → Nat → Nat → List Distribution
  | [], _, _ => []
  | n :: rest, i, dim =>
    if i = axis_contig then
      Distribution.contiguous n :: buildDists axis_contig cart_dims coords rest (i + 1) dim
    else
      Distribution.split n (cart_dims.getD dim 0) (coords.getD dim 0) ::
        buildDists axis_contig cart_dims coords rest (i + 1) (dim + 1)

/-- Model of `Pencil::new` (the distribution-building part; the MPI
communicator creation is kept as the recorded `cart_dims`/`coords`). -/
def Pencil.new (n_global : List Nat) (axis_contig : Nat)
    (cart_dims coords : List Nat) : Pencil :=
  { dists := buildDists axis_contig cart_dims coords n_global 0 0,
    axis_contig := axis_contig, cart_dims := cart_dims, coords := coords }

/-- Number of grid dimensions `M` of the pencil. -/
def Pencil.M (p : Pencil) : Nat := p.dists.length

/-- The distribution of axis `i` (`self.dists[i]`). -/
def Pencil.distAt (p : Pencil) (i : Nat) : Distribution := p.dists.getD i default

/-- Model of `Pencil::map_dim_to_cart_dim`.  The Rust function panics for
`dim == axis_contig`; no claim exercises that case and callers assert
`dim != axis_contig` first. -/
def Pencil.map_dim_to_cart_dim (p : Pencil) (dim : Nat) : Nat :=
  if dim < p.axis_contig then dim else dim - 1

/-- Model of `Pencil::nprocs_along_axis`. -/
def Pencil.nprocs_along_axis (p : Pencil) (axis : Nat) : Nat :=
  p.cart_dims.getD (p.map_dim_to_cart_dim axis) 0

/-- Model of `Pencil::shape` (local per-axis sizes). -/
def Pencil.shape (p : Pencil) : List Nat := p.dists.map Distribution.sz

/-- Model of `Pencil::len` (local element count). -/
def Pencil.len (p : Pencil) : Nat := p.shape.prod

/-- Model of `Pencil::shape_global` (per-axis sums of `sz_procs`). -/
def Pencil.shape_global (p : Pencil) : List Nat :=
  p.dists.map (fun d => d.sz_procs.sum)

/-- Model of `Pencil::len_global`. -/
def Pencil.len_global (p : Pencil) : Nat := p.shape_global.prod

/-! ## Count/displacement computations of `src/pencil.rs` -/

/-- Body of the `for i in 0..M` loop of `send_counts_all_to_all` for
destination rank `np`: multiplies `count` by the factor of axis `i`.
`none` models the panics: the `assert!` on equal local sizes of axes
split in both pencils, and the `sz_procs[np]` out-of-bounds access. -/
def a2aStep (send recv : Pencil) (np count i : Nat) : Option Nat :=
  if i ≠ send.axis_contig ∧ i ≠ recv.axis_contig then
    if (send.distAt i).sz = (recv.distAt i).sz then
      some (count * (send.distAt i).sz)
    else none
  else if i = recv.axis_contig then
    some (count * (send.distAt i).sz)
  else
    match (recv.distAt i).sz_procs[np]? with
    | some v => some (count * v)
    | none => none

/-- One count of `send_counts_all_to_all` for destination rank `np`:
the loop over `0..M` multiplying the three kinds of factors. -/
def a2aCountAt (send recv : Pencil) (np : Nat) : Option Nat :=
  (List.range send.M).foldlM (a2aStep send recv np) 1

/-- The Rust `scan(0, ..)` over the counts: exclusive prefix sums. -/
def exclScan : Nat → List Nat → List Nat
  | _, [] => []
  | acc, x :: xs => acc :: exclScan (acc + x) xs

/-- Model of `send_counts_all_to_all`: `none` models the panics (equal
contiguous axes, differently split shared axes, out-of-bounds chunk
access). -/
def send_counts_all_to_all (send recv : Pencil) : Option (List Nat × List Nat) :=
  if send.axis_contig = recv.axis_contig then none
  else
    ((List.range (send.nprocs_along_axis recv.axis_contig)).mapM
        (a2aCountAt send recv)).map
      fun counts => (counts, exclScan 0 counts)

/-- Model of `recv_counts_all_to_all`: `send_counts_all_to_all` with the
two pencils swapped. -/
def recv_counts_all_to_all (send recv : Pencil) : Option (List Nat × List Nat) :=
  send_counts_all_to_all recv send

/-- Everything `pencil.rs::transpose` does before invoking the collective
exchange: the assert on distinct contiguous axes and the send/receive
count computations (the buffers it allocates and packs carry no
cross-process effect).  `none` models a panic before any communication. -/
def transposeChecks (send recv : Pencil) :
    Option ((List Nat × List Nat) × (List Nat × List Nat)) :=
  if send.axis_contig = recv.axis_contig then none
  else do
    let sc ← send_counts_all_to_all send recv
    let rc ← recv_counts_all_to_all send recv
    some (sc, rc)

/-- Body of the `for i in 0..M` loop of `recv_counts_gather_axis`. -/
def gatherStep (pencil : Pencil) (axis np count i : Nat) : Option Nat :=
  if i = axis then
    match (pencil.distAt i).sz_procs[np]? with
    | some v => some (count * v)
    | none => none
  else some (count * (pencil.distAt i).sz)

/-- One count of `recv_counts_gather_axis` for peer rank `np`. -/
def gatherCountAt (pencil : Pencil) (axis np : Nat) : Option Nat :=
  (List.range pencil.M).foldlM (gatherStep pencil axis np) 1

/-- Model of `recv_counts_gather_axis`: `none` models the two asserts
(`axis == axis_contig`, `axis >= M`) and out-of-bounds chunk access. -/
def recv_counts_gather_axis (pencil : Pencil) (axis : Nat) : Option (List Nat × List Nat) :=
  if pencil.axis_contig = axis then none
  else if pencil.M ≤ axis then none
  else
    ((List.range (pencil.nprocs_along_axis axis)).mapM
        (gatherCountAt pencil axis)).map
      fun counts => (counts, exclScan 0 counts)

/-! ## Decomp2 / Decomp3 pencils -/

/-- The x-pencil of `Decomp2::new` on the process with coordinate `r`. -/
def decomp2_x_pencil (n0 n1 p r : Nat) : Pencil := Pencil.new [n0, n1] 0 [p] [r]

/-- The y-pencil of `Decomp2::new` on the process with coordinate `r`. -/
def decomp2_y_pencil (n0 n1 p r : Nat) : Pencil := Pencil.new [n0, n1] 1 [p] [r]

/-- The x-pencil of `Decomp3::new` on the process with coordinates `(c0, c1)`. -/
def decomp3_x_pencil (n0 n1 n2 p0 p1 c0 c1 : Nat) : Pencil :=
  Pencil.new [n0, n1, n2] 0 [p0, p1] [c0, c1]

/-- The y-pencil of `Decomp3::new` on the process with coordinates `(c0, c1)`. -/
def decomp3_y_pencil (n0 n1 n2 p0 p1 c0 c1 : Nat) : Pencil :=
  Pencil.new [n0, n1, n2] 1 [p0, p1] [c0, c1]

/-- The z-pencil of `Decomp3::new` on the process with coordinates `(c0, c1)`. -/
def decomp3_z_pencil (n0 n1 n2 p0 p1 c0 c1 : Nat) : Pencil :=
  Pencil.new [n0, n1, n2] 2 [p0, p1] [c0, c1]

/-! ## Pack / exchange / unpack (the transpose engine)

Local arrays are modelled as total maps from index tuples; an operation
on an array of shape `[s0, s1]` only ever reads or writes indices with
`i < s0`, `j < s1`, mirroring `ndarray` row-major iteration.  `writeSeq`
models a loop nest that executes `data[key] = buf[pos]; pos += 1` along
an enumeration of its iteration order. -/

/-- Sequentially write `buf[pos]`, `buf[pos+1]`, ... to the keys `ks`. -/
def writeSeq {κ T : Type} [DecidableEq κ] [Inhabited T]
    (d : κ → T) : List κ → List T → Nat → (κ → T)
  | [], _, _ => d
  | k :: ks, buf, pos =>
    writeSeq (Function.update d k (buf.getD pos default)) ks buf (pos + 1)

/-- Model of the blocking variable-count all-to-all over a 1-D sub-group
of `p` processes, by its interface contract: process `r` receives, in
peer-rank order, the segment `[displs q r, displs q r + counts q r)` of
each peer `q`'s send buffer.  (The matching receive partition is checked
by the proofs: the receive counts computed by the code equal the sizes of
the arriving segments.) -/
def allToAllV {T : Type} (p : Nat) (bufs : Nat → List T)
    (counts displs : Nat → Nat → Nat) (r : Nat) : List T :=
  (List.range p).flatMap fun q => ((bufs q).drop (displs q r)).take (counts q r)

/-- Model of `decomp2.rs::split_xy`: row-major iteration of the x-pencil
local array (shape `[n0, sz1]`). -/
def split_xy2 {T : Type} (xp : Pencil) (data : Nat × Nat → T) : List T :=
  (List.range (xp.distAt 0).sz).flatMap fun i =>
    (List.range (xp.distAt 1).sz).map fun j => data (i, j)

/-- Model of `decomp2.rs::split_yx`: iteration of the y-pencil local array
with axes swapped (logical shape `[n1, sz0]`). -/
def split_yx2 {T : Type} (yp : Pencil) (data : Nat × Nat → T) : List T :=
  (List.range (yp.distAt 1).sz).flatMap fun j =>
    (List.range (yp.distAt 0).sz).map fun i => data (i, j)

/-- Iteration order of the loop nest in `decomp2.rs::merge_xy`:
`for proc { for i in 0..y.dists[0].sz { for j in j1..=j2 } }` with
`j1/j2 = x.dists[1].st_procs/en_procs[proc]`. -/
def merge_xy2_keys (xp yp : Pencil) : List (Nat × Nat) :=
  (List.range (xp.nprocs_along_axis 1)).flatMap fun np =>
    (List.range (yp.distAt 0).sz).flatMap fun i =>
      (List.range' ((xp.distAt 1).st_procs.getD np 0)
        ((xp.distAt 1).en_procs.getD np 0 + 1 - (xp.distAt 1).st_procs.getD np 0)).map
        fun j => (i, j)

/-- Model of `decomp2.rs::merge_xy`. -/
def merge_xy2 {T : Type} [Inhabited T] (xp yp : Pencil) (buf : List T)
    (data : Nat × Nat → T) : Nat × Nat → T :=
  writeSeq data (merge_xy2_keys xp yp) buf 0

/-- Iteration order of the loop nest in `decomp2.rs::merge_yx`. -/
def merge_yx2_keys (yp xp : Pencil) : List (Nat × Nat) :=
  (List.range (yp.nprocs_along_axis 0)).flatMap fun np =>
    (List.range (xp.distAt 1).sz).flatMap fun j =>
      (List.range' ((yp.distAt 0).st_procs.getD np 0)
        ((yp.distAt 0).en_procs.getD np 0 + 1 - (yp.distAt 0).st_procs.getD np 0)).map
        fun i => (i, j)

/-- Model of `decomp2.rs::merge_yx`. -/
def merge_yx2 {T : Type} [Inhabited T] (yp xp : Pencil) (buf : List T)
    (data : Nat × Nat → T) : Nat × Nat → T :=
  writeSeq data (merge_yx2_keys yp xp) buf 0

/-- Counts/displacements computed on process `q` for
`Decomp2::transpose_x_to_y`. -/
def xyCounts2 (n0 n1 p q : Nat) : Option (List Nat × List Nat) :=
  send_counts_all_to_all (decomp2_x_pencil n0 n1 p q) (decomp2_y_pencil n0 n1 p q)

/-- Counts/displacements computed on process `q` for
`Decomp2::transpose_y_to_x` (also the receive counts of `x_to_y`). -/
def yxCounts2 (n0 n1 p q : Nat) : Option (List Nat × List Nat) :=
  send_counts_all_to_all (decomp2_y_pencil n0 n1 p q) (decomp2_x_pencil n0 n1 p q)

/-- Global (all processes at once) model of `Decomp2::transpose_x_to_y`:
`A r` is the x-pencil local array of process `r`, `init r` the prior
contents of its output array.  `none` models a panic of the per-process
count computation on some process (nothing is exchanged in that case:
the counts are computed before the collective call). -/
def transpose_x_to_y_2 {T : Type} [Inhabited T] (n0 n1 p : Nat)
    (A init : Nat → Nat × Nat → T) : Option (Nat → Nat × Nat → T) :=
  if (List.range p).all (fun q =>
      (xyCounts2 n0 n1 p q).isSome && (yxCounts2 n0 n1 p q).isSome) then
    some (fun r =>
      merge_xy2 (decomp2_x_pencil n0 n1 p r) (decomp2_y_pencil n0 n1 p r)
        (allToAllV p (fun q => split_xy2 (decomp2_x_pencil n0 n1 p q) (A q))
          (fun q rr => ((xyCounts2 n0 n1 p q).getD ([], [])).1.getD rr 0)
          (fun q rr => ((xyCounts2 n0 n1 p q).getD ([], [])).2.getD rr 0) r)
        (init r))
  else none

/-- Global model of `Decomp2::transpose_y_to_x`. -/
def transpose_y_to_x_2 {T : Type} [Inhabited T] (n0 n1 p : Nat)
    (A init : Nat → Nat × Nat → T) : Option (Nat → Nat × Nat → T) :=
  if (List.range p).all (fun q =>
      (yxCounts2 n0 n1 p q).isSome && (xyCounts2 n0 n1 p q).isSome) then
    some (fun r =>
      merge_yx2 (decomp2_y_pencil n0 n1 p r) (decomp2_x_pencil n0 n1 p r)
        (allToAllV p (fun q => split_yx2 (decomp2_y_pencil n0 n1 p q) (A q))
          (fun q rr => ((yxCounts2 n0 n1 p q).getD ([], [])).1.getD rr 0)
          (fun q rr => ((yxCounts2 n0 n1 p q).getD ([], [])).2.getD rr 0) r)
        (init r))
  else none

/-! ## 3-D packs/merges (`src/decomp3.rs`) -/

/-- Model of `decomp3.rs::split_xy`: row-major iteration of the x-pencil
local array (shape `[n0, sz1, sz2]`). -/
def split_xy3 {T : Type} (xp : Pencil) (data : Nat × Nat × Nat → T) : List T :=
  (List.range (xp.distAt 0).sz).flatMap fun i =>
    (List.range (xp.distAt 1).sz).flatMap fun j =>
      (List.range (xp.distAt 2).sz).map fun k => data (i, j, k)

/-- Model of `decomp3.rs::split_yx`: y-pencil local array iterated with
axes 0 and 1 swapped. -/
def split_yx3 {T : Type} (yp : Pencil) (data : Nat × Nat × Nat → T) : List T :=
  (List.range (yp.distAt 1).sz).flatMap fun j =>
    (List.range (yp.distAt 0).sz).flatMap fun i =>
      (List.range (yp.distAt 2).sz).map fun k => data (i, j, k)

/-- Model of `decomp3.rs::split_yz`: y-pencil local array iterated with
axes 0 and 1 swapped. -/
def split_yz3 {T : Type} (yp : Pencil) (data : Nat × Nat × Nat → T) : List T :=
  (List.range (yp.distAt 1).sz).flatMap fun j =>
    (List.range (yp.distAt 0).sz).flatMap fun i =>
      (List.range (yp.distAt 2).sz).map fun k => data (i, j, k)

/-- Model of `decomp3.rs::split_zy`: z-pencil local array iterated with
axes 0 and 2 swapped. -/
def split_zy3 {T : Type} (zp : Pencil) (data : Nat × Nat × Nat → T) : List T :=
  (List.range (zp.distAt 2).sz).flatMap fun k =>
    (List.range (zp.distAt 1).sz).flatMap fun j =>
      (List.range (zp.distAt 0).sz).map fun i => data (i, j, k)

/-- Iteration order of the loop nest in `decomp3.rs::merge_xy`:
`for proc { for i { for j in j1..=j2 { for k } } }`. -/
def merge_xy3_keys (xp yp : Pencil) : List (Nat × Nat × Nat) :=
  (List.range (xp.nprocs_along_axis 1)).flatMap fun np =>
    (List.range (yp.distAt 0).sz).flatMap fun i =>
      (List.range' ((xp.distAt 1).st_procs.getD np 0)
        ((xp.distAt 1).en_procs.getD np 0 + 1 - (xp.distAt 1).st_procs.getD np 0)).flatMap
        fun j =>
        (List.range (yp.distAt 2).sz).map fun k => (i, j, k)

/-- Model of `decomp3.rs::merge_xy`. -/
def merge_xy3 {T : Type} [Inhabited T] (xp yp : Pencil) (buf : List T)
    (data : Nat × Nat × Nat → T) : Nat × Nat × Nat → T :=
  writeSeq data (merge_xy3_keys xp yp) buf 0

/-- Iteration order of the loop nest in `decomp3.rs::merge_yx`:
`for proc { for j { for i in i1..=i2 { for k } } }`. -/
def merge_yx3_keys (yp xp : Pencil) : List (Nat × Nat × Nat) :=
  (List.range (yp.nprocs_along_axis 0)).flatMap fun np =>
    (List.range (xp.distAt 1).sz).flatMap fun j =>
      (List.range' ((yp.distAt 0).st_procs.getD np 0)
        ((yp.distAt 0).en_procs.getD np 0 + 1 - (yp.distAt 0).st_procs.getD np 0)).flatMap
        fun i =>
        (List.range (xp.distAt 2).sz).map fun k => (i, j, k)

/-- Model of `decomp3.rs::merge_yx`. -/
def merge_yx3 {T : Type} [Inhabited T] (yp xp : Pencil) (buf : List T)
    (data : Nat × Nat × Nat → T) : Nat × Nat × Nat → T :=
  writeSeq data (merge_yx3_keys yp xp) buf 0

/-- Iteration order of the loop nest in `decomp3.rs::merge_yz`:
`for proc { for j { for i { for k in k1..=k2 } } }`. -/
def merge_yz3_keys (yp zp : Pencil) : List (Nat × Nat × Nat) :=
  (List.range (yp.nprocs_along_axis 2)).flatMap fun np =>
    (List.range (zp.distAt 1).sz).flatMap fun j =>
      (List.range (zp.distAt 0).sz).flatMap fun i =>
        (List.range' ((yp.distAt 2).st_procs.getD np 0)
          ((yp.distAt 2).en_procs.getD np 0 + 1 - (yp.distAt 2).st_procs.getD np 0)).map
          fun k => (i, j, k)

/-- Model of `decomp3.rs::merge_yz`. -/
def merge_yz3 {T : Type} [Inhabited T] (yp zp : Pencil) (buf : List T)
    (data : Nat × Nat × Nat → T) : Nat × Nat × Nat → T :=
  writeSeq data (merge_yz3_keys yp zp) buf 0

/-- Iteration order of the loop nest in `decomp3.rs::merge_zy`:
`for proc { for k { for j in j1..=j2 { for i } } }`. -/
def merge_zy3_keys (zp yp : Pencil) : List (Nat × Nat × Nat) :=
  (List.range (zp.nprocs_along_axis 1)).flatMap fun np =>
    (List.range (yp.distAt 2).sz).flatMap fun k =>
      (List.range' ((zp.distAt 1).st_procs.getD np 0)
        ((zp.distAt 1).en_procs.getD np 0 + 1 - (zp.distAt 1).st_procs.getD np 0)).flatMap
        fun j =>
        (List.range (yp.distAt 0).sz).map fun i => (i, j, k)

/-- Model of `decomp3.rs::merge_zy`. -/
def merge_zy3 {T : Type} [Inhabited T] (zp yp : Pencil) (buf : List T)
    (data : Nat × Nat × Nat → T) : Nat × Nat × Nat → T :=
  writeSeq data (merge_zy3_keys zp yp) buf 0

/-- Counts/displacements computed at coordinates `(c0, c1)` for
`Decomp3::transpose_x_to_y`. -/
def xyCounts3 (n0 n1 n2 p0 p1 c0 c1 : Nat) : Option (List Nat × List Nat) :=
  send_counts_all_to_all (decomp3_x_pencil n0 n1 n2 p0 p1 c0 c1)
    (decomp3_y_pencil n0 n1 n2 p0 p1 c0 c1)

/-- Counts/displacements computed at coordinates `(c0, c1)` for
`Decomp3::transpose_y_to_x`. -/
def yxCounts3 (n0 n1 n2 p0 p1 c0 c1 : Nat) : Option (List Nat × List Nat) :=
  send_counts_all_to_all (decomp3_y_pencil n0 n1 n2 p0 p1 c0 c1)
    (decomp3_x_pencil n0 n1 n2 p0 p1 c0 c1)

/-- Counts/displacements computed at coordinates `(c0, c1)` for
`Decomp3::transpose_y_to_z`. -/
def yzCounts3 (n0 n1 n2 p0 p1 c0 c1 : Nat) : Option (List Nat × List Nat) :=
  send_counts_all_to_all (decomp3_y_pencil n0 n1 n2 p0 p1 c0 c1)
    (decomp3_z_pencil n0 n1 n2 p0 p1 c0 c1)

/-- Counts/displacements computed at coordinates `(c0, c1)` for
`Decomp3::transpose_z_to_y`. -/
def zyCounts3 (n0 n1 n2 p0 p1 c0 c1 : Nat) : Option (List Nat × List Nat) :=
  send_counts_all_to_all (decomp3_z_pencil n0 n1 n2 p0 p1 c0 c1)
    (decomp3_y_pencil n0 n1 n2 p0 p1 c0 c1)

/-- Global model of `Decomp3::transpose_x_to_y`: the exchange runs along
cartesian dimension 0 (`x.subcomm_along_axis(1)`), so processes sharing
`c1` exchange among themselves, destination sub-rank = coordinate `c0`. -/
def transpose_x_to_y_3 {T : Type} [Inhabited T] (n0 n1 n2 p0 p1 : Nat)
    (A init : Nat → Nat → Nat × Nat × Nat → T) :
    Option (Nat → Nat → Nat × Nat × Nat → T) :=
  if (List.range p0).all (fun c0 => (List.range p1).all (fun c1 =>
      (xyCounts3 n0 n1 n2 p0 p1 c0 c1).isSome &&
      (yxCounts3 n0 n1 n2 p0 p1 c0 c1).isSome)) then
    some (fun c0 c1 =>
      merge_xy3 (decomp3_x_pencil n0 n1 n2 p0 p1 c0 c1)
        (decomp3_y_pencil n0 n1 n2 p0 p1 c0 c1)
        (allToAllV p0
          (fun q => split_xy3 (decomp3_x_pencil n0 n1 n2 p0 p1 q c1) (A q c1))
          (fun q rr => ((xyCounts3 n0 n1 n2 p0 p1 q c1).getD ([], [])).1.getD rr 0)
          (fun q rr => ((xyCounts3 n0 n1 n2 p0 p1 q c1).getD ([], [])).2.getD rr 0) c0)
        (init c0 c1))
  else none

/-- Global model of `Decomp3::transpose_y_to_x` (exchange along cartesian
dimension 0). -/
def transpose_y_to_x_3 {T : Type} [Inhabited T] (n0 n1 n2 p0 p1 : Nat)
    (A init : Nat → Nat → Nat × Nat × Nat → T) :
    Option (Nat → Nat → Nat × Nat × Nat → T) :=
  if (List.range p0).all (fun c0 => (List.range p1).all (fun c1 =>
      (yxCounts3 n0 n1 n2 p0 p1 c0 c1).isSome &&
      (xyCounts3 n0 n1 n2 p0 p1 c0 c1).isSome)) then
    some (fun c0 c1 =>
      merge_yx3 (decomp3_y_pencil n0 n1 n2 p0 p1 c0 c1)
        (decomp3_x_pencil n0 n1 n2 p0 p1 c0 c1)
        (allToAllV p0
          (fun q => split_yx3 (decomp3_y_pencil n0 n1 n2 p0 p1 q c1) (A q c1))
          (fun q rr => ((yxCounts3 n0 n1 n2 p0 p1 q c1).getD ([], [])).1.getD rr 0)
          (fun q rr => ((yxCounts3 n0 n1 n2 p0 p1 q c1).getD ([], [])).2.getD rr 0) c0)
        (init c0 c1))
  else none

/-- Global model of `Decomp3::transpose_y_to_z` (exchange along cartesian
dimension 1: processes sharing `c0` exchange, destination sub-rank = `c1`). -/
def transpose_y_to_z_3 {T : Type} [Inhabited T] (n0 n1 n2 p0 p1 : Nat)
    (A init : Nat → Nat → Nat × Nat × Nat → T) :
    Option (Nat → Nat → Nat × Nat × Nat → T) :=
  if (List.range p0).all (fun c0 => (List.range p1).all (fun c1 =>
      (yzCounts3 n0 n1 n2 p0 p1 c0 c1).isSome &&
      (zyCounts3 n0 n1 n2 p0 p1 c0 c1).isSome)) then
    some (fun c0 c1 =>
      merge_yz3 (decomp3_y_pencil n0 n1 n2 p0 p1 c0 c1)
        (decomp3_z_pencil n0 n1 n2 p0 p1 c0 c1)
        (allToAllV p1
          (fun q => split_yz3 (decomp3_y_pencil n0 n1 n2 p0 p1 c0 q) (A c0 q))
          (fun q rr => ((yzCounts3 n0 n1 n2 p0 p1 c0 q).getD ([], [])).1.getD rr 0)
          (fun q rr => ((yzCounts3 n0 n1 n2 p0 p1 c0 q).getD ([], [])).2.getD rr 0) c1)
        (init c0 c1))
  else none

/-- Global model of `Decomp3::transpose_z_to_y` (exchange along cartesian
dimension 1). -/
def transpose_z_to_y_3 {T : Type} [Inhabited T] (n0 n1 n2 p0 p1 : Nat)
    (A init : Nat → Nat → Nat × Nat × Nat → T) :
    Option (Nat → Nat → Nat × Nat × Nat → T) :=
  if (List.range p0).all (fun c0 => (List.range p1).all (fun c1 =>
      (zyCounts3 n0 n1 n2 p0 p1 c0 c1).isSome &&
      (yzCounts3 n0 n1 n2 p0 p1 c0 c1).isSome)) then
    some (fun c0 c1 =>
      merge_zy3 (decomp3_z_pencil n0 n1 n2 p0 p1 c0 c1)
        (decomp3_y_pencil n0 n1 n2 p0 p1 c0 c1)
        (allToAllV p1
          (fun q => split_zy3 (decomp3_z_pencil n0 n1 n2 p0 p1 c0 q) (A c0 q))
          (fun q rr => ((zyCounts3 n0 n1 n2 p0 p1 c0 q).getD ([], [])).1.getD rr 0)
          (fun q rr => ((zyCounts3 n0 n1 n2 p0 p1 c0 q).getD ([], [])).2.getD rr 0) c1)
        (init c0 c1))
  else none

/-! ## Gather-to-root models (`gather_into_root_along_axis`, `Decomp2::gather_*`) -/

/-- Lengths of the buffers allocated by `gather_into_root_along_axis` on a
process whose rank within the sub-group along the gathered axis is
`subRank`: both branches allocate the local send buffer of length
`pencil.len()`; only the root branch (`subRank == 0`) allocates the
receive buffer of length `pencil.len_global()`. -/
def gather_alloc_lens (pencil : Pencil) (subRank : Nat) : List Nat :=
  if subRank = 0 then [pencil.len, pencil.len_global] else [pencil.len]

/-- Model of the shape assertions at the top of `Decomp2::gather_x`
(`assert_eq_shape!(snd, x_pencil)` and `assert_eq!(rcv.shape(), n_global)`);
they run on every process, root or not. -/
def gather_x_shape_ok (n_global : List Nat) (x_pencil : Pencil)
    (sndShape rcvShape : List Nat) : Bool :=
  sndShape == x_pencil.shape && rcvShape == n_global

/-! # Theorems

First the closed-form characterisation of `Distribution::distribute`,
then the claim theorems. -/

lemma foldlM_option_some {β : Type} (f : β → Nat → Option β) (g : β → Nat → β)
    (l : List Nat) (h : ∀ b i, i ∈ l → f b i = some (g b i)) :
    ∀ b, l.foldlM f b = some (l.foldl g b) := by
  induction l with
  | nil => intro b; rfl
  | cons x xs ih =>
    intro b
    have hx : f b x = some (g b x) := h b x (by simp)
    rw [List.foldlM_cons, hx]
    simp only [Option.bind_eq_bind, Option.some_bind]
    rw [ih (fun b i hi => h b i (by simp [hi]))]
    rfl

lemma mapM_option_some (f : Nat → Option Nat) (g : Nat → Nat) (l : List Nat)
    (h : ∀ i, i ∈ l → f i = some (g i)) :
    l.mapM f = some (l.map g) := by
  induction l with
  | nil => rfl
  | cons x xs ih =>
    rw [List.mapM_cons, h x (by simp)]
    simp only [Option.bind_eq_bind, Option.some_bind]
    rw [ih (fun i hi => h i (by simp [hi]))]
    rfl

lemma stClosed_zero (b nl : Nat) : stClosed b nl 0 = 0 := by
  simp [stClosed]

lemma stClosed_succ (b nl i : Nat) :
    stClosed b nl (i + 1) = stClosed b nl i + szClosed b nl i := by
  unfold stClosed szClosed
  rw [Nat.succ_mul]
  split_ifs <;> omega

lemma szClosed_pos (b nl i : Nat) (hb : 1 ≤ b) : 1 ≤ szClosed b nl i := by
  unfold szClosed; split_ifs <;> omega

lemma stClosed_lt_of_lt (b nl : Nat) (hb : 1 ≤ b) {i j : Nat} (h : i < j) :
    stClosed b nl i < stClosed b nl j := by
  induction j with
  | zero => omega
  | succ j ih =>
    rw [stClosed_succ]
    have hsz := szClosed_pos b nl j hb
    rcases Nat.lt_succ_iff_lt_or_eq.mp h with h' | h'
    · exact Nat.lt_of_lt_of_le (ih h') (by omega)
    · subst h'; omega

lemma sum_szClosed (b nl : Nat) :
    ∀ k, ((List.range k).map (szClosed b nl)).sum = stClosed b nl k := by
  intro k
  induction k with
  | zero => simp [stClosed_zero]
  | succ k ih =>
    rw [List.range_succ, List.map_append, List.sum_append, stClosed_succ, ih]
    simp

lemma getD_map_range (f : Nat → Nat) {i p : Nat} (hi : i < p) (d : Nat) :
    ((List.range p).map f).getD i d = f i := by
  rw [List.getD_eq_getElem?_getD, List.getElem?_map, List.getElem?_range hi]
  rfl

lemma loop1_fold_spec (b : Nat) (hb : 1 ≤ b) :
    ∀ len i st en sz, 1 ≤ i →
      st (i - 1) = (i - 1) * b → en (i - 1) = i * b - 1 →
      ∀ j,
        ((((List.range' i len).foldl (distributeLoop1Body b) (st, en, sz)).1 j
            = if i ≤ j ∧ j < i + len then j * b else st j)
        ∧ ((((List.range' i len).foldl (distributeLoop1Body b) (st, en, sz)).2.1 j
            = if i ≤ j ∧ j < i + len then (j + 1) * b - 1 else en j))
        ∧ ((((List.range' i len).foldl (distributeLoop1Body b) (st, en, sz)).2.2 j
            = if i ≤ j ∧ j < i + len then b else sz j))) := by
  intro len
  induction len with
  | zero =>
    intro i st en sz hi hst hen j
    have hcond : ¬ (i ≤ j ∧ j < i + 0) := by omega
    rw [show List.range' i 0 = ([] : List Nat) from rfl, List.foldl_nil]
    simp only [if_neg hcond]
    exact ⟨trivial, trivial, trivial⟩
  | succ len ih =>
    intro i st en sz hi hst hen j
    have hib : 1 ≤ i * b := Nat.one_le_iff_ne_zero.mpr (by positivity)
    have hstv : st (i - 1) + b = i * b := by
      rw [hst]
      have h1 : (i - 1) + 1 = i := by omega
      calc (i - 1) * b + b = ((i - 1) + 1) * b := (Nat.succ_mul _ _).symm
        _ = i * b := by rw [h1]
    have henv : en (i - 1) + b = (i + 1) * b - 1 := by
      rw [hen]
      have h2 : (i + 1) * b = i * b + b := Nat.succ_mul i b
      omega
    rw [show List.range' i (len + 1) = i :: List.range' (i + 1) len from rfl,
      List.foldl_cons,
      show distributeLoop1Body b (st, en, sz) i =
        (Function.update st i (st (i - 1) + b),
         Function.update en i (en (i - 1) + b),
         Function.update sz i b) from rfl]
    have hmain := ih (i + 1)
      (Function.update st i (st (i - 1) + b))
      (Function.update en i (en (i - 1) + b))
      (Function.update sz i b)
      (by omega)
      (by rw [Nat.add_sub_cancel, Function.update_same, hstv])
      (by rw [Nat.add_sub_cancel, Function.update_same, henv])
      j
    refine ⟨?_, ?_, ?_⟩
    · rw [hmain.1]
      by_cases hj : j = i
      · subst hj
        rw [if_neg (by omega), if_pos (by omega), Function.update_same, hstv]
      · rw [Function.update_noteq hj]
        split_ifs <;> first | rfl | omega
    · rw [hmain.2.1]
      by_cases hj : j = i
      · subst hj
        rw [if_neg (by omega), if_pos (by omega), Function.update_same, henv]
      · rw [Function.update_noteq hj]
        split_ifs <;> first | rfl | omega
    · rw [hmain.2.2]
      by_cases hj : j = i
      · subst hj
        rw [if_neg (by omega), if_pos (by omega), Function.update_same]
      · rw [Function.update_noteq hj]
        split_ifs <;> first | rfl | omega

lemma distributeLoop1_spec (b nl : Nat) (hb : 1 ≤ b) :
    ∀ k i st en sz, nl - i = k → 1 ≤ i →
      st (i - 1) = (i - 1) * b → en (i - 1) = i * b - 1 →
      ∀ j,
        ((distributeLoop1 b nl i st en sz).1 j
            = if i ≤ j ∧ j < nl then j * b else st j)
        ∧ ((distributeLoop1 b nl i st en sz).2.1 j
            = if i ≤ j ∧ j < nl then (j + 1) * b - 1 else en j)
        ∧ ((distributeLoop1 b nl i st en sz).2.2 j
            = if i ≤ j ∧ j < nl then b else sz j) := by
  intro k i st en sz hk hi hst hen j
  have h := loop1_fold_spec b hb (nl - i) i st en sz hi hst hen j
  unfold distributeLoop1
  refine ⟨?_, ?_, ?_⟩
  · by_cases hc : i ≤ j ∧ j < nl
    · rw [if_pos hc]
      have h1 := h.1
      rw [if_pos (show i ≤ j ∧ j < i + (nl - i) by omega)] at h1
      exact h1
    · rw [if_neg hc]
      have h1 := h.1
      rw [if_neg (show ¬ (i ≤ j ∧ j < i + (nl - i)) by omega)] at h1
      exact h1
  · by_cases hc : i ≤ j ∧ j < nl
    · rw [if_pos hc]
      have h1 := h.2.1
      rw [if_pos (show i ≤ j ∧ j < i + (nl - i) by omega)] at h1
      exact h1
    · rw [if_neg hc]
      have h1 := h.2.1
      rw [if_neg (show ¬ (i ≤ j ∧ j < i + (nl - i)) by omega)] at h1
      exact h1
  · by_cases hc : i ≤ j ∧ j < nl
    · rw [if_pos hc]
      have h1 := h.2.2
      rw [if_pos (show i ≤ j ∧ j < i + (nl - i) by omega)] at h1
      exact h1
    · rw [if_neg hc]
      have h1 := h.2.2
      rw [if_neg (show ¬ (i ≤ j ∧ j < i + (nl - i)) by omega)] at h1
      exact h1

lemma stClosed_ge_one (b nl i : Nat) (hb : 1 ≤ b) (hi : 1 ≤ i) :
    1 ≤ stClosed b nl i := by
  unfold stClosed
  have : 1 ≤ i * b := Nat.one_le_iff_ne_zero.mpr (by positivity)
  omega

lemma stClosed_of_le (b nl i : Nat) (h : i ≤ nl) : stClosed b nl i = i * b := by
  unfold stClosed
  omega

lemma szClosed_of_lt (b nl i : Nat) (h : i < nl) : szClosed b nl i = b := by
  unfold szClosed
  rw [if_pos h]

lemma szClosed_of_ge (b nl i : Nat) (h : nl ≤ i) : szClosed b nl i = b + 1 := by
  unfold szClosed
  rw [if_neg (by omega)]

lemma loop2_fold_spec (b nl : Nat) (hb : 1 ≤ b) :
    ∀ len i st en sz, nl ≤ i → 1 ≤ i →
      en (i - 1) = stClosed b nl i - 1 →
      ∀ j,
        ((((List.range' i len).foldl (distributeLoop2Body (b + 1)) (st, en, sz)).1 j
            = if i ≤ j ∧ j < i + len then stClosed b nl j else st j)
        ∧ ((((List.range' i len).foldl (distributeLoop2Body (b + 1)) (st, en, sz)).2.1 j
            = if i ≤ j ∧ j < i + len then stClosed b nl (j + 1) - 1 else en j))
        ∧ ((((List.range' i len).foldl (distributeLoop2Body (b + 1)) (st, en, sz)).2.2 j
            = if i ≤ j ∧ j < i + len then b + 1 else sz j))) := by
  intro len
  induction len with
  | zero =>
    intro i st en sz hnli hi hen j
    have hcond : ¬ (i ≤ j ∧ j < i + 0) := by omega
    rw [show List.range' i 0 = ([] : List Nat) from rfl, List.foldl_nil]
    simp only [if_neg hcond]
    exact ⟨trivial, trivial, trivial⟩
  | succ len ih =>
    intro i st en sz hnli hi hen j
    have hst1 : 1 ≤ stClosed b nl i := stClosed_ge_one b nl i hb hi
    have hsuc : stClosed b nl (i + 1) = stClosed b nl i + (b + 1) := by
      rw [stClosed_succ]
      have : szClosed b nl i = b + 1 := by unfold szClosed; rw [if_neg (by omega)]
      omega
    have hstv : en (i - 1) + 1 = stClosed b nl i := by omega
    have henv : en (i - 1) + (b + 1) = stClosed b nl (i + 1) - 1 := by omega
    rw [show List.range' i (len + 1) = i :: List.range' (i + 1) len from rfl,
      List.foldl_cons,
      show distributeLoop2Body (b + 1) (st, en, sz) i =
        (Function.update st i (en (i - 1) + 1),
         Function.update en i (en (i - 1) + (b + 1)),
         Function.update sz i (b + 1)) from rfl]
    have hmain := ih (i + 1)
      (Function.update st i (en (i - 1) + 1))
      (Function.update en i (en (i - 1) + (b + 1)))
      (Function.update sz i (b + 1))
      (by omega) (by omega)
      (by rw [Nat.add_sub_cancel, Function.update_same, henv])
      j
    refine ⟨?_, ?_, ?_⟩
    · rw [hmain.1]
      by_cases hj : j = i
      · subst hj
        rw [if_neg (by omega), if_pos (by omega), Function.update_same, hstv]
      · rw [Function.update_noteq hj]
        split_ifs <;> first | rfl | omega
    · rw [hmain.2.1]
      by_cases hj : j = i
      · subst hj
        rw [if_neg (by omega), if_pos (by omega), Function.update_same, henv]
      · rw [Function.update_noteq hj]
        split_ifs <;> first | rfl | omega
    · rw [hmain.2.2]
      by_cases hj : j = i
      · subst hj
        rw [if_neg (by omega), if_pos (by omega), Function.update_same]
      · rw [Function.update_noteq hj]
        split_ifs <;> first | rfl | omega

lemma distributeLoop2_spec (b nl p : Nat) (hb : 1 ≤ b) :
    ∀ k i st en sz, p - i = k → nl ≤ i → 1 ≤ i →
      en (i - 1) = stClosed b nl i - 1 →
      ∀ j,
        ((distributeLoop2 (b + 1) p i st en sz).1 j
            = if i ≤ j ∧ j < p then stClosed b nl j else st j)
        ∧ ((distributeLoop2 (b + 1) p i st en sz).2.1 j
            = if i ≤ j ∧ j < p then stClosed b nl (j + 1) - 1 else en j)
        ∧ ((distributeLoop2 (b + 1) p i st en sz).2.2 j
            = if i ≤ j ∧ j < p then b + 1 else sz j) := by
  intro k i st en sz hk hnli hi hen j
  have h := loop2_fold_spec b nl hb (p - i) i st en sz hnli hi hen j
  unfold distributeLoop2
  refine ⟨?_, ?_, ?_⟩
  · by_cases hc : i ≤ j ∧ j < p
    · rw [if_pos hc]
      have h1 := h.1
      rw [if_pos (show i ≤ j ∧ j < i + (p - i) by omega)] at h1
      exact h1
    · rw [if_neg hc]
      have h1 := h.1
      rw [if_neg (show ¬ (i ≤ j ∧ j < i + (p - i)) by omega)] at h1
      exact h1
  · by_cases hc : i ≤ j ∧ j < p
    · rw [if_pos hc]
      have h1 := h.2.1
      rw [if_pos (show i ≤ j ∧ j < i + (p - i) by omega)] at h1
      exact h1
    · rw [if_neg hc]
      have h1 := h.2.1
      rw [if_neg (show ¬ (i ≤ j ∧ j < i + (p - i)) by omega)] at h1
      exact h1
  · by_cases hc : i ≤ j ∧ j < p
    · rw [if_pos hc]
      have h1 := h.2.2
      rw [if_pos (show i ≤ j ∧ j < i + (p - i) by omega)] at h1
      exact h1
    · rw [if_neg hc]
      have h1 := h.2.2
      rw [if_neg (show ¬ (i ≤ j ∧ j < i + (p - i)) by omega)] at h1
      exact h1


/-- Central characterisation of `Distribution::distribute`: under the
preconditions `1 ≤ p ≤ n` the three produced vectors are the closed
forms `stClosed`, `enClosed`, `szClosed` with `b = n / p`,
`nl = p - n % p`. -/
theorem distribute_eq (n p : Nat) (hp : 1 ≤ p) (hpn : p ≤ n) :
    Distribution.distribute n p =
      ((List.range p).map (stClosed (n / p) (p - n % p)),
       (List.range p).map (enClosed (n / p) (p - n % p)),
       (List.range p).map (szClosed (n / p) (p - n % p))) := by
  have hb : 1 ≤ n / p := (Nat.one_le_div_iff (by omega)).mpr hpn
  have hmodlt : n % p < p := Nat.mod_lt _ (by omega)
  have hdm : p * (n / p) + n % p = n := Nat.div_add_mod n p
  have hcomm : n / p * p = p * (n / p) := Nat.mul_comm _ _
  have hnu : n - n / p * p = n % p := by omega
  simp only [Distribution.distribute]
  rw [hnu]
  set b := n / p with hbdef
  set nl := p - n % p with hnldef
  have hnl1 : 1 ≤ nl := by omega
  have hnlp : nl ≤ p := by omega
  have hstp : stClosed b nl p = n := by
    unfold stClosed
    have h1 : p - nl = n % p := by omega
    rw [h1]
    omega
  have l1 := distributeLoop1_spec b nl hb (nl - 1) 1
    (Function.update (fun _ => 0) 0 0)
    (Function.update (fun _ => 0) 0 (b - 1))
    (Function.update (fun _ => 0) 0 b)
    (by omega) (by omega)
    (by simp [Function.update_same])
    (by simp [Function.update_same])
  set st1 := (distributeLoop1 b nl 1
    (Function.update (fun _ => 0) 0 0)
    (Function.update (fun _ => 0) 0 (b - 1))
    (Function.update (fun _ => 0) 0 b)).1 with hst1
  set en1 := (distributeLoop1 b nl 1
    (Function.update (fun _ => 0) 0 0)
    (Function.update (fun _ => 0) 0 (b - 1))
    (Function.update (fun _ => 0) 0 b)).2.1 with hen1
  set sz1 := (distributeLoop1 b nl 1
    (Function.update (fun _ => 0) 0 0)
    (Function.update (fun _ => 0) 0 (b - 1))
    (Function.update (fun _ => 0) 0 b)).2.2 with hsz1
  have hen1v : en1 (nl - 1) = stClosed b nl nl - 1 := by
    rcases Nat.eq_or_lt_of_le hnl1 with h1 | h1
    · have h0 : nl - 1 = 0 := by omega
      rw [h0, (l1 0).2.1, if_neg (by omega), Function.update_same, ← h1]
      simp [stClosed]
    · rw [(l1 (nl - 1)).2.1, if_pos (by omega), Nat.sub_add_cancel hnl1,
        stClosed_of_le b nl nl (le_refl nl)]
  have l2 := distributeLoop2_spec b nl p hb (p - nl) nl st1 en1 sz1
    rfl (le_refl nl) hnl1 hen1v
  set st2 := (distributeLoop2 (b + 1) p nl st1 en1 sz1).1 with hst2
  set en2 := (distributeLoop2 (b + 1) p nl st1 en1 sz1).2.1 with hen2
  set sz2 := (distributeLoop2 (b + 1) p nl st1 en1 sz1).2.2 with hsz2
  have hstv : ∀ j, j < p → st2 j = stClosed b nl j := by
    intro j hj
    rw [(l2 j).1]
    by_cases hcase : nl ≤ j
    · rw [if_pos ⟨hcase, hj⟩]
    · rw [if_neg (by omega), (l1 j).1]
      by_cases h0 : 1 ≤ j
      · rw [if_pos ⟨h0, by omega⟩, stClosed_of_le b nl j (by omega)]
      · have h00 : j = 0 := by omega
        subst h00
        rw [if_neg (by omega), Function.update_same, stClosed_zero]
  have henv : ∀ j, j < p → en2 j = stClosed b nl (j + 1) - 1 := by
    intro j hj
    rw [(l2 j).2.1]
    by_cases hcase : nl ≤ j
    · rw [if_pos ⟨hcase, hj⟩]
    · rw [if_neg (by omega), (l1 j).2.1]
      by_cases h0 : 1 ≤ j
      · rw [if_pos ⟨h0, by omega⟩, stClosed_of_le b nl (j + 1) (by omega)]
      · have h00 : j = 0 := by omega
        subst h00
        rw [if_neg (by omega), Function.update_same,
          stClosed_of_le b nl 1 (by omega), Nat.one_mul]
  have hszv : ∀ j, j < p → sz2 j = szClosed b nl j := by
    intro j hj
    rw [(l2 j).2.2]
    by_cases hcase : nl ≤ j
    · rw [if_pos ⟨hcase, hj⟩, szClosed_of_ge b nl j hcase]
    · rw [if_neg (by omega), (l1 j).2.2, szClosed_of_lt b nl j (by omega)]
      by_cases h0 : 1 ≤ j
      · rw [if_pos ⟨h0, by omega⟩]
      · have h00 : j = 0 := by omega
        subst h00
        rw [if_neg (by omega), Function.update_same]
  have hlast : stClosed b nl (p - 1) + szClosed b nl (p - 1) = n := by
    have hsc := stClosed_succ b nl (p - 1)
    rw [Nat.sub_add_cancel hp] at hsc
    omega
  have hszlast : 1 ≤ szClosed b nl (p - 1) := szClosed_pos b nl _ hb
  refine Prod.ext ?_ (Prod.ext ?_ ?_)
  · apply List.map_congr_left
    intro j hj
    exact hstv j (List.mem_range.mp hj)
  · apply List.map_congr_left
    intro j hj
    have hjp : j < p := List.mem_range.mp hj
    by_cases hcase : j = p - 1
    · subst hcase
      rw [Function.update_same]
      unfold enClosed
      rw [Nat.sub_add_cancel hp, hstp]
    · rw [Function.update_noteq hcase, henv j hjp]
      rfl
  · apply List.map_congr_left
    intro j hj
    have hjp : j < p := List.mem_range.mp hj
    by_cases hcase : j = p - 1
    · subst hcase
      rw [Function.update_same, Function.update_same, hstv _ hjp]
      omega
    · rw [Function.update_noteq hcase, hszv j hjp]

lemma stClosed_p (n p : Nat) (hp : 1 ≤ p) (hpn : p ≤ n) :
    stClosed (n / p) (p - n % p) p = n := by
  have hdm : p * (n / p) + n % p = n := Nat.div_add_mod n p
  have hmodlt : n % p < p := Nat.mod_lt _ (by omega)
  unfold stClosed
  have h1 : p - (p - n % p) = n % p := by omega
  rw [h1]
  have hcomm : n / p * p = p * (n / p) := Nat.mul_comm _ _
  omega

lemma split_st_procs (n p rank : Nat) (hp : 1 ≤ p) (hpn : p ≤ n) :
    (Distribution.split n p rank).st_procs =
      (List.range p).map (stClosed (n / p) (p - n % p)) := by
  simp only [Distribution.split]
  rw [distribute_eq n p hp hpn]

lemma split_en_procs (n p rank : Nat) (hp : 1 ≤ p) (hpn : p ≤ n) :
    (Distribution.split n p rank).en_procs =
      (List.range p).map (enClosed (n / p) (p - n % p)) := by
  simp only [Distribution.split]
  rw [distribute_eq n p hp hpn]

lemma split_sz_procs (n p rank : Nat) (hp : 1 ≤ p) (hpn : p ≤ n) :
    (Distribution.split n p rank).sz_procs =
      (List.range p).map (szClosed (n / p) (p - n % p)) := by
  simp only [Distribution.split]
  rw [distribute_eq n p hp hpn]

lemma split_st (n p rank : Nat) (hp : 1 ≤ p) (hpn : p ≤ n) (hr : rank < p) :
    (Distribution.split n p rank).st = stClosed (n / p) (p - n % p) rank := by
  simp only [Distribution.split]
  rw [distribute_eq n p hp hpn]
  exact getD_map_range _ hr 0

lemma split_en (n p rank : Nat) (hp : 1 ≤ p) (hpn : p ≤ n) (hr : rank < p) :
    (Distribution.split n p rank).en = enClosed (n / p) (p - n % p) rank := by
  simp only [Distribution.split]
  rw [distribute_eq n p hp hpn]
  exact getD_map_range _ hr 0

lemma split_sz (n p rank : Nat) (hp : 1 ≤ p) (hpn : p ≤ n) (hr : rank < p) :
    (Distribution.split n p rank).sz = szClosed (n / p) (p - n % p) rank := by
  simp only [Distribution.split]
  rw [distribute_eq n p hp hpn]
  exact getD_map_range _ hr 0

/-- C2: for `n ≥ p ≥ 1` and any rank, `Distribution::split(n, p, rank)`
produces contiguous, non-overlapping, rank-ordered chunks:
`st_procs[0] = 0`, `st_procs[i] = en_procs[i-1] + 1` for `1 ≤ i < p`,
`en_procs[i] = st_procs[i] + sz_procs[i] - 1`, `en_procs[p-1] = n - 1`,
and the `sz_procs` values sum to exactly `n` (the chunks cover `[0, n)`). -/
theorem claim_C2_split_partition (n p rank : Nat) (hp : 1 ≤ p) (hpn : p ≤ n) :
    (Distribution.split n p rank).st_procs.getD 0 0 = 0 ∧
    (∀ i, 1 ≤ i → i < p →
      (Distribution.split n p rank).st_procs.getD i 0 =
        (Distribution.split n p rank).en_procs.getD (i - 1) 0 + 1) ∧
    (∀ i, i < p →
      (Distribution.split n p rank).en_procs.getD i 0 =
        (Distribution.split n p rank).st_procs.getD i 0 +
          (Distribution.split n p rank).sz_procs.getD i 0 - 1) ∧
    (Distribution.split n p rank).en_procs.getD (p - 1) 0 = n - 1 ∧
    (Distribution.split n p rank).sz_procs.sum = n := by
  have hb : 1 ≤ n / p := (Nat.one_le_div_iff (by omega)).mpr hpn
  rw [split_st_procs n p rank hp hpn, split_en_procs n p rank hp hpn,
    split_sz_procs n p rank hp hpn]
  refine ⟨?_, ?_, ?_, ?_, ?_⟩
  · rw [getD_map_range _ (by omega) 0, stClosed_zero]
  · intro i h1 hi
    rw [getD_map_range _ hi 0, getD_map_range _ (by omega) 0]
    unfold enClosed
    rw [Nat.sub_add_cancel h1]
    have := stClosed_ge_one (n / p) (p - n % p) i hb h1
    omega
  · intro i hi
    rw [getD_map_range _ hi 0, getD_map_range _ hi 0, getD_map_range _ hi 0]
    unfold enClosed
    rw [stClosed_succ]
  · rw [getD_map_range _ (by omega) 0]
    unfold enClosed
    rw [Nat.sub_add_cancel hp, stClosed_p n p hp hpn]
  · rw [sum_szClosed, stClosed_p n p hp hpn]

/-- C3: for `n ≥ p ≥ 1`, with `base = n / p` and
`remainder = n - base * p`, `split` gives exactly `base` elements to each
of the first `p - remainder` ranks and `base + 1` to each of the last
`remainder` ranks; consequently chunk sizes differ by at most 1. -/
theorem claim_C3_split_balanced (n p rank : Nat) (hp : 1 ≤ p) (hpn : p ≤ n) :
    (∀ i, i < p - (n - n / p * p) →
      (Distribution.split n p rank).sz_procs.getD i 0 = n / p) ∧
    (∀ i, p - (n - n / p * p) ≤ i → i < p →
      (Distribution.split n p rank).sz_procs.getD i 0 = n / p + 1) ∧
    (∀ i j, i < p → j < p →
      (Distribution.split n p rank).sz_procs.getD i 0 ≤
        (Distribution.split n p rank).sz_procs.getD j 0 + 1) := by
  have hdm : p * (n / p) + n % p = n := Nat.div_add_mod n p
  have hcomm : n / p * p = p * (n / p) := Nat.mul_comm _ _
  have hnu : n - n / p * p = n % p := by omega
  rw [split_sz_procs n p rank hp hpn, hnu]
  refine ⟨?_, ?_, ?_⟩
  · intro i hi
    rw [getD_map_range _ (by omega) 0, szClosed_of_lt _ _ _ hi]
  · intro i h1 hi
    rw [getD_map_range _ hi 0, szClosed_of_ge _ _ _ h1]
  · intro i j hi hj
    rw [getD_map_range _ hi 0, getD_map_range _ hj 0]
    unfold szClosed
    split_ifs <;> omega

/-- Witness for C2 at `n = 7`, `p = 3`: the chunk sizes sum to 7. -/
theorem claim_C2_split_partition_witness :
    (Distribution.split 7 3 1).sz_procs.sum = 7 :=
  (claim_C2_split_partition 7 3 1 (by decide) (by decide)).2.2.2.2

/-- Witness for C3 at `n = 7`, `p = 3`: the last rank gets `base + 1`
elements. -/
theorem claim_C3_split_balanced_witness :
    (Distribution.split 7 3 0).sz_procs.getD 2 0 = 7 / 3 + 1 :=
  (claim_C3_split_balanced 7 3 0 (by decide) (by decide)).2.1 2 (by decide) (by decide)

/-! ### C9: the checked pipeline agrees with the plain model and
succeeds exactly under the preconditions -/

lemma distributeLoop1C_eq (b nl p : Nat) (hnlp : nl ≤ p) :
    ∀ k i st en sz, nl - i = k → 1 ≤ i →
      distributeLoop1C b nl p i st en sz = some (distributeLoop1 b nl i st en sz) := by
  intro k i st en sz hk hi
  unfold distributeLoop1C distributeLoop1
  apply foldlM_option_some
  intro sfun j hj
  have hmem := List.mem_range'_1.mp hj
  have h1j : 1 ≤ j := by omega
  have hjp : j < p := by omega
  have hjm : j - 1 < p := by omega
  unfold distributeLoop1BodyC distributeLoop1Body
  simp [csub, cidx, cset, h1j, hjp, hjm]

lemma distributeLoop2C_eq (b p : Nat) :
    ∀ k i st en sz, p - i = k → 1 ≤ i →
      distributeLoop2C b p p i st en sz = some (distributeLoop2 b p i st en sz) := by
  intro k i st en sz hk hi
  unfold distributeLoop2C distributeLoop2
  apply foldlM_option_some
  intro sfun j hj
  have hmem := List.mem_range'_1.mp hj
  have h1j : 1 ≤ j := by omega
  have hjp : j < p := by omega
  have hjm : j - 1 < p := by omega
  unfold distributeLoop2BodyC distributeLoop2Body
  simp [csub, cidx, cset, h1j, hjp, hjm]

lemma distributeCheckedPre_eq (n p : Nat) (hp : 1 ≤ p) (hpn : p ≤ n) :
    distributeCheckedPre n p = some
      { size := n / p, nl := p - (n - n / p * p),
        st := Function.update (fun _ => 0) 0 0,
        en := Function.update (fun _ => 0) 0 (n / p - 1),
        sz := Function.update (fun _ => 0) 0 (n / p) } := by
  have hb : 1 ≤ n / p := (Nat.one_le_div_iff (by omega)).mpr hpn
  have hmul : n / p * p ≤ n := Nat.div_mul_le_self n p
  have hdm : p * (n / p) + n % p = n := Nat.div_add_mod n p
  have hcomm : n / p * p = p * (n / p) := Nat.mul_comm _ _
  have hmodlt : n % p < p := Nat.mod_lt _ (by omega)
  have hnup : n - n / p * p ≤ p := by omega
  unfold distributeCheckedPre
  simp [cdiv, csub, cset, hb, hmul, hnup, show 0 < p by omega, show p ≠ 0 by omega]

lemma distributeChecked_eq (n p : Nat) (hp : 1 ≤ p) (hpn : p ≤ n) :
    distributeChecked n p = some (Distribution.distribute n p) := by
  have hb : 1 ≤ n / p := (Nat.one_le_div_iff (by omega)).mpr hpn
  have hmodlt : n % p < p := Nat.mod_lt _ (by omega)
  have hdm : p * (n / p) + n % p = n := Nat.div_add_mod n p
  have hcomm : n / p * p = p * (n / p) := Nat.mul_comm _ _
  have hnu : n - n / p * p = n % p := by omega
  have hnl1 : 1 ≤ p - n % p := by omega
  have hnlp : p - n % p ≤ p := by omega
  have l1 := distributeLoop1_spec (n / p) (p - n % p) hb ((p - n % p) - 1) 1
    (Function.update (fun _ => 0) 0 0)
    (Function.update (fun _ => 0) 0 (n / p - 1))
    (Function.update (fun _ => 0) 0 (n / p))
    (by omega) (by omega)
    (by simp [Function.update_same])
    (by simp [Function.update_same])
  have hen1v : (distributeLoop1 (n / p) (p - n % p) 1
      (Function.update (fun _ => 0) 0 0)
      (Function.update (fun _ => 0) 0 (n / p - 1))
      (Function.update (fun _ => 0) 0 (n / p))).2.1 ((p - n % p) - 1) =
      stClosed (n / p) (p - n % p) (p - n % p) - 1 := by
    rcases Nat.eq_or_lt_of_le hnl1 with h1 | h1
    · have h0 : p - n % p - 1 = 0 := by omega
      rw [h0, (l1 0).2.1, if_neg (by omega), Function.update_same, ← h1]
      simp [stClosed]
    · rw [(l1 (p - n % p - 1)).2.1, if_pos (by omega), Nat.sub_add_cancel hnl1,
        stClosed_of_le _ _ _ (le_refl _)]
  have l2 := distributeLoop2_spec (n / p) (p - n % p) p hb (p - (p - n % p)) (p - n % p)
    (distributeLoop1 (n / p) (p - n % p) 1
      (Function.update (fun _ => 0) 0 0)
      (Function.update (fun _ => 0) 0 (n / p - 1))
      (Function.update (fun _ => 0) 0 (n / p))).1
    (distributeLoop1 (n / p) (p - n % p) 1
      (Function.update (fun _ => 0) 0 0)
      (Function.update (fun _ => 0) 0 (n / p - 1))
      (Function.update (fun _ => 0) 0 (n / p))).2.1
    (distributeLoop1 (n / p) (p - n % p) 1
      (Function.update (fun _ => 0) 0 0)
      (Function.update (fun _ => 0) 0 (n / p - 1))
      (Function.update (fun _ => 0) 0 (n / p))).2.2
    rfl (le_refl _) hnl1 hen1v
  have hstl : (distributeLoop2 (n / p + 1) p (p - n % p)
      (distributeLoop1 (n / p) (p - n % p) 1
        (Function.update (fun _ => 0) 0 0)
        (Function.update (fun _ => 0) 0 (n / p - 1))
        (Function.update (fun _ => 0) 0 (n / p))).1
      (distributeLoop1 (n / p) (p - n % p) 1
        (Function.update (fun _ => 0) 0 0)
        (Function.update (fun _ => 0) 0 (n / p - 1))
        (Function.update (fun _ => 0) 0 (n / p))).2.1
      (distributeLoop1 (n / p) (p - n % p) 1
        (Function.update (fun _ => 0) 0 0)
        (Function.update (fun _ => 0) 0 (n / p - 1))
        (Function.update (fun _ => 0) 0 (n / p))).2.2).1 (p - 1) ≤ n - 1 := by
    have hbound : stClosed (n / p) (p - n % p) (p - 1) ≤ n - 1 := by
      have hsc := stClosed_succ (n / p) (p - n % p) (p - 1)
      rw [Nat.sub_add_cancel hp] at hsc
      have hstp := stClosed_p n p hp hpn
      have hsz1 := szClosed_pos (n / p) (p - n % p) (p - 1) hb
      omega
    rw [(l2 (p - 1)).1]
    by_cases hcase : p - n % p ≤ p - 1
    · rw [if_pos ⟨hcase, by omega⟩]
      exact hbound
    · rw [if_neg (by omega), (l1 (p - 1)).1]
      by_cases h0 : 1 ≤ p - 1
      · rw [if_pos ⟨h0, by omega⟩, ← stClosed_of_le (n / p) (p - n % p) (p - 1) (by omega)]
        exact hbound
      · have h00 : p - 1 = 0 := by omega
        rw [h00, if_neg (by omega), Function.update_same]
        omega
  unfold distributeChecked
  rw [distributeCheckedPre_eq n p hp hpn, hnu]
  simp only [Option.bind_eq_bind, Option.some_bind]
  rw [distributeLoop1C_eq (n / p) (p - n % p) p hnlp ((p - n % p) - 1) 1
    (Function.update (fun _ => 0) 0 0)
    (Function.update (fun _ => 0) 0 (n / p - 1))
    (Function.update (fun _ => 0) 0 (n / p)) (by omega) (le_refl 1)]
  simp only [Option.bind_eq_bind, Option.some_bind]
  rw [distributeLoop2C_eq (n / p + 1) p (p - (p - n % p)) (p - n % p) _ _ _ rfl hnl1]
  simp only [Option.bind_eq_bind, Option.some_bind]
  unfold distributeCheckedPost
  have h1 : csub p 1 = some (p - 1) := by simp [csub, hp]
  have h2 : csub n 1 = some (n - 1) := by simp [csub]; omega
  rw [h1, h2]
  simp only [Option.bind_eq_bind, Option.some_bind]
  simp only [cset, cidx, if_pos (show p - 1 < p by omega), Option.bind_eq_bind,
    Option.some_bind, Function.update_same]
  have h3 : csub (n - 1)
      ((distributeLoop2 (n / p + 1) p (p - n % p)
        (distributeLoop1 (n / p) (p - n % p) 1
          (Function.update (fun _ => 0) 0 0)
          (Function.update (fun _ => 0) 0 (n / p - 1))
          (Function.update (fun _ => 0) 0 (n / p))).1
        (distributeLoop1 (n / p) (p - n % p) 1
          (Function.update (fun _ => 0) 0 0)
          (Function.update (fun _ => 0) 0 (n / p - 1))
          (Function.update (fun _ => 0) 0 (n / p))).2.1
        (distributeLoop1 (n / p) (p - n % p) 1
          (Function.update (fun _ => 0) 0 0)
          (Function.update (fun _ => 0) 0 (n / p - 1))
          (Function.update (fun _ => 0) 0 (n / p))).2.2).1 (p - 1)) =
      some (n - 1 - (distributeLoop2 (n / p + 1) p (p - n % p)
        (distributeLoop1 (n / p) (p - n % p) 1
          (Function.update (fun _ => 0) 0 0)
          (Function.update (fun _ => 0) 0 (n / p - 1))
          (Function.update (fun _ => 0) 0 (n / p))).1
        (distributeLoop1 (n / p) (p - n % p) 1
          (Function.update (fun _ => 0) 0 0)
          (Function.update (fun _ => 0) 0 (n / p - 1))
          (Function.update (fun _ => 0) 0 (n / p))).2.1
        (distributeLoop1 (n / p) (p - n % p) 1
          (Function.update (fun _ => 0) 0 0)
          (Function.update (fun _ => 0) 0 (n / p - 1))
          (Function.update (fun _ => 0) 0 (n / p))).2.2).1 (p - 1)) := by
    unfold csub
    rw [if_pos hstl]
  rw [h3]
  simp only [Option.bind_eq_bind, Option.some_bind]
  simp only [Distribution.distribute]
  rw [hnu, Function.update_same]

lemma contiguousChecked_eq (n : Nat) (h : 1 ≤ n) :
    contiguousChecked n = some (Distribution.contiguous n) := by
  unfold contiguousChecked Distribution.contiguous
  simp [csub, h]

lemma contiguousChecked_zero : contiguousChecked 0 = none := by
  unfold contiguousChecked
  simp [csub]

lemma distributeChecked_zero (n : Nat) : distributeChecked n 0 = none := by
  unfold distributeChecked distributeCheckedPre
  simp [cdiv]

lemma distributeChecked_lt (n p : Nat) (hp : 1 ≤ p) (h : n < p) :
    distributeChecked n p = none := by
  have hdiv : n / p = 0 := Nat.div_eq_of_lt h
  unfold distributeChecked distributeCheckedPre
  simp [cdiv, cset, csub, hdiv, show ¬ p = 0 by omega, show 0 < p by omega]

/-- C9: `Distribution::contiguous(n)` requires `n ≥ 1` and
`Distribution::split/distribute(n, p, ..)` requires `n ≥ p ≥ 1`: on a
`usize`, `contiguous` computes `en = n - 1` and `distribute` computes
`en[0] = n / p - 1`, which underflow (panic) for `n = 0` resp. `n < p`
(and `n / p` panics for `p = 0`); under the preconditions every internal
subtraction, division and index stays in range and the checked pipeline
returns exactly the plain model's result. -/
theorem claim_C9_checked_bounds :
    (∀ n, (contiguousChecked n).isSome ↔ 1 ≤ n) ∧
    (∀ n p, (distributeChecked n p).isSome ↔ (1 ≤ p ∧ p ≤ n)) ∧
    (∀ n, 1 ≤ n → contiguousChecked n = some (Distribution.contiguous n)) ∧
    (∀ n p, 1 ≤ p → p ≤ n →
      distributeChecked n p = some (Distribution.distribute n p)) := by
  refine ⟨?_, ?_, ?_, ?_⟩
  · intro n
    constructor
    · intro h
      by_contra hn
      have h0 : n = 0 := by omega
      rw [h0, contiguousChecked_zero] at h
      simp at h
    · intro h
      rw [contiguousChecked_eq n h]
      rfl
  · intro n p
    constructor
    · intro h
      by_contra hc
      rcases Nat.eq_zero_or_pos p with h0 | h0
      · rw [h0, distributeChecked_zero] at h
        simp at h
      · have hlt : n < p := by omega
        rw [distributeChecked_lt n p h0 hlt] at h
        simp at h
    · rintro ⟨hp, hpn⟩
      rw [distributeChecked_eq n p hp hpn]
      rfl
  · exact contiguousChecked_eq
  · exact distributeChecked_eq

/-- Witness for C9 at `n = 6`, `p = 4`. -/
theorem claim_C9_checked_bounds_witness :
    distributeChecked 6 4 = some (Distribution.distribute 6 4) :=
  claim_C9_checked_bounds.2.2.2 6 4 (by decide) (by decide)

/-! ### Pencil construction: what `Pencil::new` puts into `dists` -/

lemma buildDists_length (ac : Nat) (cd co : List Nat) :
    ∀ (l : List Nat) (i dim : Nat), (buildDists ac cd co l i dim).length = l.length := by
  intro l
  induction l with
  | nil => intro i dim; rfl
  | cons n rest ih =>
    intro i dim
    unfold buildDists
    split_ifs <;> simp [ih]

lemma buildDists_getD (ac : Nat) (cd co : List Nat) :
    ∀ (l : List Nat) (i dim j : Nat), j < l.length →
      dim = (if i ≤ ac then i else i - 1) →
      (buildDists ac cd co l i dim).getD j default =
        if i + j = ac then Distribution.contiguous (l.getD j 0)
        else Distribution.split (l.getD j 0)
          (cd.getD (if i + j < ac then i + j else i + j - 1) 0)
          (co.getD (if i + j < ac then i + j else i + j - 1) 0) := by
  intro l
  induction l with
  | nil => intro i dim j hj; simp at hj
  | cons n rest ih =>
    intro i dim j hj hdim
    unfold buildDists
    by_cases hi : i = ac
    · rw [if_pos hi]
      cases j with
      | zero =>
        rw [List.getD_cons_zero, List.getD_cons_zero, if_pos (by omega)]
      | succ j =>
        have hdim2 : dim = if i + 1 ≤ ac then i + 1 else i + 1 - 1 := by
          rw [if_neg (by omega), hdim, if_pos (by omega)]
          omega
        rw [List.getD_cons_succ, List.getD_cons_succ,
          ih (i + 1) dim j (by simpa using hj) hdim2]
        have harith : i + 1 + j = i + (j + 1) := by omega
        rw [harith]
    · rw [if_neg hi]
      cases j with
      | zero =>
        rw [List.getD_cons_zero, List.getD_cons_zero, if_neg (by omega)]
        have hd : dim = if i + 0 < ac then i + 0 else i + 0 - 1 := by
          rw [hdim]
          split_ifs <;> omega
        rw [← hd]
      | succ j =>
        have hdim2 : dim + 1 = if i + 1 ≤ ac then i + 1 else i + 1 - 1 := by
          by_cases h : i < ac
          · rw [if_pos (by omega)] at hdim
            rw [if_pos (by omega)]
            omega
          · rw [if_neg (by omega)] at hdim
            rw [if_neg (by omega)]
            omega
        rw [List.getD_cons_succ, List.getD_cons_succ,
          ih (i + 1) (dim + 1) j (by simpa using hj) hdim2]
        have harith : i + 1 + j = i + (j + 1) := by omega
        rw [harith]

lemma pencil_new_M (n_global : List Nat) (ac : Nat) (cd co : List Nat) :
    (Pencil.new n_global ac cd co).M = n_global.length := by
  unfold Pencil.new Pencil.M
  exact buildDists_length ac cd co n_global 0 0

lemma pencil_new_distAt (n_global : List Nat) (ac : Nat) (cd co : List Nat)
    (j : Nat) (hj : j < n_global.length) :
    (Pencil.new n_global ac cd co).distAt j =
      if j = ac then Distribution.contiguous (n_global.getD j 0)
      else Distribution.split (n_global.getD j 0)
        (cd.getD (if j < ac then j else j - 1) 0)
        (co.getD (if j < ac then j else j - 1) 0) := by
  unfold Pencil.new Pencil.distAt
  have h := buildDists_getD ac cd co n_global 0 0 j hj (by simp)
  simpa using h

/-! ### Generic lemmas for the count computations -/

lemma getElem?_eq_getD {l : List Nat} {i : Nat} (h : i < l.length) :
    l[i]? = some (l.getD i 0) := by
  rw [List.getElem?_eq_getElem h, List.getD_eq_getElem?_getD,
    List.getElem?_eq_getElem h]
  rfl

lemma foldl_mul (g : Nat → Nat) (l : List Nat) :
    ∀ c, l.foldl (fun a i => a * g i) c = c * (l.map g).prod := by
  induction l with
  | nil => intro c; simp
  | cons x xs ih =>
    intro c
    rw [List.foldl_cons, ih, List.map_cons, List.prod_cons]
    ring

lemma prod_map_range (g : Nat → Nat) (M : Nat) :
    ((List.range M).map g).prod = ∏ i ∈ Finset.range M, g i := by
  induction M with
  | zero => rfl
  | succ M ih =>
    rw [List.range_succ, List.map_append, List.prod_append,
      Finset.prod_range_succ, ih]
    simp

lemma exclScan_length (l : List Nat) : ∀ a, (exclScan a l).length = l.length := by
  induction l with
  | nil => intro a; rfl
  | cons x xs ih => intro a; simp [exclScan, ih]

lemma exclScan_getD (l : List Nat) :
    ∀ a r, r < l.length → (exclScan a l).getD r 0 = a + (l.take r).sum := by
  induction l with
  | nil => intro a r hr; simp at hr
  | cons x xs ih =>
    intro a r hr
    cases r with
    | zero => simp [exclScan]
    | succ r =>
      rw [show exclScan a (x :: xs) = a :: exclScan (a + x) xs from rfl,
        List.getD_cons_succ, ih (a + x) r (by simpa using hr)]
      simp [List.take_succ_cons]
      omega

/-! ### Evaluation of the count computations -/

lemma a2aCountAt_eq (send recv : Pencil) (np : Nat)
    (hneq : send.axis_contig ≠ recv.axis_contig)
    (hsz : ∀ i, i < send.M → i ≠ send.axis_contig → i ≠ recv.axis_contig →
      (send.distAt i).sz = (recv.distAt i).sz)
    (hnp : np < (recv.distAt send.axis_contig).sz_procs.length) :
    a2aCountAt send recv np =
      some (((List.range send.M).map (fun i =>
        if i = send.axis_contig then (recv.distAt i).sz_procs.getD np 0
        else (send.distAt i).sz)).prod) := by
  have hstep : ∀ (b i : Nat), i ∈ List.range send.M →
      a2aStep send recv np b i =
        some (b * (if i = send.axis_contig then (recv.distAt i).sz_procs.getD np 0
          else (send.distAt i).sz)) := by
    intro b i hi
    have hiM : i < send.M := List.mem_range.mp hi
    unfold a2aStep
    by_cases h1 : i ≠ send.axis_contig ∧ i ≠ recv.axis_contig
    · rw [if_pos h1, if_pos (hsz i hiM h1.1 h1.2), if_neg h1.1]
    · rw [if_neg h1]
      by_cases h2 : i = recv.axis_contig
      · rw [if_pos h2, if_neg (by omega)]
      · have h3 : i = send.axis_contig := by tauto
        rw [if_neg h2]
        subst h3
        rw [getElem?_eq_getD hnp, if_pos rfl]
  unfold a2aCountAt
  rw [foldlM_option_some (a2aStep send recv np)
    (fun b i => b * (if i = send.axis_contig then (recv.distAt i).sz_procs.getD np 0
      else (send.distAt i).sz)) (List.range send.M) hstep 1, foldl_mul]
  rw [Nat.one_mul]

lemma send_counts_eq (send recv : Pencil)
    (hneq : send.axis_contig ≠ recv.axis_contig)
    (hsz : ∀ i, i < send.M → i ≠ send.axis_contig → i ≠ recv.axis_contig →
      (send.distAt i).sz = (recv.distAt i).sz)
    (hbound : send.nprocs_along_axis recv.axis_contig ≤
      (recv.distAt send.axis_contig).sz_procs.length) :
    send_counts_all_to_all send recv =
      some ((List.range (send.nprocs_along_axis recv.axis_contig)).map
          (fun np => ((List.range send.M).map (fun i =>
            if i = send.axis_contig then (recv.distAt i).sz_procs.getD np 0
            else (send.distAt i).sz)).prod),
        exclScan 0 ((List.range (send.nprocs_along_axis recv.axis_contig)).map
          (fun np => ((List.range send.M).map (fun i =>
            if i = send.axis_contig then (recv.distAt i).sz_procs.getD np 0
            else (send.distAt i).sz)).prod))) := by
  unfold send_counts_all_to_all
  rw [if_neg hneq]
  rw [mapM_option_some (a2aCountAt send recv)
    (fun np => ((List.range send.M).map (fun i =>
      if i = send.axis_contig then (recv.distAt i).sz_procs.getD np 0
      else (send.distAt i).sz)).prod) _
    (fun np hnp => a2aCountAt_eq send recv np hneq hsz
      (Nat.lt_of_lt_of_le (List.mem_range.mp hnp) hbound))]
  rfl

lemma gatherCountAt_eq (pencil : Pencil) (axis np : Nat)
    (hnp : np < (pencil.distAt axis).sz_procs.length) :
    gatherCountAt pencil axis np =
      some (((List.range pencil.M).map (fun i =>
        if i = axis then (pencil.distAt i).sz_procs.getD np 0
        else (pencil.distAt i).sz)).prod) := by
  have hstep : ∀ (b i : Nat), i ∈ List.range pencil.M →
      gatherStep pencil axis np b i =
        some (b * (if i = axis then (pencil.distAt i).sz_procs.getD np 0
          else (pencil.distAt i).sz)) := by
    intro b i hi
    unfold gatherStep
    by_cases h1 : i = axis
    · subst h1
      rw [if_pos rfl, if_pos rfl, getElem?_eq_getD hnp]
    · rw [if_neg h1, if_neg h1]
  unfold gatherCountAt
  rw [foldlM_option_some (gatherStep pencil axis np)
    (fun b i => b * (if i = axis then (pencil.distAt i).sz_procs.getD np 0
      else (pencil.distAt i).sz)) (List.range pencil.M) hstep 1, foldl_mul]
  rw [Nat.one_mul]

lemma gather_counts_eq (pencil : Pencil) (axis : Nat)
    (hneq : pencil.axis_contig ≠ axis) (haxis : axis < pencil.M)
    (hbound : pencil.nprocs_along_axis axis ≤ (pencil.distAt axis).sz_procs.length) :
    recv_counts_gather_axis pencil axis =
      some ((List.range (pencil.nprocs_along_axis axis)).map
          (fun np => ((List.range pencil.M).map (fun i =>
            if i = axis then (pencil.distAt i).sz_procs.getD np 0
            else (pencil.distAt i).sz)).prod),
        exclScan 0 ((List.range (pencil.nprocs_along_axis axis)).map
          (fun np => ((List.range pencil.M).map (fun i =>
            if i = axis then (pencil.distAt i).sz_procs.getD np 0
            else (pencil.distAt i).sz)).prod))) := by
  unfold recv_counts_gather_axis
  rw [if_neg hneq, if_neg (by omega)]
  rw [mapM_option_some (gatherCountAt pencil axis)
    (fun np => ((List.range pencil.M).map (fun i =>
      if i = axis then (pencil.distAt i).sz_procs.getD np 0
      else (pencil.distAt i).sz)).prod) _
    (fun np hnp => gatherCountAt_eq pencil axis np
      (Nat.lt_of_lt_of_le (List.mem_range.mp hnp) hbound))]
  rfl

lemma getD_eq_getElem {l : List Nat} {i : Nat} (h : i < l.length) :
    l.getD i 0 = l[i] := by
  have h1 := getElem?_eq_getD h
  rw [List.getElem?_eq_getElem h] at h1
  exact (Option.some.injEq _ _).mp h1.symm

lemma exclScan_getD_zero (l : List Nat) : (exclScan 0 l).getD 0 0 = 0 := by
  cases l <;> rfl

lemma prod_factor_split (M sc rc : Nat) (hsc : sc < M) (hrc : rc < M)
    (hne : sc ≠ rc) (f : Nat → Nat) :
    (∏ i ∈ Finset.range M, f i) =
      f sc * f rc *
        ∏ i ∈ (Finset.range M).filter (fun i => i ≠ sc ∧ i ≠ rc), f i := by
  have h1 : sc ∈ Finset.range M := Finset.mem_range.mpr hsc
  rw [← Finset.mul_prod_erase (Finset.range M) f h1]
  have h2 : rc ∈ (Finset.range M).erase sc :=
    Finset.mem_erase.mpr ⟨Ne.symm hne, Finset.mem_range.mpr hrc⟩
  rw [← Finset.mul_prod_erase _ f h2]
  have h3 : ((Finset.range M).erase sc).erase rc =
      (Finset.range M).filter (fun i => i ≠ sc ∧ i ≠ rc) := by
    ext x
    simp only [Finset.mem_erase, Finset.mem_filter, Finset.mem_range]
    tauto
  rw [h3, ← Nat.mul_assoc]

/-- C4: for pencils with different contiguous axes whose shared split axes
have equal local sizes (and in-bounds chunk tables),
`send_counts_all_to_all` returns, for each destination rank `r`, the
product of the send pencil's local size on the axis contiguous in the
receive pencil, the receiver's chunk size for rank `r` on the axis
contiguous in the send pencil, and the send pencil's local sizes on all
axes split in both pencils; the displacements are the exclusive prefix
sums of the counts in rank order. -/
theorem claim_C4_send_counts (send recv : Pencil)
    (hneq : send.axis_contig ≠ recv.axis_contig)
    (hsc : send.axis_contig < send.M) (hrc : recv.axis_contig < send.M)
    (hsz : ∀ i, i < send.M → i ≠ send.axis_contig → i ≠ recv.axis_contig →
      (send.distAt i).sz = (recv.distAt i).sz)
    (hbound : send.nprocs_along_axis recv.axis_contig ≤
      (recv.distAt send.axis_contig).sz_procs.length) :
    ∃ counts displs, send_counts_all_to_all send recv = some (counts, displs) ∧
      counts.length = send.nprocs_along_axis recv.axis_contig ∧
      displs.length = send.nprocs_along_axis recv.axis_contig ∧
      (∀ r, r < send.nprocs_along_axis recv.axis_contig →
        counts.getD r 0 =
          (send.distAt recv.axis_contig).sz *
            (recv.distAt send.axis_contig).sz_procs.getD r 0 *
            ∏ i ∈ (Finset.range send.M).filter
                (fun i => i ≠ send.axis_contig ∧ i ≠ recv.axis_contig),
              (send.distAt i).sz) ∧
      displs.getD 0 0 = 0 ∧
      (∀ r, 1 ≤ r → r < send.nprocs_along_axis recv.axis_contig →
        displs.getD r 0 = displs.getD (r - 1) 0 + counts.getD (r - 1) 0) := by
  refine ⟨_, _, send_counts_eq send recv hneq hsz hbound, ?_, ?_, ?_, ?_, ?_⟩
  · rw [List.length_map, List.length_range]
  · rw [exclScan_length, List.length_map, List.length_range]
  · intro r hr
    rw [getD_map_range _ hr 0, prod_map_range,
      prod_factor_split send.M send.axis_contig recv.axis_contig hsc hrc hneq]
    rw [if_pos rfl, if_neg (Ne.symm hneq)]
    have hcong : ∀ x ∈ (Finset.range send.M).filter
        (fun i => i ≠ send.axis_contig ∧ i ≠ recv.axis_contig),
        (if x = send.axis_contig then (recv.distAt x).sz_procs.getD r 0
          else (send.distAt x).sz) = (send.distAt x).sz := by
      intro x hx
      rw [Finset.mem_filter] at hx
      rw [if_neg hx.2.1]
    rw [Finset.prod_congr rfl hcong]
    ring
  · exact exclScan_getD_zero _
  · intro r h1 hr
    have hlen : ((List.range (send.nprocs_along_axis recv.axis_contig)).map
        (fun np => ((List.range send.M).map (fun i =>
          if i = send.axis_contig then (recv.distAt i).sz_procs.getD np 0
          else (send.distAt i).sz)).prod)).length =
        send.nprocs_along_axis recv.axis_contig := by
      rw [List.length_map, List.length_range]
    rw [exclScan_getD _ 0 r (by omega), exclScan_getD _ 0 (r - 1) (by omega)]
    have hr1 : r - 1 < ((List.range (send.nprocs_along_axis recv.axis_contig)).map
        (fun np => ((List.range send.M).map (fun i =>
          if i = send.axis_contig then (recv.distAt i).sz_procs.getD np 0
          else (send.distAt i).sz)).prod)).length := by omega
    have hsum := List.sum_take_succ _ (r - 1) hr1
    rw [Nat.sub_add_cancel h1] at hsum
    rw [hsum, getD_eq_getElem hr1]
    omega

/-- Witness for C4: `Decomp2` pencils over global shape `[6, 5]` with two
processes, at coordinate 0. -/
theorem claim_C4_send_counts_witness :
    ∃ counts displs, send_counts_all_to_all (decomp2_x_pencil 6 5 2 0)
        (decomp2_y_pencil 6 5 2 0) = some (counts, displs) ∧
      counts.length = (decomp2_x_pencil 6 5 2 0).nprocs_along_axis
        (decomp2_y_pencil 6 5 2 0).axis_contig ∧
      displs.length = (decomp2_x_pencil 6 5 2 0).nprocs_along_axis
        (decomp2_y_pencil 6 5 2 0).axis_contig ∧
      (∀ r, r < (decomp2_x_pencil 6 5 2 0).nprocs_along_axis
          (decomp2_y_pencil 6 5 2 0).axis_contig →
        counts.getD r 0 =
          ((decomp2_x_pencil 6 5 2 0).distAt
              (decomp2_y_pencil 6 5 2 0).axis_contig).sz *
            ((decomp2_y_pencil 6 5 2 0).distAt
              (decomp2_x_pencil 6 5 2 0).axis_contig).sz_procs.getD r 0 *
            ∏ i ∈ (Finset.range (decomp2_x_pencil 6 5 2 0).M).filter
                (fun i => i ≠ (decomp2_x_pencil 6 5 2 0).axis_contig ∧
                  i ≠ (decomp2_y_pencil 6 5 2 0).axis_contig),
              ((decomp2_x_pencil 6 5 2 0).distAt i).sz) ∧
      displs.getD 0 0 = 0 ∧
      (∀ r, 1 ≤ r → r < (decomp2_x_pencil 6 5 2 0).nprocs_along_axis
          (decomp2_y_pencil 6 5 2 0).axis_contig →
        displs.getD r 0 = displs.getD (r - 1) 0 + counts.getD (r - 1) 0) :=
  claim_C4_send_counts (decomp2_x_pencil 6 5 2 0) (decomp2_y_pencil 6 5 2 0)
    (by decide) (by decide) (by decide) (by decide) (by decide)

lemma prod_factor_split_one (M a : Nat) (ha : a < M) (f : Nat → Nat) :
    (∏ i ∈ Finset.range M, f i) =
      f a * ∏ i ∈ (Finset.range M).filter (fun i => i ≠ a), f i := by
  rw [← Finset.mul_prod_erase (Finset.range M) f (Finset.mem_range.mpr ha)]
  have h3 : (Finset.range M).erase a = (Finset.range M).filter (fun i => i ≠ a) := by
    ext x
    simp only [Finset.mem_erase, Finset.mem_filter, Finset.mem_range]
    tauto
  rw [h3]

lemma sum_map_range (g : Nat → Nat) (M : Nat) :
    ((List.range M).map g).sum = ∑ i ∈ Finset.range M, g i := by
  induction M with
  | zero => rfl
  | succ M ih =>
    rw [List.range_succ, List.map_append, List.sum_append,
      Finset.sum_range_succ, ih]
    simp

lemma map_getD_range_eq (l : List Nat) :
    (List.range l.length).map (fun r => l.getD r 0) = l := by
  apply List.ext_getElem
  · rw [List.length_map, List.length_range]
  · intro i h1 h2
    rw [List.getElem_map, List.getElem_range]
    exact getD_eq_getElem h2

lemma pencil_len_eq_prod (p : Pencil) :
    p.len = ∏ i ∈ Finset.range p.M, (p.distAt i).sz := by
  unfold Pencil.len Pencil.shape
  rw [← prod_map_range]
  congr 1
  apply List.ext_getElem
  · rw [List.length_map, List.length_map, List.length_range]
    rfl
  · intro i h1 h2
    rw [List.getElem_map, List.getElem_map, List.getElem_range]
    unfold Pencil.distAt
    rw [List.getD_eq_getElem?_getD, List.getElem?_eq_getElem
      (by simpa [Pencil.M, List.length_map, List.length_range] using h2)]
    rfl

/-- C6: `recv_counts_gather_axis(pencil, axis)` returns, for each peer
rank `r`, the peer's chunk size along the gathered axis times the product
of the local sizes of all other axes; for global shape `[6, 5]` with two
processes splitting axis 1 (axis 0 contiguous), the counts are `[12, 18]`
and the displacements `[0, 12]`. -/
theorem claim_C6_gather_counts :
    (∀ pencil axis, pencil.axis_contig ≠ axis → axis < Pencil.M pencil →
      pencil.nprocs_along_axis axis ≤ (pencil.distAt axis).sz_procs.length →
      ∃ counts displs, recv_counts_gather_axis pencil axis = some (counts, displs) ∧
        ∀ r, r < pencil.nprocs_along_axis axis →
          counts.getD r 0 = (pencil.distAt axis).sz_procs.getD r 0 *
            ∏ i ∈ (Finset.range (Pencil.M pencil)).filter (fun i => i ≠ axis),
              (pencil.distAt i).sz) ∧
    recv_counts_gather_axis (decomp2_x_pencil 6 5 2 0) 1 = some ([12, 18], [0, 12]) ∧
    recv_counts_gather_axis (decomp2_x_pencil 6 5 2 1) 1 = some ([12, 18], [0, 12]) := by
  refine ⟨?_, by decide, by decide⟩
  intro pencil axis hneq haxis hbound
  refine ⟨_, _, gather_counts_eq pencil axis hneq haxis hbound, ?_⟩
  intro r hr
  rw [getD_map_range _ hr 0, prod_map_range,
    prod_factor_split_one (Pencil.M pencil) axis haxis, if_pos rfl]
  have hcong : ∀ x ∈ (Finset.range (Pencil.M pencil)).filter (fun i => i ≠ axis),
      (if x = axis then (pencil.distAt x).sz_procs.getD r 0
        else (pencil.distAt x).sz) = (pencil.distAt x).sz := by
    intro x hx
    rw [Finset.mem_filter] at hx
    rw [if_neg hx.2]
  rw [Finset.prod_congr rfl hcong]

/-- Witness for C6: the general formula applied to the `[6, 5]` x-pencil. -/
theorem claim_C6_gather_counts_witness :
    ∃ counts displs,
      recv_counts_gather_axis (decomp2_x_pencil 6 5 2 0) 1 = some (counts, displs) ∧
      ∀ r, r < (decomp2_x_pencil 6 5 2 0).nprocs_along_axis 1 →
        counts.getD r 0 = ((decomp2_x_pencil 6 5 2 0).distAt 1).sz_procs.getD r 0 *
          ∏ i ∈ (Finset.range (Pencil.M (decomp2_x_pencil 6 5 2 0))).filter
            (fun i => i ≠ 1), ((decomp2_x_pencil 6 5 2 0).distAt i).sz :=
  claim_C6_gather_counts.1 (decomp2_x_pencil 6 5 2 0) 1
    (by decide) (by decide) (by decide)

/-- C5, counterexample to the claim as stated: for a 3-D pencil with a
second truly split axis, the gather counts do not sum to the full
gathered buffer size `len_global` (global `[4,4,4]`, grid `[2,2]`,
z-pencil, gather along axis 0: the counts sum to 32, the buffer holds 64). -/
theorem claim_C5_counterexample :
    recv_counts_gather_axis (decomp3_z_pencil 4 4 4 2 2 0 0) 0 =
        some ([16, 16], [0, 16]) ∧
      (16 + 16 ≠ (decomp3_z_pencil 4 4 4 2 2 0 0).len_global) := by
  constructor
  · decide
  · decide

/-- C5 (amended): the sum of the all-to-all send counts equals the send
pencil's local element count; the sum of the gather counts equals the
gathered axis's global length times the product of the other axes'
*local* sizes — which equals the full gathered buffer size when every
other axis is unsplit, as in the 2-D `[6,5]` case used by `Decomp2`, but
not for a 3-D pencil; displacements satisfy
`displs[i] = sum(counts[0..i])`. -/
theorem claim_C5_count_sums :
    (∀ send recv : Pencil, send.axis_contig ≠ recv.axis_contig →
      send.axis_contig < send.M →
      (∀ i, i < send.M → i ≠ send.axis_contig → i ≠ recv.axis_contig →
        (send.distAt i).sz = (recv.distAt i).sz) →
      send.nprocs_along_axis recv.axis_contig =
        (recv.distAt send.axis_contig).sz_procs.length →
      (recv.distAt send.axis_contig).sz_procs.sum =
        (send.distAt send.axis_contig).sz →
      ∃ counts displs, send_counts_all_to_all send recv = some (counts, displs) ∧
        counts.sum = send.len ∧
        ∀ i, i < counts.length → displs.getD i 0 = (counts.take i).sum) ∧
    (∀ pencil axis, pencil.axis_contig ≠ axis → axis < Pencil.M pencil →
      pencil.nprocs_along_axis axis = (pencil.distAt axis).sz_procs.length →
      ∃ counts displs, recv_counts_gather_axis pencil axis = some (counts, displs) ∧
        counts.sum = (pencil.distAt axis).sz_procs.sum *
          ∏ i ∈ (Finset.range (Pencil.M pencil)).filter (fun i => i ≠ axis),
            (pencil.distAt i).sz ∧
        ∀ i, i < counts.length → displs.getD i 0 = (counts.take i).sum) ∧
    (recv_counts_gather_axis (decomp2_x_pencil 6 5 2 0) 1 =
        some ([12, 18], [0, 12]) ∧
      12 + 18 = (decomp2_x_pencil 6 5 2 0).len_global) := by
  refine ⟨?_, ?_, by decide, by decide⟩
  · intro send recv hneq hsc hsz hbound hglobal
    refine ⟨_, _, send_counts_eq send recv hneq hsz (le_of_eq hbound), ?_, ?_⟩
    · rw [sum_map_range]
      have hterm : ∀ r ∈ Finset.range (send.nprocs_along_axis recv.axis_contig),
          ((List.range send.M).map (fun i =>
            if i = send.axis_contig then (recv.distAt i).sz_procs.getD r 0
            else (send.distAt i).sz)).prod =
          (recv.distAt send.axis_contig).sz_procs.getD r 0 *
            ∏ i ∈ (Finset.range send.M).filter (fun i => i ≠ send.axis_contig),
              (send.distAt i).sz := by
        intro r hr
        rw [prod_map_range, prod_factor_split_one send.M send.axis_contig hsc,
          if_pos rfl]
        congr 1
        apply Finset.prod_congr rfl
        intro x hx
        rw [Finset.mem_filter] at hx
        rw [if_neg hx.2]
      rw [Finset.sum_congr rfl hterm, ← Finset.sum_mul]
      have hsum : (∑ r ∈ Finset.range (send.nprocs_along_axis recv.axis_contig),
          (recv.distAt send.axis_contig).sz_procs.getD r 0) =
          (recv.distAt send.axis_contig).sz_procs.sum := by
        rw [← sum_map_range, hbound, map_getD_range_eq]
      rw [hsum, hglobal, pencil_len_eq_prod,
        prod_factor_split_one send.M send.axis_contig hsc]
    · intro i hi
      rw [exclScan_getD _ 0 i hi, Nat.zero_add]
  · intro pencil axis hneq haxis hbound
    refine ⟨_, _, gather_counts_eq pencil axis hneq haxis (le_of_eq hbound), ?_, ?_⟩
    · rw [sum_map_range]
      have hterm : ∀ r ∈ Finset.range (pencil.nprocs_along_axis axis),
          ((List.range (Pencil.M pencil)).map (fun i =>
            if i = axis then (pencil.distAt i).sz_procs.getD r 0
            else (pencil.distAt i).sz)).prod =
          (pencil.distAt axis).sz_procs.getD r 0 *
            ∏ i ∈ (Finset.range (Pencil.M pencil)).filter (fun i => i ≠ axis),
              (pencil.distAt i).sz := by
        intro r hr
        rw [prod_map_range, prod_factor_split_one (Pencil.M pencil) axis haxis,
          if_pos rfl]
        congr 1
        apply Finset.prod_congr rfl
        intro x hx
        rw [Finset.mem_filter] at hx
        rw [if_neg hx.2]
      rw [Finset.sum_congr rfl hterm, ← Finset.sum_mul]
      have hsum : (∑ r ∈ Finset.range (pencil.nprocs_along_axis axis),
          (pencil.distAt axis).sz_procs.getD r 0) =
          (pencil.distAt axis).sz_procs.sum := by
        rw [← sum_map_range, hbound, map_getD_range_eq]
      rw [hsum]
    · intro i hi
      rw [exclScan_getD _ 0 i hi, Nat.zero_add]

/-- Witness for the amended C5 at the `[6, 5]` `Decomp2` pencil pair. -/
theorem claim_C5_count_sums_witness :
    ∃ counts displs, send_counts_all_to_all (decomp2_x_pencil 6 5 2 0)
        (decomp2_y_pencil 6 5 2 0) = some (counts, displs) ∧
      counts.sum = (decomp2_x_pencil 6 5 2 0).len ∧
      ∀ i, i < counts.length → displs.getD i 0 = (counts.take i).sum :=
  claim_C5_count_sums.1 (decomp2_x_pencil 6 5 2 0) (decomp2_y_pencil 6 5 2 0)
    (by decide) (by decide) (by decide) (by decide) (by decide)

lemma foldlM_option_none {β : Type} (f : β → Nat → Option β) (l : List Nat)
    (i₀ : Nat) (hmem : i₀ ∈ l) (hfail : ∀ b, f b i₀ = none) :
    ∀ b, l.foldlM f b = none := by
  induction l with
  | nil => simp at hmem
  | cons x xs ih =>
    intro b
    rw [List.foldlM_cons]
    rcases List.mem_cons.mp hmem with h | h
    · rw [← h, hfail b]
      rfl
    · cases hfx : f b x with
      | none => rfl
      | some b2 =>
        simp only [Option.bind_eq_bind, Option.some_bind]
        exact ih h b2

lemma mapM_option_none (f : Nat → Option Nat) (l : List Nat) (hne : l ≠ [])
    (h : ∀ i ∈ l, f i = none) : l.mapM f = none := by
  cases l with
  | nil => simp at hne
  | cons x xs =>
    rw [List.mapM_cons, h x (by simp)]
    rfl

lemma send_counts_none_of_mismatch (send recv : Pencil)
    (hax : send.axis_contig ≠ recv.axis_contig)
    (h1 : 1 ≤ send.nprocs_along_axis recv.axis_contig)
    (i : Nat) (hiM : i < send.M) (hisc : i ≠ send.axis_contig)
    (hirc : i ≠ recv.axis_contig)
    (hne : (send.distAt i).sz ≠ (recv.distAt i).sz) :
    send_counts_all_to_all send recv = none := by
  unfold send_counts_all_to_all
  rw [if_neg hax]
  have hnil : List.range (send.nprocs_along_axis recv.axis_contig) ≠ [] := by
    intro he
    have := List.length_eq_zero.mpr he
    rw [List.length_range] at this
    omega
  rw [mapM_option_none _ _ hnil ?_]
  · rfl
  · intro np hnp
    unfold a2aCountAt
    refine foldlM_option_none _ _ i (List.mem_range.mpr hiM) ?_ 1
    intro b
    unfold a2aStep
    rw [if_pos ⟨hisc, hirc⟩, if_neg hne]

/-- C7: the transpose engine's pre-exchange stage (the assert on distinct
contiguous axes and the count computations, all executed before the
collective call) fails exactly when the two pencils have the same
contiguous axis or some axis split in both pencils has differing local
sizes. -/
theorem claim_C7_transpose_failures (send recv : Pencil)
    (hM : Pencil.M recv = Pencil.M send)
    (h1 : 1 ≤ send.nprocs_along_axis recv.axis_contig)
    (hb1 : send.nprocs_along_axis recv.axis_contig ≤
      (recv.distAt send.axis_contig).sz_procs.length)
    (hb2 : recv.nprocs_along_axis send.axis_contig ≤
      (send.distAt recv.axis_contig).sz_procs.length) :
    transposeChecks send recv = none ↔
      (send.axis_contig = recv.axis_contig ∨
        ∃ i, i < Pencil.M send ∧ i ≠ send.axis_contig ∧ i ≠ recv.axis_contig ∧
          (send.distAt i).sz ≠ (recv.distAt i).sz) := by
  constructor
  · intro hnone
    by_cases hax : send.axis_contig = recv.axis_contig
    · exact Or.inl hax
    · right
      by_contra hno
      push_neg at hno
      have hsr := send_counts_eq send recv hax hno hb1
      have hrs := send_counts_eq recv send (Ne.symm hax)
        (fun i hi hirc hisc => by
          rw [hM] at hi
          exact (hno i hi hisc hirc).symm) hb2
      unfold transposeChecks at hnone
      rw [if_neg hax, hsr] at hnone
      unfold recv_counts_all_to_all at hnone
      rw [hrs] at hnone
      simp at hnone
  · intro h
    rcases h with hax | ⟨i, hiM, hisc, hirc, hne⟩
    · unfold transposeChecks
      rw [if_pos hax]
    · unfold transposeChecks
      by_cases hax : send.axis_contig = recv.axis_contig
      · rw [if_pos hax]
      · rw [if_neg hax,
          send_counts_none_of_mismatch send recv hax h1 i hiM hisc hirc hne]
        rfl

/-- Witness for C7: for the `[6, 5]` `Decomp2` pencil pair the checks
succeed and indeed no failure condition holds. -/
theorem claim_C7_transpose_failures_witness :
    transposeChecks (decomp2_x_pencil 6 5 2 0) (decomp2_y_pencil 6 5 2 0) = none ↔
      ((decomp2_x_pencil 6 5 2 0).axis_contig =
          (decomp2_y_pencil 6 5 2 0).axis_contig ∨
        ∃ i, i < Pencil.M (decomp2_x_pencil 6 5 2 0) ∧
          i ≠ (decomp2_x_pencil 6 5 2 0).axis_contig ∧
          i ≠ (decomp2_y_pencil 6 5 2 0).axis_contig ∧
          ((decomp2_x_pencil 6 5 2 0).distAt i).sz ≠
            ((decomp2_y_pencil 6 5 2 0).distAt i).sz) :=
  claim_C7_transpose_failures (decomp2_x_pencil 6 5 2 0) (decomp2_y_pencil 6 5 2 0)
    (by decide) (by decide) (by decide) (by decide)

lemma distribute_sz_length (n p : Nat) :
    (Distribution.distribute n p).2.2.length = p := by
  simp only [Distribution.distribute]
  rw [List.length_map, List.length_range]

/-- C10, counterexample to the claim as stated: for the x- and z-pencils
of a 3-D decomposition over process grid `[2, 1]`, every index `np` used
to access `recv.dists[send.axis_contig].sz_procs[np]` is in bounds
(`nprocs = 1 ≤ 2 = length`) yet `send.nprocs_along_axis(recv.axis_contig)`
does not equal the number of processes splitting that axis in the
receive pencil, so the claimed equivalence fails. -/
theorem claim_C10_counterexample :
    ¬ ((∀ np, np < (decomp3_x_pencil 4 4 4 2 1 0 0).nprocs_along_axis
          (decomp3_z_pencil 4 4 4 2 1 0 0).axis_contig →
        np < ((decomp3_z_pencil 4 4 4 2 1 0 0).distAt
          (decomp3_x_pencil 4 4 4 2 1 0 0).axis_contig).sz_procs.length) ↔
      (decomp3_x_pencil 4 4 4 2 1 0 0).nprocs_along_axis
          (decomp3_z_pencil 4 4 4 2 1 0 0).axis_contig =
        ((decomp3_z_pencil 4 4 4 2 1 0 0).distAt
          (decomp3_x_pencil 4 4 4 2 1 0 0).axis_contig).sz_procs.length) := by
  decide

/-- C10 (amended): the chunk accesses of `send_counts_all_to_all` are in
bounds iff `send.nprocs_along_axis(recv.axis_contig)` is at most (not
necessarily equal to) the number of chunks of axis `send.axis_contig` in
the receive pencil; the pencil pairs exposed by `Decomp2`/`Decomp3`
(adjacent contiguous axes, mapped to the same cartesian dimension)
satisfy the equality, whereas a 3-D x-z pair over process grid `[1, 2]`
indexes out of bounds (and would panic). -/
theorem claim_C10_count_index_bounds :
    (∀ send recv : Pencil,
      (∀ np, np < send.nprocs_along_axis recv.axis_contig →
          np < (recv.distAt send.axis_contig).sz_procs.length) ↔
        send.nprocs_along_axis recv.axis_contig ≤
          (recv.distAt send.axis_contig).sz_procs.length) ∧
    (∀ (n_global cd co : List Nat) (a b : Nat),
      a < n_global.length → b < n_global.length → (b = a + 1 ∨ a = b + 1) →
      (Pencil.new n_global a cd co).nprocs_along_axis b =
        ((Pencil.new n_global b cd co).distAt a).sz_procs.length) ∧
    ¬ (∀ np, np < (decomp3_x_pencil 4 4 4 1 2 0 0).nprocs_along_axis
          (decomp3_z_pencil 4 4 4 1 2 0 0).axis_contig →
        np < ((decomp3_z_pencil 4 4 4 1 2 0 0).distAt
          (decomp3_x_pencil 4 4 4 1 2 0 0).axis_contig).sz_procs.length) := by
  refine ⟨?_, ?_, by decide⟩
  · intro send recv
    constructor
    · intro h
      by_cases hk : send.nprocs_along_axis recv.axis_contig = 0
      · omega
      · have := h (send.nprocs_along_axis recv.axis_contig - 1) (by omega)
        omega
    · intro h np hnp
      omega
  · intro n_global cd co a b ha hb hadj
    have hz := pencil_new_distAt n_global b cd co a ha
    have hab : a ≠ b := by omega
    rw [if_neg hab] at hz
    rw [hz]
    simp only [Distribution.split]
    rw [distribute_sz_length]
    unfold Pencil.nprocs_along_axis Pencil.map_dim_to_cart_dim Pencil.new
    simp only
    rcases hadj with h | h
    · have e1 : (if b < a then b else b - 1) = a := by
        rw [if_neg (by omega)]
        omega
      have e2 : (if a < b then a else a - 1) = a := by
        rw [if_pos (by omega)]
      rw [e1, e2]
    · have e1 : (if b < a then b else b - 1) = b := by
        rw [if_pos (by omega)]
      have e2 : (if a < b then a else a - 1) = b := by
        rw [if_neg (by omega)]
        omega
      rw [e1, e2]

/-- Witness for the amended C10: the 2-D x-y pair over `[6, 5]`. -/
theorem claim_C10_count_index_bounds_witness :
    (Pencil.new [6, 5] 0 [2] [0]).nprocs_along_axis 1 =
      ((Pencil.new [6, 5] 1 [2] [0]).distAt 0).sz_procs.length :=
  claim_C10_count_index_bounds.2.1 [6, 5] [2] [0] 0 1
    (by decide) (by decide) (Or.inl rfl)

/-- C8, counterexample to the claim as stated: `Decomp2::gather_x` asserts
`rcv.shape() == n_global` on every process, root or not; on the non-root
process (coordinate 1) a local-shape output buffer fails the assert,
while a global-shape buffer passes — so non-root callers must supply a
full global-shape buffer. -/
theorem claim_C8_counterexample :
    gather_x_shape_ok [6, 5] (decomp2_x_pencil 6 5 2 1)
        (decomp2_x_pencil 6 5 2 1).shape ((decomp2_x_pencil 6 5 2 1).shape) = false ∧
    gather_x_shape_ok [6, 5] (decomp2_x_pencil 6 5 2 1)
        (decomp2_x_pencil 6 5 2 1).shape [6, 5] = true := by
  constructor
  · decide
  · decide

/-- C8 (amended): inside `gather_into_root_along_axis` only the root
branch (sub-group rank 0) allocates the full `len_global` receive
buffer — every other rank allocates only the local `len` send buffer —
but the public `Decomp2::gather_x` requires (asserts) a global-shape
output argument on every process; its contents are only written on root. -/
theorem claim_C8_gather_root_buffer :
    (∀ pencil subRank, subRank ≠ 0 →
      gather_alloc_lens pencil subRank = [pencil.len]) ∧
    (∀ pencil : Pencil, gather_alloc_lens pencil 0 = [pencil.len, pencil.len_global]) ∧
    (∀ (n_global : List Nat) (xp : Pencil) (sndShape rcvShape : List Nat),
      gather_x_shape_ok n_global xp sndShape rcvShape = true ↔
        (sndShape = xp.shape ∧ rcvShape = n_global)) := by
  refine ⟨?_, ?_, ?_⟩
  · intro pencil subRank h
    unfold gather_alloc_lens
    rw [if_neg h]
  · intro pencil
    unfold gather_alloc_lens
    rw [if_pos rfl]
  · intro n_global xp sndShape rcvShape
    unfold gather_x_shape_ok
    rw [Bool.and_eq_true, beq_iff_eq, beq_iff_eq]

/-- Witness for the amended C8: the non-root process of the `[6, 5]`
decomposition allocates only its local buffer. -/
theorem claim_C8_gather_root_buffer_witness :
    gather_alloc_lens (decomp2_x_pencil 6 5 2 1) 1 =
      [(decomp2_x_pencil 6 5 2 1).len] :=
  claim_C8_gather_root_buffer.1 (decomp2_x_pencil 6 5 2 1) 1 (by decide)

/-! ## Infrastructure for the round-trip transpose claim (C1)

Generic lemmas about `writeSeq` (the loop-nest writer), about segments of
uniform-block `flatMap` enumerations (the all-to-all drop/take), and about
`Nodup` of nested enumerations. -/

lemma getD_of_lt {α : Type} (l : List α) (d : α) (m : Nat) (h : m < l.length) :
    l.getD m d = l[m] := by
  rw [List.getD_eq_getElem?_getD, List.getElem?_eq_getElem h]
  rfl

lemma getD_append_right_len {α : Type} :
    ∀ (as bs : List α) (d : α) (m : Nat), (as ++ bs).getD (as.length + m) d = bs.getD m d := by
  intro as
  induction as with
  | nil => intro bs d m; simp
  | cons a as ih =>
    intro bs d m
    rw [List.cons_append, List.length_cons,
      show as.length + 1 + m = (as.length + m) + 1 by omega,
      List.getD_cons_succ, ih]

lemma drop_append_len {α : Type} :
    ∀ (as bs : List α) (m : Nat), (as ++ bs).drop (as.length + m) = bs.drop m := by
  intro as
  induction as with
  | nil => intro bs m; simp
  | cons a as ih =>
    intro bs m
    rw [List.cons_append, List.length_cons,
      show as.length + 1 + m = (as.length + m) + 1 by omega,
      List.drop_succ_cons, ih]

lemma take_append_len {α : Type} :
    ∀ (as bs : List α) (m : Nat), (as ++ bs).take (as.length + m) = as ++ bs.take m := by
  intro as
  induction as with
  | nil => intro bs m; simp
  | cons a as ih =>
    intro bs m
    rw [List.cons_append, List.length_cons,
      show as.length + 1 + m = (as.length + m) + 1 by omega,
      List.take_succ_cons, ih, List.cons_append]

lemma flatMap_congr_left {α β : Type} (l : List α) (f g : α → List β)
    (h : ∀ a ∈ l, f a = g a) : l.flatMap f = l.flatMap g := by
  induction l with
  | nil => rfl
  | cons x xs ih =>
    rw [List.flatMap_cons, List.flatMap_cons, h x (by simp),
      ih (fun a ha => h a (by simp [ha]))]

lemma length_flatMap_const {α : Type} (c : Nat) (F : Nat → List α)
    (h : ∀ i, (F i).length = c) :
    ∀ (s n : Nat), ((List.range' s n).flatMap F).length = n * c := by
  intro s n
  induction n generalizing s with
  | zero => simp
  | succ n ih =>
    rw [show List.range' s (n + 1) = s :: List.range' (s + 1) n from rfl,
      List.flatMap_cons, List.length_append, h s, ih (s + 1)]
    ring

lemma flatMap_drop_uniform {α : Type} (F : Nat → List α) (c : Nat)
    (hc : ∀ i, (F i).length = c) :
    ∀ (a s m : Nat), a ≤ m →
      ((List.range' s m).flatMap F).drop (a * c) =
        (List.range' (s + a) (m - a)).flatMap F := by
  intro a
  induction a with
  | zero => intro s m h; simp
  | succ a ih =>
    intro s m h
    cases m with
    | zero => omega
    | succ m =>
      rw [show List.range' s (m + 1) = s :: List.range' (s + 1) m from rfl,
        List.flatMap_cons,
        show (a + 1) * c = (F s).length + a * c by rw [hc]; ring,
        drop_append_len, ih (s + 1) m (by omega),
        show s + 1 + a = s + (a + 1) by omega, show m - a = m + 1 - (a + 1) by omega]

lemma flatMap_take_uniform {α : Type} (F : Nat → List α) (c : Nat)
    (hc : ∀ i, (F i).length = c) :
    ∀ (b s m : Nat), b ≤ m →
      ((List.range' s m).flatMap F).take (b * c) = (List.range' s b).flatMap F := by
  intro b
  induction b with
  | zero => intro s m h; simp
  | succ b ih =>
    intro s m h
    cases m with
    | zero => omega
    | succ m =>
      rw [show List.range' s (m + 1) = s :: List.range' (s + 1) m from rfl,
        List.flatMap_cons,
        show (b + 1) * c = (F s).length + b * c by rw [hc]; ring,
        take_append_len, ih (s + 1) m (by omega),
        show List.range' s (b + 1) = s :: List.range' (s + 1) b from rfl,
        List.flatMap_cons]

lemma flatMap_segment {α : Type} (F : Nat → List α) (c : Nat)
    (hc : ∀ i, (F i).length = c) (G a b : Nat) (h : a + b ≤ G) :
    (((List.range G).flatMap F).drop (a * c)).take (b * c) =
      (List.range' a b).flatMap F := by
  rw [List.range_eq_range', flatMap_drop_uniform F c hc a 0 G (by omega),
    Nat.zero_add, flatMap_take_uniform F c hc b a (G - a) (by omega)]

lemma writeSeq_nil {κ T : Type} [DecidableEq κ] [Inhabited T]
    (d : κ → T) (buf : List T) (pos : Nat) : writeSeq d [] buf pos = d := rfl

lemma writeSeq_cons {κ T : Type} [DecidableEq κ] [Inhabited T]
    (d : κ → T) (k : κ) (ks : List κ) (buf : List T) (pos : Nat) :
    writeSeq d (k :: ks) buf pos =
      writeSeq (Function.update d k (buf.getD pos default)) ks buf (pos + 1) := rfl

lemma writeSeq_not_mem {κ T : Type} [DecidableEq κ] [Inhabited T] :
    ∀ (ks : List κ) (d : κ → T) (buf : List T) (pos : Nat) (k : κ), k ∉ ks →
      writeSeq d ks buf pos k = d k := by
  intro ks
  induction ks with
  | nil => intro d buf pos k h; rfl
  | cons k0 ks ih =>
    intro d buf pos k h
    rw [writeSeq_cons, ih _ _ _ _ (fun hk => h (List.mem_cons_of_mem _ hk)),
      Function.update_noteq (by intro he; rw [he] at h; exact h (List.mem_cons_self k0 ks))]

lemma writeSeq_mem {κ T : Type} [DecidableEq κ] [Inhabited T] (v : κ → T) :
    ∀ (ks : List κ) (d : κ → T) (buf : List T) (pos : Nat), ks.Nodup →
      (∀ (m : Nat) (hm : m < ks.length), buf.getD (pos + m) default = v ks[m]) →
      ∀ k ∈ ks, writeSeq d ks buf pos k = v k := by
  intro ks
  induction ks with
  | nil => intro d buf pos hnd hbuf k hk; simp at hk
  | cons k0 ks ih =>
    intro d buf pos hnd hbuf k hk
    rw [writeSeq_cons]
    rcases List.mem_cons.mp hk with h | h
    · subst h
      rw [writeSeq_not_mem ks _ _ _ _ (List.nodup_cons.mp hnd).1,
        Function.update_same]
      have hb := hbuf 0 (by simp)
      simpa using hb
    · refine ih _ buf (pos + 1) (List.nodup_cons.mp hnd).2 ?_ k h
      intro m hm
      have hb := hbuf (m + 1) (by simpa using hm)
      rw [show pos + (m + 1) = pos + 1 + m by omega] at hb
      simpa using hb

lemma writeSeq_append {κ T : Type} [DecidableEq κ] [Inhabited T] :
    ∀ (l1 l2 : List κ) (d : κ → T) (buf : List T) (pos : Nat),
      writeSeq d (l1 ++ l2) buf pos =
        writeSeq (writeSeq d l1 buf pos) l2 buf (pos + l1.length) := by
  intro l1
  induction l1 with
  | nil => intro l2 d buf pos; simp [writeSeq_nil]
  | cons k l1 ih =>
    intro l2 d buf pos
    rw [List.cons_append, writeSeq_cons, ih, writeSeq_cons,
      show pos + (k :: l1).length = pos + 1 + l1.length by simp; omega]

lemma writeSeq_blocks_aux {κ T : Type} [DecidableEq κ] [Inhabited T] :
    ∀ (qs : List Nat) (KB : Nat → List κ) (vB : Nat → κ → T) (d : κ → T)
      (buf : List T) (pos : Nat),
      (qs.flatMap KB).Nodup →
      (∀ m, m < (qs.flatMap fun g => (KB g).map (vB g)).length →
        buf.getD (pos + m) default =
          (qs.flatMap fun g => (KB g).map (vB g)).getD m default) →
      ∀ g ∈ qs, ∀ k ∈ KB g, writeSeq d (qs.flatMap KB) buf pos k = vB g k := by
  intro qs
  induction qs with
  | nil => intro KB vB d buf pos hnd hbuf g hg; simp at hg
  | cons g0 rest ih =>
    intro KB vB d buf pos hnd hbuf g hg k hk
    rw [List.flatMap_cons] at hnd ⊢
    rw [List.flatMap_cons] at hbuf
    rcases List.mem_cons.mp hg with h | h
    · subst h
      rw [writeSeq_append]
      have hdisj := (List.nodup_append.mp hnd).2.2
      rw [writeSeq_not_mem _ _ _ _ _ (fun hmem => hdisj hk hmem)]
      refine writeSeq_mem (vB g) (KB g) d buf pos (List.nodup_append.mp hnd).1 ?_ k hk
      intro m hm
      have hmlt : m < ((KB g).map (vB g)).length := by simpa using hm
      rw [hbuf m (by rw [List.length_append]; omega),
        List.getD_append _ _ _ m hmlt, getD_of_lt _ _ m hmlt, List.getElem_map]
    · rw [writeSeq_append]
      refine ih KB vB (writeSeq d (KB g0) buf pos) buf (pos + (KB g0).length)
        (List.nodup_append.mp hnd).2.1 ?_ g h k hk
      intro m hm
      have hlen : ((KB g0).map (vB g0)).length = (KB g0).length := by simp
      have hb := hbuf ((KB g0).length + m)
        (by rw [List.length_append, hlen]; omega)
      rw [show pos + ((KB g0).length + m) = pos + (KB g0).length + m by omega] at hb
      rw [hb, ← hlen, getD_append_right_len]

lemma writeSeq_blocks {κ T : Type} [DecidableEq κ] [Inhabited T]
    (qs : List Nat) (KB : Nat → List κ) (vB : Nat → κ → T) (d : κ → T)
    (hnd : (qs.flatMap KB).Nodup) :
    ∀ g ∈ qs, ∀ k ∈ KB g,
      writeSeq d (qs.flatMap KB) (qs.flatMap fun g2 => (KB g2).map (vB g2)) 0 k =
        vB g k :=
  writeSeq_blocks_aux qs KB vB d _ 0 hnd (fun m _ => by rw [Nat.zero_add])

lemma nodup_flatMap_intervals {κ : Type} (l : List Nat)
    (hl : List.Pairwise (fun u v => u < v) l) (F : Nat → List κ)
    (proj : κ → Nat) (s c : Nat → Nat)
    (hnd : ∀ np ∈ l, (F np).Nodup)
    (hin : ∀ np ∈ l, ∀ k ∈ F np, s np ≤ proj k ∧ proj k < s np + c np)
    (hmono : ∀ u v, u ∈ l → v ∈ l → u < v → s u + c u ≤ s v) :
    (l.flatMap F).Nodup := by
  rw [List.nodup_flatMap]
  refine ⟨hnd, ?_⟩
  refine hl.imp_of_mem ?_
  intro u v hu hv huv k hku hkv
  have h1 := hin u hu k hku
  have h2 := hin v hv k hkv
  have h3 := hmono u v hu hv huv
  omega

lemma stClosed_mono (b nl : Nat) {i j : Nat} (h : i ≤ j) :
    stClosed b nl i ≤ stClosed b nl j := by
  unfold stClosed
  have : i * b ≤ j * b := Nat.mul_le_mul_right b h
  omega

lemma en_st_len (b nl i : Nat) (hb : 1 ≤ b) :
    enClosed b nl i + 1 - stClosed b nl i = szClosed b nl i := by
  unfold enClosed
  have h := stClosed_succ b nl i
  have h2 := szClosed_pos b nl i hb
  omega

lemma stClosed_cover (b nl : Nat) :
    ∀ (k i : Nat), i < stClosed b nl k →
      ∃ q, q < k ∧ ∃ off, off < szClosed b nl q ∧ i = stClosed b nl q + off := by
  intro k
  induction k with
  | zero => intro i hi; rw [stClosed_zero] at hi; omega
  | succ k ih =>
    intro i hi
    by_cases h : i < stClosed b nl k
    · obtain ⟨q, hq, off, hoff, heq⟩ := ih i h
      exact ⟨q, by omega, off, hoff, heq⟩
    · rw [stClosed_succ] at hi
      exact ⟨k, by omega, i - stClosed b nl k, by omega, by omega⟩

lemma sum_szClosed_mul (b nl K : Nat) (k : Nat) :
    ((List.range k).map fun i => szClosed b nl i * K).sum = stClosed b nl k * K := by
  rw [List.sum_map_mul_right, sum_szClosed]

lemma exclScan_map_getD (b nl K p r : Nat) (hr : r < p) :
    (exclScan 0 ((List.range p).map fun np => szClosed b nl np * K)).getD r 0 =
      stClosed b nl r * K := by
  rw [exclScan_getD _ 0 r (by simpa using hr), ← List.map_take, List.take_range,
    Nat.min_eq_left (by omega), sum_szClosed_mul, Nat.zero_add]

/-! ### Component facts for the Decomp2 pencils -/

lemma x2_ac (n0 n1 p r : Nat) : (decomp2_x_pencil n0 n1 p r).axis_contig = 0 := rfl

lemma y2_ac (n0 n1 p r : Nat) : (decomp2_y_pencil n0 n1 p r).axis_contig = 1 := rfl

lemma x2_d0 (n0 n1 p r : Nat) :
    (decomp2_x_pencil n0 n1 p r).distAt 0 = Distribution.contiguous n0 := rfl

lemma x2_d1 (n0 n1 p r : Nat) :
    (decomp2_x_pencil n0 n1 p r).distAt 1 = Distribution.split n1 p r := rfl

lemma y2_d0 (n0 n1 p r : Nat) :
    (decomp2_y_pencil n0 n1 p r).distAt 0 = Distribution.split n0 p r := rfl

lemma y2_d1 (n0 n1 p r : Nat) :
    (decomp2_y_pencil n0 n1 p r).distAt 1 = Distribution.contiguous n1 := rfl

lemma x2_np1 (n0 n1 p r : Nat) :
    (decomp2_x_pencil n0 n1 p r).nprocs_along_axis 1 = p := rfl

lemma y2_np0 (n0 n1 p r : Nat) :
    (decomp2_y_pencil n0 n1 p r).nprocs_along_axis 0 = p := rfl

lemma x2_M (n0 n1 p r : Nat) : (decomp2_x_pencil n0 n1 p r).M = 2 := rfl

lemma contig_sz (n : Nat) : (Distribution.contiguous n).sz = n := rfl

/-! ### The counts and displacements of the Decomp2 transposes, in closed
form -/

lemma xyCounts2_eq (n0 n1 p q : Nat) (hp : 1 ≤ p) (h0 : p ≤ n0) (h1 : p ≤ n1)
    (hq : q < p) :
    xyCounts2 n0 n1 p q = some (
      (List.range p).map (fun np =>
        szClosed (n0 / p) (p - n0 % p) np * szClosed (n1 / p) (p - n1 % p) q),
      exclScan 0 ((List.range p).map (fun np =>
        szClosed (n0 / p) (p - n0 % p) np * szClosed (n1 / p) (p - n1 % p) q))) := by
  have hneq : (decomp2_x_pencil n0 n1 p q).axis_contig ≠
      (decomp2_y_pencil n0 n1 p q).axis_contig := by
    rw [x2_ac, y2_ac]; omega
  have hsz : ∀ i, i < (decomp2_x_pencil n0 n1 p q).M →
      i ≠ (decomp2_x_pencil n0 n1 p q).axis_contig →
      i ≠ (decomp2_y_pencil n0 n1 p q).axis_contig →
      ((decomp2_x_pencil n0 n1 p q).distAt i).sz =
        ((decomp2_y_pencil n0 n1 p q).distAt i).sz := by
    intro i hM hs hr
    rw [x2_M] at hM
    rw [x2_ac] at hs
    rw [y2_ac] at hr
    omega
  have hbound : (decomp2_x_pencil n0 n1 p q).nprocs_along_axis
        (decomp2_y_pencil n0 n1 p q).axis_contig ≤
      ((decomp2_y_pencil n0 n1 p q).distAt
        (decomp2_x_pencil n0 n1 p q).axis_contig).sz_procs.length := by
    rw [y2_ac, x2_np1, x2_ac, y2_d0, split_sz_procs n0 p q hp h0]
    simp
  have hmap : (List.range ((decomp2_x_pencil n0 n1 p q).nprocs_along_axis
        (decomp2_y_pencil n0 n1 p q).axis_contig)).map
      (fun np => ((List.range (decomp2_x_pencil n0 n1 p q).M).map (fun i =>
        if i = (decomp2_x_pencil n0 n1 p q).axis_contig then
          ((decomp2_y_pencil n0 n1 p q).distAt i).sz_procs.getD np 0
        else ((decomp2_x_pencil n0 n1 p q).distAt i).sz)).prod) =
      (List.range p).map (fun np =>
        szClosed (n0 / p) (p - n0 % p) np * szClosed (n1 / p) (p - n1 % p) q) := by
    rw [y2_ac, x2_np1]
    refine List.map_congr_left ?_
    intro np hnp
    have hnp2 : np < p := List.mem_range.mp hnp
    rw [x2_M, show List.range 2 = [0, 1] from rfl]
    simp only [List.map_cons, List.map_nil, List.prod_cons, List.prod_nil, Nat.mul_one]
    rw [x2_ac, if_pos rfl, if_neg (by omega)]
    rw [y2_d0, split_sz_procs n0 p q hp h0, getD_map_range _ hnp2 0,
      x2_d1, split_sz n1 p q hp h1 hq]
  unfold xyCounts2
  rw [send_counts_eq _ _ hneq hsz hbound, hmap]

lemma yxCounts2_eq (n0 n1 p q : Nat) (hp : 1 ≤ p) (h0 : p ≤ n0) (h1 : p ≤ n1)
    (hq : q < p) :
    yxCounts2 n0 n1 p q = some (
      (List.range p).map (fun np =>
        szClosed (n1 / p) (p - n1 % p) np * szClosed (n0 / p) (p - n0 % p) q),
      exclScan 0 ((List.range p).map (fun np =>
        szClosed (n1 / p) (p - n1 % p) np * szClosed (n0 / p) (p - n0 % p) q))) := by
  have hneq : (decomp2_y_pencil n0 n1 p q).axis_contig ≠
      (decomp2_x_pencil n0 n1 p q).axis_contig := by
    rw [x2_ac, y2_ac]; omega
  have hsz : ∀ i, i < (decomp2_y_pencil n0 n1 p q).M →
      i ≠ (decomp2_y_pencil n0 n1 p q).axis_contig →
      i ≠ (decomp2_x_pencil n0 n1 p q).axis_contig →
      ((decomp2_y_pencil n0 n1 p q).distAt i).sz =
        ((decomp2_x_pencil n0 n1 p q).distAt i).sz := by
    intro i hM hs hr
    rw [show (decomp2_y_pencil n0 n1 p q).M = 2 from rfl] at hM
    rw [y2_ac] at hs
    rw [x2_ac] at hr
    omega
  have hbound : (decomp2_y_pencil n0 n1 p q).nprocs_along_axis
        (decomp2_x_pencil n0 n1 p q).axis_contig ≤
      ((decomp2_x_pencil n0 n1 p q).distAt
        (decomp2_y_pencil n0 n1 p q).axis_contig).sz_procs.length := by
    rw [x2_ac, y2_np0, y2_ac, x2_d1, split_sz_procs n1 p q hp h1]
    simp
  have hmap : (List.range ((decomp2_y_pencil n0 n1 p q).nprocs_along_axis
        (decomp2_x_pencil n0 n1 p q).axis_contig)).map
      (fun np => ((List.range (decomp2_y_pencil n0 n1 p q).M).map (fun i =>
        if i = (decomp2_y_pencil n0 n1 p q).axis_contig then
          ((decomp2_x_pencil n0 n1 p q).distAt i).sz_procs.getD np 0
        else ((decomp2_y_pencil n0 n1 p q).distAt i).sz)).prod) =
      (List.range p).map (fun np =>
        szClosed (n1 / p) (p - n1 % p) np * szClosed (n0 / p) (p - n0 % p) q) := by
    rw [x2_ac, y2_np0]
    refine List.map_congr_left ?_
    intro np hnp
    have hnp2 : np < p := List.mem_range.mp hnp
    rw [show (decomp2_y_pencil n0 n1 p q).M = 2 from rfl,
      show List.range 2 = [0, 1] from rfl]
    simp only [List.map_cons, List.map_nil, List.prod_cons, List.prod_nil, Nat.mul_one]
    rw [y2_ac, if_neg (by omega), if_pos rfl]
    rw [x2_d1, split_sz_procs n1 p q hp h1, getD_map_range _ hnp2 0,
      y2_d0, split_sz n0 p q hp h0 hq]
    ring
  unfold yxCounts2
  rw [send_counts_eq _ _ hneq hsz hbound, hmap]

lemma xyCounts2_counts_getD (n0 n1 p q : Nat) (hp : 1 ≤ p) (h0 : p ≤ n0)
    (h1 : p ≤ n1) (hq : q < p) (r : Nat) (hr : r < p) :
    ((xyCounts2 n0 n1 p q).getD ([], [])).1.getD r 0 =
      szClosed (n0 / p) (p - n0 % p) r * szClosed (n1 / p) (p - n1 % p) q := by
  rw [xyCounts2_eq n0 n1 p q hp h0 h1 hq]
  simp only [Option.getD_some]
  exact getD_map_range _ hr 0

lemma xyCounts2_displs_getD (n0 n1 p q : Nat) (hp : 1 ≤ p) (h0 : p ≤ n0)
    (h1 : p ≤ n1) (hq : q < p) (r : Nat) (hr : r < p) :
    ((xyCounts2 n0 n1 p q).getD ([], [])).2.getD r 0 =
      stClosed (n0 / p) (p - n0 % p) r * szClosed (n1 / p) (p - n1 % p) q := by
  rw [xyCounts2_eq n0 n1 p q hp h0 h1 hq]
  simp only [Option.getD_some]
  exact exclScan_map_getD _ _ _ p r hr

lemma yxCounts2_counts_getD (n0 n1 p q : Nat) (hp : 1 ≤ p) (h0 : p ≤ n0)
    (h1 : p ≤ n1) (hq : q < p) (r : Nat) (hr : r < p) :
    ((yxCounts2 n0 n1 p q).getD ([], [])).1.getD r 0 =
      szClosed (n1 / p) (p - n1 % p) r * szClosed (n0 / p) (p - n0 % p) q := by
  rw [yxCounts2_eq n0 n1 p q hp h0 h1 hq]
  simp only [Option.getD_some]
  exact getD_map_range _ hr 0

lemma yxCounts2_displs_getD (n0 n1 p q : Nat) (hp : 1 ≤ p) (h0 : p ≤ n0)
    (h1 : p ≤ n1) (hq : q < p) (r : Nat) (hr : r < p) :
    ((yxCounts2 n0 n1 p q).getD ([], [])).2.getD r 0 =
      stClosed (n1 / p) (p - n1 % p) r * szClosed (n0 / p) (p - n0 % p) q := by
  rw [yxCounts2_eq n0 n1 p q hp h0 h1 hq]
  simp only [Option.getD_some]
  exact exclScan_map_getD _ _ _ p r hr

/-! ### Nodup of the Decomp2 merge iteration orders -/

lemma keys2_snd_nodup (P a b nl : Nat) :
    ((List.range P).flatMap fun np =>
      (List.range a).flatMap fun i =>
        (List.range' (stClosed b nl np) (szClosed b nl np)).map
          fun j => ((i, j) : Nat × Nat)).Nodup := by
  refine nodup_flatMap_intervals (List.range P) (List.pairwise_lt_range P) _ Prod.snd
    (stClosed b nl) (szClosed b nl) ?_ ?_ ?_
  · intro np hnp
    refine nodup_flatMap_intervals (List.range a) (List.pairwise_lt_range a) _ Prod.fst
      (fun i => i) (fun _ => 1) ?_ ?_ ?_
    · intro i hi
      refine List.Nodup.map ?_ (List.nodup_range' _ _)
      intro u v huv
      simpa using huv
    · intro i hi k hk
      simp only [List.mem_map] at hk
      obtain ⟨j, hj, rfl⟩ := hk
      simp
    · intro u v hu hv huv
      change u + 1 ≤ v
      omega
  · intro np hnp k hk
    simp only [List.mem_flatMap, List.mem_map] at hk
    obtain ⟨i, hi, j, hj, rfl⟩ := hk
    rw [List.mem_range'_1] at hj
    simpa using hj
  · intro u v hu hv huv
    rw [← stClosed_succ]
    exact stClosed_mono b nl (by omega)

lemma keys2_fst_nodup (P a b nl : Nat) :
    ((List.range P).flatMap fun np =>
      (List.range a).flatMap fun j =>
        (List.range' (stClosed b nl np) (szClosed b nl np)).map
          fun i => ((i, j) : Nat × Nat)).Nodup := by
  refine nodup_flatMap_intervals (List.range P) (List.pairwise_lt_range P) _ Prod.fst
    (stClosed b nl) (szClosed b nl) ?_ ?_ ?_
  · intro np hnp
    refine nodup_flatMap_intervals (List.range a) (List.pairwise_lt_range a) _ Prod.snd
      (fun j => j) (fun _ => 1) ?_ ?_ ?_
    · intro j hj
      refine List.Nodup.map ?_ (List.nodup_range' _ _)
      intro u v huv
      simpa using huv
    · intro j hj k hk
      simp only [List.mem_map] at hk
      obtain ⟨i, hi, rfl⟩ := hk
      simp
    · intro u v hu hv huv
      change u + 1 ≤ v
      omega
  · intro np hnp k hk
    simp only [List.mem_flatMap, List.mem_map] at hk
    obtain ⟨j, hj, i, hi, rfl⟩ := hk
    rw [List.mem_range'_1] at hi
    simpa using hi
  · intro u v hu hv huv
    rw [← stClosed_succ]
    exact stClosed_mono b nl (by omega)

/-! ### The Decomp2 merge iteration orders and receive buffers in closed
form -/

lemma merge_xy2_keys_eq (n0 n1 p r : Nat) (hp : 1 ≤ p) (h0 : p ≤ n0)
    (h1 : p ≤ n1) (hr : r < p) :
    merge_xy2_keys (decomp2_x_pencil n0 n1 p r) (decomp2_y_pencil n0 n1 p r) =
      (List.range p).flatMap fun np =>
        (List.range (szClosed (n0 / p) (p - n0 % p) r)).flatMap fun i =>
          (List.range' (stClosed (n1 / p) (p - n1 % p) np)
            (szClosed (n1 / p) (p - n1 % p) np)).map
            fun j => ((i, j) : Nat × Nat) := by
  have hb1 : 1 ≤ n1 / p := (Nat.one_le_div_iff (by omega)).mpr h1
  unfold merge_xy2_keys
  rw [x2_np1, y2_d0, split_sz n0 p r hp h0 hr]
  refine flatMap_congr_left _ _ _ ?_
  intro np hnp
  have hnp2 : np < p := List.mem_range.mp hnp
  rw [x2_d1, split_st_procs n1 p r hp h1, split_en_procs n1 p r hp h1,
    getD_map_range _ hnp2 0, getD_map_range _ hnp2 0, en_st_len _ _ _ hb1]

lemma merge_yx2_keys_eq (n0 n1 p r : Nat) (hp : 1 ≤ p) (h0 : p ≤ n0)
    (h1 : p ≤ n1) (hr : r < p) :
    merge_yx2_keys (decomp2_y_pencil n0 n1 p r) (decomp2_x_pencil n0 n1 p r) =
      (List.range p).flatMap fun np =>
        (List.range (szClosed (n1 / p) (p - n1 % p) r)).flatMap fun j =>
          (List.range' (stClosed (n0 / p) (p - n0 % p) np)
            (szClosed (n0 / p) (p - n0 % p) np)).map
            fun i => ((i, j) : Nat × Nat) := by
  have hb0 : 1 ≤ n0 / p := (Nat.one_le_div_iff (by omega)).mpr h0
  unfold merge_yx2_keys
  rw [y2_np0, x2_d1, split_sz n1 p r hp h1 hr]
  refine flatMap_congr_left _ _ _ ?_
  intro np hnp
  have hnp2 : np < p := List.mem_range.mp hnp
  rw [y2_d0, split_st_procs n0 p r hp h0, split_en_procs n0 p r hp h0,
    getD_map_range _ hnp2 0, getD_map_range _ hnp2 0, en_st_len _ _ _ hb0]

lemma xy2_buf_eq (n0 n1 p : Nat) (hp : 1 ≤ p) (h0 : p ≤ n0) (h1 : p ≤ n1)
    (r : Nat) (hr : r < p) {T : Type} [Inhabited T] (A : Nat → Nat × Nat → T) :
    allToAllV p (fun q => split_xy2 (decomp2_x_pencil n0 n1 p q) (A q))
      (fun q rr => ((xyCounts2 n0 n1 p q).getD ([], [])).1.getD rr 0)
      (fun q rr => ((xyCounts2 n0 n1 p q).getD ([], [])).2.getD rr 0) r =
    (List.range p).flatMap fun q =>
      ((List.range (szClosed (n0 / p) (p - n0 % p) r)).flatMap fun i =>
        (List.range' (stClosed (n1 / p) (p - n1 % p) q)
          (szClosed (n1 / p) (p - n1 % p) q)).map
          fun j => ((i, j) : Nat × Nat)).map
        fun k => A q (stClosed (n0 / p) (p - n0 % p) r + k.1,
          k.2 - stClosed (n1 / p) (p - n1 % p) q) := by
  unfold allToAllV
  refine flatMap_congr_left _ _ _ ?_
  intro q hq
  have hq2 : q < p := List.mem_range.mp hq
  beta_reduce
  rw [xyCounts2_counts_getD n0 n1 p q hp h0 h1 hq2 r hr,
    xyCounts2_displs_getD n0 n1 p q hp h0 h1 hq2 r hr]
  unfold split_xy2
  rw [x2_d0, contig_sz, x2_d1, split_sz n1 p q hp h1 hq2]
  have hcov : stClosed (n0 / p) (p - n0 % p) r + szClosed (n0 / p) (p - n0 % p) r ≤ n0 := by
    rw [← stClosed_succ]
    have h := stClosed_mono (n0 / p) (p - n0 % p) (show r + 1 ≤ p by omega)
    rw [stClosed_p n0 p hp h0] at h
    exact h
  rw [flatMap_segment _ (szClosed (n1 / p) (p - n1 % p) q) (fun i => by simp) n0 _ _ hcov]
  rw [List.range'_eq_map_range, List.flatMap_map, List.map_flatMap]
  refine flatMap_congr_left _ _ _ ?_
  intro i hi
  rw [List.map_map, List.range'_eq_map_range, List.map_map]
  refine List.map_congr_left ?_
  intro jl hjl
  show A q (stClosed (n0 / p) (p - n0 % p) r + i, jl) =
    A q (stClosed (n0 / p) (p - n0 % p) r + i,
      stClosed (n1 / p) (p - n1 % p) q + jl - stClosed (n1 / p) (p - n1 % p) q)
  rw [show stClosed (n1 / p) (p - n1 % p) q + jl - stClosed (n1 / p) (p - n1 % p) q = jl
    by omega]

lemma yx2_buf_eq (n0 n1 p : Nat) (hp : 1 ≤ p) (h0 : p ≤ n0) (h1 : p ≤ n1)
    (r : Nat) (hr : r < p) {T : Type} [Inhabited T] (C : Nat → Nat × Nat → T) :
    allToAllV p (fun q => split_yx2 (decomp2_y_pencil n0 n1 p q) (C q))
      (fun q rr => ((yxCounts2 n0 n1 p q).getD ([], [])).1.getD rr 0)
      (fun q rr => ((yxCounts2 n0 n1 p q).getD ([], [])).2.getD rr 0) r =
    (List.range p).flatMap fun q =>
      ((List.range (szClosed (n1 / p) (p - n1 % p) r)).flatMap fun j =>
        (List.range' (stClosed (n0 / p) (p - n0 % p) q)
          (szClosed (n0 / p) (p - n0 % p) q)).map
          fun i => ((i, j) : Nat × Nat)).map
        fun k => C q (k.1 - stClosed (n0 / p) (p - n0 % p) q,
          stClosed (n1 / p) (p - n1 % p) r + k.2) := by
  unfold allToAllV
  refine flatMap_congr_left _ _ _ ?_
  intro q hq
  have hq2 : q < p := List.mem_range.mp hq
  beta_reduce
  rw [yxCounts2_counts_getD n0 n1 p q hp h0 h1 hq2 r hr,
    yxCounts2_displs_getD n0 n1 p q hp h0 h1 hq2 r hr]
  unfold split_yx2
  rw [y2_d1, contig_sz, y2_d0, split_sz n0 p q hp h0 hq2]
  have hcov : stClosed (n1 / p) (p - n1 % p) r + szClosed (n1 / p) (p - n1 % p) r ≤ n1 := by
    rw [← stClosed_succ]
    have h := stClosed_mono (n1 / p) (p - n1 % p) (show r + 1 ≤ p by omega)
    rw [stClosed_p n1 p hp h1] at h
    exact h
  rw [flatMap_segment _ (szClosed (n0 / p) (p - n0 % p) q) (fun j => by simp) n1 _ _ hcov]
  rw [List.range'_eq_map_range, List.flatMap_map, List.map_flatMap]
  refine flatMap_congr_left _ _ _ ?_
  intro j hj
  rw [List.map_map, List.range'_eq_map_range, List.map_map]
  refine List.map_congr_left ?_
  intro il hil
  show C q (il, stClosed (n1 / p) (p - n1 % p) r + j) =
    C q (stClosed (n0 / p) (p - n0 % p) q + il - stClosed (n0 / p) (p - n0 % p) q,
      stClosed (n1 / p) (p - n1 % p) r + j)
  rw [show stClosed (n0 / p) (p - n0 % p) q + il - stClosed (n0 / p) (p - n0 % p) q = il
    by omega]

/-! ### Pointwise action of the Decomp2 merges -/

lemma transXY2_pointwise (n0 n1 p : Nat) (hp : 1 ≤ p) (h0 : p ≤ n0) (h1 : p ≤ n1)
    {T : Type} [Inhabited T] (A : Nat → Nat × Nat → T) (init : Nat × Nat → T)
    (r : Nat) (hr : r < p) (q : Nat) (hq : q < p)
    (iloc : Nat) (hi : iloc < szClosed (n0 / p) (p - n0 % p) r)
    (jloc : Nat) (hj : jloc < szClosed (n1 / p) (p - n1 % p) q) :
    merge_xy2 (decomp2_x_pencil n0 n1 p r) (decomp2_y_pencil n0 n1 p r)
      (allToAllV p (fun q2 => split_xy2 (decomp2_x_pencil n0 n1 p q2) (A q2))
        (fun q2 rr => ((xyCounts2 n0 n1 p q2).getD ([], [])).1.getD rr 0)
        (fun q2 rr => ((xyCounts2 n0 n1 p q2).getD ([], [])).2.getD rr 0) r)
      init
      (iloc, stClosed (n1 / p) (p - n1 % p) q + jloc) =
    A q (stClosed (n0 / p) (p - n0 % p) r + iloc, jloc) := by
  unfold merge_xy2
  rw [merge_xy2_keys_eq n0 n1 p r hp h0 h1 hr, xy2_buf_eq n0 n1 p hp h0 h1 r hr A]
  have hkmem : ((iloc, stClosed (n1 / p) (p - n1 % p) q + jloc) : Nat × Nat) ∈
      (List.range (szClosed (n0 / p) (p - n0 % p) r)).flatMap fun i =>
        (List.range' (stClosed (n1 / p) (p - n1 % p) q)
          (szClosed (n1 / p) (p - n1 % p) q)).map
          fun j => ((i, j) : Nat × Nat) := by
    rw [List.mem_flatMap]
    refine ⟨iloc, List.mem_range.mpr hi, ?_⟩
    rw [List.mem_map]
    refine ⟨stClosed (n1 / p) (p - n1 % p) q + jloc, ?_, rfl⟩
    rw [List.mem_range'_1]
    omega
  refine (writeSeq_blocks (List.range p)
    (fun np => (List.range (szClosed (n0 / p) (p - n0 % p) r)).flatMap fun i =>
      (List.range' (stClosed (n1 / p) (p - n1 % p) np)
        (szClosed (n1 / p) (p - n1 % p) np)).map
        fun j => ((i, j) : Nat × Nat))
    (fun q2 k => A q2 (stClosed (n0 / p) (p - n0 % p) r + k.1,
      k.2 - stClosed (n1 / p) (p - n1 % p) q2))
    init (keys2_snd_nodup p _ _ _)
    q (List.mem_range.mpr hq) _ hkmem).trans ?_
  show A q (stClosed (n0 / p) (p - n0 % p) r + iloc,
      stClosed (n1 / p) (p - n1 % p) q + jloc - stClosed (n1 / p) (p - n1 % p) q) =
    A q (stClosed (n0 / p) (p - n0 % p) r + iloc, jloc)
  rw [show stClosed (n1 / p) (p - n1 % p) q + jloc - stClosed (n1 / p) (p - n1 % p) q = jloc
    by omega]

lemma transYX2_pointwise (n0 n1 p : Nat) (hp : 1 ≤ p) (h0 : p ≤ n0) (h1 : p ≤ n1)
    {T : Type} [Inhabited T] (C : Nat → Nat × Nat → T) (init : Nat × Nat → T)
    (r : Nat) (hr : r < p) (q : Nat) (hq : q < p)
    (iloc : Nat) (hi : iloc < szClosed (n0 / p) (p - n0 % p) q)
    (jloc : Nat) (hj : jloc < szClosed (n1 / p) (p - n1 % p) r) :
    merge_yx2 (decomp2_y_pencil n0 n1 p r) (decomp2_x_pencil n0 n1 p r)
      (allToAllV p (fun q2 => split_yx2 (decomp2_y_pencil n0 n1 p q2) (C q2))
        (fun q2 rr => ((yxCounts2 n0 n1 p q2).getD ([], [])).1.getD rr 0)
        (fun q2 rr => ((yxCounts2 n0 n1 p q2).getD ([], [])).2.getD rr 0) r)
      init
      (stClosed (n0 / p) (p - n0 % p) q + iloc, jloc) =
    C q (iloc, stClosed (n1 / p) (p - n1 % p) r + jloc) := by
  unfold merge_yx2
  rw [merge_yx2_keys_eq n0 n1 p r hp h0 h1 hr, yx2_buf_eq n0 n1 p hp h0 h1 r hr C]
  have hkmem : ((stClosed (n0 / p) (p - n0 % p) q + iloc, jloc) : Nat × Nat) ∈
      (List.range (szClosed (n1 / p) (p - n1 % p) r)).flatMap fun j =>
        (List.range' (stClosed (n0 / p) (p - n0 % p) q)
          (szClosed (n0 / p) (p - n0 % p) q)).map
          fun i => ((i, j) : Nat × Nat) := by
    rw [List.mem_flatMap]
    refine ⟨jloc, List.mem_range.mpr hj, ?_⟩
    rw [List.mem_map]
    refine ⟨stClosed (n0 / p) (p - n0 % p) q + iloc, ?_, rfl⟩
    rw [List.mem_range'_1]
    omega
  refine (writeSeq_blocks (List.range p)
    (fun np => (List.range (szClosed (n1 / p) (p - n1 % p) r)).flatMap fun j =>
      (List.range' (stClosed (n0 / p) (p - n0 % p) np)
        (szClosed (n0 / p) (p - n0 % p) np)).map
        fun i => ((i, j) : Nat × Nat))
    (fun q2 k => C q2 (k.1 - stClosed (n0 / p) (p - n0 % p) q2,
      stClosed (n1 / p) (p - n1 % p) r + k.2))
    init (keys2_fst_nodup p _ _ _)
    q (List.mem_range.mpr hq) _ hkmem).trans ?_
  show C q (stClosed (n0 / p) (p - n0 % p) q + iloc - stClosed (n0 / p) (p - n0 % p) q,
      stClosed (n1 / p) (p - n1 % p) r + jloc) =
    C q (iloc, stClosed (n1 / p) (p - n1 % p) r + jloc)
  rw [show stClosed (n0 / p) (p - n0 % p) q + iloc - stClosed (n0 / p) (p - n0 % p) q = iloc
    by omega]

/-! ### The Decomp2 transposes succeed and round-trip -/

lemma transpose_x_to_y_2_some (n0 n1 p : Nat) (hp : 1 ≤ p) (h0 : p ≤ n0)
    (h1 : p ≤ n1) {T : Type} [Inhabited T] (A init : Nat → Nat × Nat → T) :
    transpose_x_to_y_2 n0 n1 p A init =
      some (fun r =>
        merge_xy2 (decomp2_x_pencil n0 n1 p r) (decomp2_y_pencil n0 n1 p r)
          (allToAllV p (fun q => split_xy2 (decomp2_x_pencil n0 n1 p q) (A q))
            (fun q rr => ((xyCounts2 n0 n1 p q).getD ([], [])).1.getD rr 0)
            (fun q rr => ((xyCounts2 n0 n1 p q).getD ([], [])).2.getD rr 0) r)
          (init r)) := by
  have hguard : ((List.range p).all fun q =>
      (xyCounts2 n0 n1 p q).isSome && (yxCounts2 n0 n1 p q).isSome) = true := by
    rw [List.all_eq_true]
    intro q hq
    have hq2 : q < p := List.mem_range.mp hq
    rw [xyCounts2_eq n0 n1 p q hp h0 h1 hq2, yxCounts2_eq n0 n1 p q hp h0 h1 hq2]
    rfl
  unfold transpose_x_to_y_2
  rw [if_pos hguard]

lemma transpose_y_to_x_2_some (n0 n1 p : Nat) (hp : 1 ≤ p) (h0 : p ≤ n0)
    (h1 : p ≤ n1) {T : Type} [Inhabited T] (C init : Nat → Nat × Nat → T) :
    transpose_y_to_x_2 n0 n1 p C init =
      some (fun r =>
        merge_yx2 (decomp2_y_pencil n0 n1 p r) (decomp2_x_pencil n0 n1 p r)
          (allToAllV p (fun q => split_yx2 (decomp2_y_pencil n0 n1 p q) (C q))
            (fun q rr => ((yxCounts2 n0 n1 p q).getD ([], [])).1.getD rr 0)
            (fun q rr => ((yxCounts2 n0 n1 p q).getD ([], [])).2.getD rr 0) r)
          (init r)) := by
  have hguard : ((List.range p).all fun q =>
      (yxCounts2 n0 n1 p q).isSome && (xyCounts2 n0 n1 p q).isSome) = true := by
    rw [List.all_eq_true]
    intro q hq
    have hq2 : q < p := List.mem_range.mp hq
    rw [xyCounts2_eq n0 n1 p q hp h0 h1 hq2, yxCounts2_eq n0 n1 p q hp h0 h1 hq2]
    rfl
  unfold transpose_y_to_x_2
  rw [if_pos hguard]

lemma roundtrip2_xyx (n0 n1 p : Nat) (hp : 1 ≤ p) (h0 : p ≤ n0) (h1 : p ≤ n1)
    {T : Type} [Inhabited T] (A i1 i2 : Nat → Nat × Nat → T) :
    ∃ B C, transpose_x_to_y_2 n0 n1 p A i1 = some B ∧
      transpose_y_to_x_2 n0 n1 p B i2 = some C ∧
      ∀ r, r < p → ∀ i, i < n0 → ∀ j, j < szClosed (n1 / p) (p - n1 % p) r →
        C r (i, j) = A r (i, j) := by
  refine ⟨_, _, transpose_x_to_y_2_some n0 n1 p hp h0 h1 A i1,
    transpose_y_to_x_2_some n0 n1 p hp h0 h1 _ i2, ?_⟩
  intro r hr i hi j hj
  have hcov : ∃ q, q < p ∧ ∃ off, off < szClosed (n0 / p) (p - n0 % p) q ∧
      i = stClosed (n0 / p) (p - n0 % p) q + off := by
    refine stClosed_cover (n0 / p) (p - n0 % p) p i ?_
    rw [stClosed_p n0 p hp h0]
    exact hi
  obtain ⟨q, hq, off, hoff, rfl⟩ := hcov
  beta_reduce
  rw [transYX2_pointwise n0 n1 p hp h0 h1 _ _ r hr q hq off hoff j hj]
  exact transXY2_pointwise n0 n1 p hp h0 h1 A (i1 q) q hq r hr off hoff j hj

lemma roundtrip2_yxy (n0 n1 p : Nat) (hp : 1 ≤ p) (h0 : p ≤ n0) (h1 : p ≤ n1)
    {T : Type} [Inhabited T] (A i1 i2 : Nat → Nat × Nat → T) :
    ∃ B C, transpose_y_to_x_2 n0 n1 p A i1 = some B ∧
      transpose_x_to_y_2 n0 n1 p B i2 = some C ∧
      ∀ r, r < p → ∀ i, i < szClosed (n0 / p) (p - n0 % p) r → ∀ j, j < n1 →
        C r (i, j) = A r (i, j) := by
  refine ⟨_, _, transpose_y_to_x_2_some n0 n1 p hp h0 h1 A i1,
    transpose_x_to_y_2_some n0 n1 p hp h0 h1 _ i2, ?_⟩
  intro r hr i hi j hj
  have hcov : ∃ q, q < p ∧ ∃ off, off < szClosed (n1 / p) (p - n1 % p) q ∧
      j = stClosed (n1 / p) (p - n1 % p) q + off := by
    refine stClosed_cover (n1 / p) (p - n1 % p) p j ?_
    rw [stClosed_p n1 p hp h1]
    exact hj
  obtain ⟨q, hq, off, hoff, rfl⟩ := hcov
  beta_reduce
  rw [transXY2_pointwise n0 n1 p hp h0 h1 _ _ r hr q hq i hi off hoff]
  exact transYX2_pointwise n0 n1 p hp h0 h1 A (i1 q) q hq r hr i hi off hoff

/-! ### Component facts for the Decomp3 pencils -/

lemma x3_ac (n0 n1 n2 p0 p1 c0 c1 : Nat) :
    (decomp3_x_pencil n0 n1 n2 p0 p1 c0 c1).axis_contig = 0 := rfl

lemma y3_ac (n0 n1 n2 p0 p1 c0 c1 : Nat) :
    (decomp3_y_pencil n0 n1 n2 p0 p1 c0 c1).axis_contig = 1 := rfl

lemma z3_ac (n0 n1 n2 p0 p1 c0 c1 : Nat) :
    (decomp3_z_pencil n0 n1 n2 p0 p1 c0 c1).axis_contig = 2 := rfl

lemma x3_d0 (n0 n1 n2 p0 p1 c0 c1 : Nat) :
    (decomp3_x_pencil n0 n1 n2 p0 p1 c0 c1).distAt 0 = Distribution.contiguous n0 := rfl

lemma x3_d1 (n0 n1 n2 p0 p1 c0 c1 : Nat) :
    (decomp3_x_pencil n0 n1 n2 p0 p1 c0 c1).distAt 1 = Distribution.split n1 p0 c0 := rfl

lemma x3_d2 (n0 n1 n2 p0 p1 c0 c1 : Nat) :
    (decomp3_x_pencil n0 n1 n2 p0 p1 c0 c1).distAt 2 = Distribution.split n2 p1 c1 := rfl

lemma y3_d0 (n0 n1 n2 p0 p1 c0 c1 : Nat) :
    (decomp3_y_pencil n0 n1 n2 p0 p1 c0 c1).distAt 0 = Distribution.split n0 p0 c0 := rfl

lemma y3_d1 (n0 n1 n2 p0 p1 c0 c1 : Nat) :
    (decomp3_y_pencil n0 n1 n2 p0 p1 c0 c1).distAt 1 = Distribution.contiguous n1 := rfl

lemma y3_d2 (n0 n1 n2 p0 p1 c0 c1 : Nat) :
    (decomp3_y_pencil n0 n1 n2 p0 p1 c0 c1).distAt 2 = Distribution.split n2 p1 c1 := rfl

lemma z3_d0 (n0 n1 n2 p0 p1 c0 c1 : Nat) :
    (decomp3_z_pencil n0 n1 n2 p0 p1 c0 c1).distAt 0 = Distribution.split n0 p0 c0 := rfl

lemma z3_d1 (n0 n1 n2 p0 p1 c0 c1 : Nat) :
    (decomp3_z_pencil n0 n1 n2 p0 p1 c0 c1).distAt 1 = Distribution.split n1 p1 c1 := rfl

lemma z3_d2 (n0 n1 n2 p0 p1 c0 c1 : Nat) :
    (decomp3_z_pencil n0 n1 n2 p0 p1 c0 c1).distAt 2 = Distribution.contiguous n2 := rfl

lemma x3_np1 (n0 n1 n2 p0 p1 c0 c1 : Nat) :
    (decomp3_x_pencil n0 n1 n2 p0 p1 c0 c1).nprocs_along_axis 1 = p0 := rfl

lemma y3_np0 (n0 n1 n2 p0 p1 c0 c1 : Nat) :
    (decomp3_y_pencil n0 n1 n2 p0 p1 c0 c1).nprocs_along_axis 0 = p0 := rfl

lemma y3_np2 (n0 n1 n2 p0 p1 c0 c1 : Nat) :
    (decomp3_y_pencil n0 n1 n2 p0 p1 c0 c1).nprocs_along_axis 2 = p1 := rfl

lemma z3_np1 (n0 n1 n2 p0 p1 c0 c1 : Nat) :
    (decomp3_z_pencil n0 n1 n2 p0 p1 c0 c1).nprocs_along_axis 1 = p1 := rfl

lemma x3_M (n0 n1 n2 p0 p1 c0 c1 : Nat) :
    (decomp3_x_pencil n0 n1 n2 p0 p1 c0 c1).M = 3 := rfl

lemma y3_M (n0 n1 n2 p0 p1 c0 c1 : Nat) :
    (decomp3_y_pencil n0 n1 n2 p0 p1 c0 c1).M = 3 := rfl

lemma z3_M (n0 n1 n2 p0 p1 c0 c1 : Nat) :
    (decomp3_z_pencil n0 n1 n2 p0 p1 c0 c1).M = 3 := rfl

/-! ### The counts and displacements of the Decomp3 transposes, in closed
form -/

lemma xyCounts3_eq (n0 n1 n2 p0 p1 q c1 : Nat) (hp0 : 1 ≤ p0) (hp1 : 1 ≤ p1)
    (h00 : p0 ≤ n0) (h10 : p0 ≤ n1) (h21 : p1 ≤ n2) (hq : q < p0) (hc1 : c1 < p1) :
    xyCounts3 n0 n1 n2 p0 p1 q c1 = some (
      (List.range p0).map (fun np =>
        szClosed (n0 / p0) (p0 - n0 % p0) np *
          (szClosed (n1 / p0) (p0 - n1 % p0) q * szClosed (n2 / p1) (p1 - n2 % p1) c1)),
      exclScan 0 ((List.range p0).map (fun np =>
        szClosed (n0 / p0) (p0 - n0 % p0) np *
          (szClosed (n1 / p0) (p0 - n1 % p0) q * szClosed (n2 / p1) (p1 - n2 % p1) c1)))) := by
  have hneq : (decomp3_x_pencil n0 n1 n2 p0 p1 q c1).axis_contig ≠
      (decomp3_y_pencil n0 n1 n2 p0 p1 q c1).axis_contig := by
    rw [x3_ac, y3_ac]; omega
  have hsz : ∀ i, i < (decomp3_x_pencil n0 n1 n2 p0 p1 q c1).M →
      i ≠ (decomp3_x_pencil n0 n1 n2 p0 p1 q c1).axis_contig →
      i ≠ (decomp3_y_pencil n0 n1 n2 p0 p1 q c1).axis_contig →
      ((decomp3_x_pencil n0 n1 n2 p0 p1 q c1).distAt i).sz =
        ((decomp3_y_pencil n0 n1 n2 p0 p1 q c1).distAt i).sz := by
    intro i hM hs hr
    rw [x3_M] at hM
    rw [x3_ac] at hs
    rw [y3_ac] at hr
    have h2 : i = 2 := by omega
    subst h2
    rw [x3_d2, y3_d2]
  have hbound : (decomp3_x_pencil n0 n1 n2 p0 p1 q c1).nprocs_along_axis
        (decomp3_y_pencil n0 n1 n2 p0 p1 q c1).axis_contig ≤
      ((decomp3_y_pencil n0 n1 n2 p0 p1 q c1).distAt
        (decomp3_x_pencil n0 n1 n2 p0 p1 q c1).axis_contig).sz_procs.length := by
    rw [y3_ac, x3_np1, x3_ac, y3_d0, split_sz_procs n0 p0 q hp0 h00]
    simp
  have hmap : (List.range ((decomp3_x_pencil n0 n1 n2 p0 p1 q c1).nprocs_along_axis
        (decomp3_y_pencil n0 n1 n2 p0 p1 q c1).axis_contig)).map
      (fun np => ((List.range (decomp3_x_pencil n0 n1 n2 p0 p1 q c1).M).map (fun i =>
        if i = (decomp3_x_pencil n0 n1 n2 p0 p1 q c1).axis_contig then
          ((decomp3_y_pencil n0 n1 n2 p0 p1 q c1).distAt i).sz_procs.getD np 0
        else ((decomp3_x_pencil n0 n1 n2 p0 p1 q c1).distAt i).sz)).prod) =
      (List.range p0).map (fun np =>
        szClosed (n0 / p0) (p0 - n0 % p0) np *
          (szClosed (n1 / p0) (p0 - n1 % p0) q * szClosed (n2 / p1) (p1 - n2 % p1) c1)) := by
    rw [y3_ac, x3_np1]
    refine List.map_congr_left ?_
    intro np hnp
    have hnp2 : np < p0 := List.mem_range.mp hnp
    rw [x3_M, show List.range 3 = [0, 1, 2] from rfl]
    simp only [List.map_cons, List.map_nil, List.prod_cons, List.prod_nil, Nat.mul_one]
    rw [x3_ac, if_pos rfl, if_neg (by omega), if_neg (by omega)]
    rw [y3_d0, split_sz_procs n0 p0 q hp0 h00, getD_map_range _ hnp2 0,
      x3_d1, split_sz n1 p0 q hp0 h10 hq, x3_d2, split_sz n2 p1 c1 hp1 h21 hc1]
  unfold xyCounts3
  rw [send_counts_eq _ _ hneq hsz hbound, hmap]

lemma yxCounts3_eq (n0 n1 n2 p0 p1 q c1 : Nat) (hp0 : 1 ≤ p0) (hp1 : 1 ≤ p1)
    (h00 : p0 ≤ n0) (h10 : p0 ≤ n1) (h21 : p1 ≤ n2) (hq : q < p0) (hc1 : c1 < p1) :
    yxCounts3 n0 n1 n2 p0 p1 q c1 = some (
      (List.range p0).map (fun np =>
        szClosed (n1 / p0) (p0 - n1 % p0) np *
          (szClosed (n0 / p0) (p0 - n0 % p0) q * szClosed (n2 / p1) (p1 - n2 % p1) c1)),
      exclScan 0 ((List.range p0).map (fun np =>
        szClosed (n1 / p0) (p0 - n1 % p0) np *
          (szClosed (n0 / p0) (p0 - n0 % p0) q * szClosed (n2 / p1) (p1 - n2 % p1) c1)))) := by
  have hneq : (decomp3_y_pencil n0 n1 n2 p0 p1 q c1).axis_contig ≠
      (decomp3_x_pencil n0 n1 n2 p0 p1 q c1).axis_contig := by
    rw [x3_ac, y3_ac]; omega
  have hsz : ∀ i, i < (decomp3_y_pencil n0 n1 n2 p0 p1 q c1).M →
      i ≠ (decomp3_y_pencil n0 n1 n2 p0 p1 q c1).axis_contig →
      i ≠ (decomp3_x_pencil n0 n1 n2 p0 p1 q c1).axis_contig →
      ((decomp3_y_pencil n0 n1 n2 p0 p1 q c1).distAt i).sz =
        ((decomp3_x_pencil n0 n1 n2 p0 p1 q c1).distAt i).sz := by
    intro i hM hs hr
    rw [y3_M] at hM
    rw [y3_ac] at hs
    rw [x3_ac] at hr
    have h2 : i = 2 := by omega
    subst h2
    rw [x3_d2, y3_d2]
  have hbound : (decomp3_y_pencil n0 n1 n2 p0 p1 q c1).nprocs_along_axis
        (decomp3_x_pencil n0 n1 n2 p0 p1 q c1).axis_contig ≤
      ((decomp3_x_pencil n0 n1 n2 p0 p1 q c1).distAt
        (decomp3_y_pencil n0 n1 n2 p0 p1 q c1).axis_contig).sz_procs.length := by
    rw [x3_ac, y3_np0, y3_ac, x3_d1, split_sz_procs n1 p0 q hp0 h10]
    simp
  have hmap : (List.range ((decomp3_y_pencil n0 n1 n2 p0 p1 q c1).nprocs_along_axis
        (decomp3_x_pencil n0 n1 n2 p0 p1 q c1).axis_contig)).map
      (fun np => ((List.range (decomp3_y_pencil n0 n1 n2 p0 p1 q c1).M).map (fun i =>
        if i = (decomp3_y_pencil n0 n1 n2 p0 p1 q c1).axis_contig then
          ((decomp3_x_pencil n0 n1 n2 p0 p1 q c1).distAt i).sz_procs.getD np 0
        else ((decomp3_y_pencil n0 n1 n2 p0 p1 q c1).distAt i).sz)).prod) =
      (List.range p0).map (fun np =>
        szClosed (n1 / p0) (p0 - n1 % p0) np *
          (szClosed (n0 / p0) (p0 - n0 % p0) q * szClosed (n2 / p1) (p1 - n2 % p1) c1)) := by
    rw [x3_ac, y3_np0]
    refine List.map_congr_left ?_
    intro np hnp
    have hnp2 : np < p0 := List.mem_range.mp hnp
    rw [y3_M, show List.range 3 = [0, 1, 2] from rfl]
    simp only [List.map_cons, List.map_nil, List.prod_cons, List.prod_nil, Nat.mul_one]
    rw [y3_ac, if_neg (by omega), if_pos rfl, if_neg (by omega)]
    rw [x3_d1, split_sz_procs n1 p0 q hp0 h10, getD_map_range _ hnp2 0,
      y3_d0, split_sz n0 p0 q hp0 h00 hq, y3_d2, split_sz n2 p1 c1 hp1 h21 hc1]
    ring
  unfold yxCounts3
  rw [send_counts_eq _ _ hneq hsz hbound, hmap]

lemma yzCounts3_eq (n0 n1 n2 p0 p1 c0 q : Nat) (hp0 : 1 ≤ p0) (hp1 : 1 ≤ p1)
    (h00 : p0 ≤ n0) (h11 : p1 ≤ n1) (h21 : p1 ≤ n2) (hc0 : c0 < p0) (hq : q < p1) :
    yzCounts3 n0 n1 n2 p0 p1 c0 q = some (
      (List.range p1).map (fun np =>
        szClosed (n1 / p1) (p1 - n1 % p1) np *
          (szClosed (n0 / p0) (p0 - n0 % p0) c0 * szClosed (n2 / p1) (p1 - n2 % p1) q)),
      exclScan 0 ((List.range p1).map (fun np =>
        szClosed (n1 / p1) (p1 - n1 % p1) np *
          (szClosed (n0 / p0) (p0 - n0 % p0) c0 * szClosed (n2 / p1) (p1 - n2 % p1) q)))) := by
  have hneq : (decomp3_y_pencil n0 n1 n2 p0 p1 c0 q).axis_contig ≠
      (decomp3_z_pencil n0 n1 n2 p0 p1 c0 q).axis_contig := by
    rw [y3_ac, z3_ac]; omega
  have hsz : ∀ i, i < (decomp3_y_pencil n0 n1 n2 p0 p1 c0 q).M →
      i ≠ (decomp3_y_pencil n0 n1 n2 p0 p1 c0 q).axis_contig →
      i ≠ (decomp3_z_pencil n0 n1 n2 p0 p1 c0 q).axis_contig →
      ((decomp3_y_pencil n0 n1 n2 p0 p1 c0 q).distAt i).sz =
        ((decomp3_z_pencil n0 n1 n2 p0 p1 c0 q).distAt i).sz := by
    intro i hM hs hr
    rw [y3_M] at hM
    rw [y3_ac] at hs
    rw [z3_ac] at hr
    have h2 : i = 0 := by omega
    subst h2
    rw [y3_d0, z3_d0]
  have hbound : (decomp3_y_pencil n0 n1 n2 p0 p1 c0 q).nprocs_along_axis
        (decomp3_z_pencil n0 n1 n2 p0 p1 c0 q).axis_contig ≤
      ((decomp3_z_pencil n0 n1 n2 p0 p1 c0 q).distAt
        (decomp3_y_pencil n0 n1 n2 p0 p1 c0 q).axis_contig).sz_procs.length := by
    rw [z3_ac, y3_np2, y3_ac, z3_d1, split_sz_procs n1 p1 q hp1 h11]
    simp
  have hmap : (List.range ((decomp3_y_pencil n0 n1 n2 p0 p1 c0 q).nprocs_along_axis
        (decomp3_z_pencil n0 n1 n2 p0 p1 c0 q).axis_contig)).map
      (fun np => ((List.range (decomp3_y_pencil n0 n1 n2 p0 p1 c0 q).M).map (fun i =>
        if i = (decomp3_y_pencil n0 n1 n2 p0 p1 c0 q).axis_contig then
          ((decomp3_z_pencil n0 n1 n2 p0 p1 c0 q).distAt i).sz_procs.getD np 0
        else ((decomp3_y_pencil n0 n1 n2 p0 p1 c0 q).distAt i).sz)).prod) =
      (List.range p1).map (fun np =>
        szClosed (n1 / p1) (p1 - n1 % p1) np *
          (szClosed (n0 / p0) (p0 - n0 % p0) c0 * szClosed (n2 / p1) (p1 - n2 % p1) q)) := by
    rw [z3_ac, y3_np2]
    refine List.map_congr_left ?_
    intro np hnp
    have hnp2 : np < p1 := List.mem_range.mp hnp
    rw [y3_M, show List.range 3 = [0, 1, 2] from rfl]
    simp only [List.map_cons, List.map_nil, List.prod_cons, List.prod_nil, Nat.mul_one]
    rw [y3_ac, if_neg (by omega), if_pos rfl, if_neg (by omega)]
    rw [z3_d1, split_sz_procs n1 p1 q hp1 h11, getD_map_range _ hnp2 0,
      y3_d0, split_sz n0 p0 c0 hp0 h00 hc0, y3_d2, split_sz n2 p1 q hp1 h21 hq]
    ring
  unfold yzCounts3
  rw [send_counts_eq _ _ hneq hsz hbound, hmap]

lemma zyCounts3_eq (n0 n1 n2 p0 p1 c0 q : Nat) (hp0 : 1 ≤ p0) (hp1 : 1 ≤ p1)
    (h00 : p0 ≤ n0) (h11 : p1 ≤ n1) (h21 : p1 ≤ n2) (hc0 : c0 < p0) (hq : q < p1) :
    zyCounts3 n0 n1 n2 p0 p1 c0 q = some (
      (List.range p1).map (fun np =>
        szClosed (n2 / p1) (p1 - n2 % p1) np *
          (szClosed (n1 / p1) (p1 - n1 % p1) q * szClosed (n0 / p0) (p0 - n0 % p0) c0)),
      exclScan 0 ((List.range p1).map (fun np =>
        szClosed (n2 / p1) (p1 - n2 % p1) np *
          (szClosed (n1 / p1) (p1 - n1 % p1) q * szClosed (n0 / p0) (p0 - n0 % p0) c0)))) := by
  have hneq : (decomp3_z_pencil n0 n1 n2 p0 p1 c0 q).axis_contig ≠
      (decomp3_y_pencil n0 n1 n2 p0 p1 c0 q).axis_contig := by
    rw [y3_ac, z3_ac]; omega
  have hsz : ∀ i, i < (decomp3_z_pencil n0 n1 n2 p0 p1 c0 q).M →
      i ≠ (decomp3_z_pencil n0 n1 n2 p0 p1 c0 q).axis_contig →
      i ≠ (decomp3_y_pencil n0 n1 n2 p0 p1 c0 q).axis_contig →
      ((decomp3_z_pencil n0 n1 n2 p0 p1 c0 q).distAt i).sz =
        ((decomp3_y_pencil n0 n1 n2 p0 p1 c0 q).distAt i).sz := by
    intro i hM hs hr
    rw [z3_M] at hM
    rw [z3_ac] at hs
    rw [y3_ac] at hr
    have h2 : i = 0 := by omega
    subst h2
    rw [y3_d0, z3_d0]
  have hbound : (decomp3_z_pencil n0 n1 n2 p0 p1 c0 q).nprocs_along_axis
        (decomp3_y_pencil n0 n1 n2 p0 p1 c0 q).axis_contig ≤
      ((decomp3_y_pencil n0 n1 n2 p0 p1 c0 q).distAt
        (decomp3_z_pencil n0 n1 n2 p0 p1 c0 q).axis_contig).sz_procs.length := by
    rw [y3_ac, z3_np1, z3_ac, y3_d2, split_sz_procs n2 p1 q hp1 h21]
    simp
  have hmap : (List.range ((decomp3_z_pencil n0 n1 n2 p0 p1 c0 q).nprocs_along_axis
        (decomp3_y_pencil n0 n1 n2 p0 p1 c0 q).axis_contig)).map
      (fun np => ((List.range (decomp3_z_pencil n0 n1 n2 p0 p1 c0 q).M).map (fun i =>
        if i = (decomp3_z_pencil n0 n1 n2 p0 p1 c0 q).axis_contig then
          ((decomp3_y_pencil n0 n1 n2 p0 p1 c0 q).distAt i).sz_procs.getD np 0
        else ((decomp3_z_pencil n0 n1 n2 p0 p1 c0 q).distAt i).sz)).prod) =
      (List.range p1).map (fun np =>
        szClosed (n2 / p1) (p1 - n2 % p1) np *
          (szClosed (n1 / p1) (p1 - n1 % p1) q * szClosed (n0 / p0) (p0 - n0 % p0) c0)) := by
    rw [y3_ac, z3_np1]
    refine List.map_congr_left ?_
    intro np hnp
    have hnp2 : np < p1 := List.mem_range.mp hnp
    rw [z3_M, show List.range 3 = [0, 1, 2] from rfl]
    simp only [List.map_cons, List.map_nil, List.prod_cons, List.prod_nil, Nat.mul_one]
    rw [z3_ac, if_neg (by omega), if_neg (by omega), if_pos rfl]
    rw [y3_d2, split_sz_procs n2 p1 q hp1 h21, getD_map_range _ hnp2 0,
      z3_d0, split_sz n0 p0 c0 hp0 h00 hc0, z3_d1, split_sz n1 p1 q hp1 h11 hq]
    ring
  unfold zyCounts3
  rw [send_counts_eq _ _ hneq hsz hbound, hmap]

lemma xyCounts3_counts_getD (n0 n1 n2 p0 p1 q c1 : Nat) (hp0 : 1 ≤ p0) (hp1 : 1 ≤ p1)
    (h00 : p0 ≤ n0) (h10 : p0 ≤ n1) (h21 : p1 ≤ n2) (hq : q < p0) (hc1 : c1 < p1)
    (r : Nat) (hr : r < p0) :
    ((xyCounts3 n0 n1 n2 p0 p1 q c1).getD ([], [])).1.getD r 0 =
      szClosed (n0 / p0) (p0 - n0 % p0) r *
        (szClosed (n1 / p0) (p0 - n1 % p0) q * szClosed (n2 / p1) (p1 - n2 % p1) c1) := by
  rw [xyCounts3_eq n0 n1 n2 p0 p1 q c1 hp0 hp1 h00 h10 h21 hq hc1]
  simp only [Option.getD_some]
  exact getD_map_range _ hr 0

lemma xyCounts3_displs_getD (n0 n1 n2 p0 p1 q c1 : Nat) (hp0 : 1 ≤ p0) (hp1 : 1 ≤ p1)
    (h00 : p0 ≤ n0) (h10 : p0 ≤ n1) (h21 : p1 ≤ n2) (hq : q < p0) (hc1 : c1 < p1)
    (r : Nat) (hr : r < p0) :
    ((xyCounts3 n0 n1 n2 p0 p1 q c1).getD ([], [])).2.getD r 0 =
      stClosed (n0 / p0) (p0 - n0 % p0) r *
        (szClosed (n1 / p0) (p0 - n1 % p0) q * szClosed (n2 / p1) (p1 - n2 % p1) c1) := by
  rw [xyCounts3_eq n0 n1 n2 p0 p1 q c1 hp0 hp1 h00 h10 h21 hq hc1]
  simp only [Option.getD_some]
  exact exclScan_map_getD _ _ _ p0 r hr

lemma yxCounts3_counts_getD (n0 n1 n2 p0 p1 q c1 : Nat) (hp0 : 1 ≤ p0) (hp1 : 1 ≤ p1)
    (h00 : p0 ≤ n0) (h10 : p0 ≤ n1) (h21 : p1 ≤ n2) (hq : q < p0) (hc1 : c1 < p1)
    (r : Nat) (hr : r < p0) :
    ((yxCounts3 n0 n1 n2 p0 p1 q c1).getD ([], [])).1.getD r 0 =
      szClosed (n1 / p0) (p0 - n1 % p0) r *
        (szClosed (n0 / p0) (p0 - n0 % p0) q * szClosed (n2 / p1) (p1 - n2 % p1) c1) := by
  rw [yxCounts3_eq n0 n1 n2 p0 p1 q c1 hp0 hp1 h00 h10 h21 hq hc1]
  simp only [Option.getD_some]
  exact getD_map_range _ hr 0

lemma yxCounts3_displs_getD (n0 n1 n2 p0 p1 q c1 : Nat) (hp0 : 1 ≤ p0) (hp1 : 1 ≤ p1)
    (h00 : p0 ≤ n0) (h10 : p0 ≤ n1) (h21 : p1 ≤ n2) (hq : q < p0) (hc1 : c1 < p1)
    (r : Nat) (hr : r < p0) :
    ((yxCounts3 n0 n1 n2 p0 p1 q c1).getD ([], [])).2.getD r 0 =
      stClosed (n1 / p0) (p0 - n1 % p0) r *
        (szClosed (n0 / p0) (p0 - n0 % p0) q * szClosed (n2 / p1) (p1 - n2 % p1) c1) := by
  rw [yxCounts3_eq n0 n1 n2 p0 p1 q c1 hp0 hp1 h00 h10 h21 hq hc1]
  simp only [Option.getD_some]
  exact exclScan_map_getD _ _ _ p0 r hr

lemma yzCounts3_counts_getD (n0 n1 n2 p0 p1 c0 q : Nat) (hp0 : 1 ≤ p0) (hp1 : 1 ≤ p1)
    (h00 : p0 ≤ n0) (h11 : p1 ≤ n1) (h21 : p1 ≤ n2) (hc0 : c0 < p0) (hq : q < p1)
    (r : Nat) (hr : r < p1) :
    ((yzCounts3 n0 n1 n2 p0 p1 c0 q).getD ([], [])).1.getD r 0 =
      szClosed (n1 / p1) (p1 - n1 % p1) r *
        (szClosed (n0 / p0) (p0 - n0 % p0) c0 * szClosed (n2 / p1) (p1 - n2 % p1) q) := by
  rw [yzCounts3_eq n0 n1 n2 p0 p1 c0 q hp0 hp1 h00 h11 h21 hc0 hq]
  simp only [Option.getD_some]
  exact getD_map_range _ hr 0

lemma yzCounts3_displs_getD (n0 n1 n2 p0 p1 c0 q : Nat) (hp0 : 1 ≤ p0) (hp1 : 1 ≤ p1)
    (h00 : p0 ≤ n0) (h11 : p1 ≤ n1) (h21 : p1 ≤ n2) (hc0 : c0 < p0) (hq : q < p1)
    (r : Nat) (hr : r < p1) :
    ((yzCounts3 n0 n1 n2 p0 p1 c0 q).getD ([], [])).2.getD r 0 =
      stClosed (n1 / p1) (p1 - n1 % p1) r *
        (szClosed (n0 / p0) (p0 - n0 % p0) c0 * szClosed (n2 / p1) (p1 - n2 % p1) q) := by
  rw [yzCounts3_eq n0 n1 n2 p0 p1 c0 q hp0 hp1 h00 h11 h21 hc0 hq]
  simp only [Option.getD_some]
  exact exclScan_map_getD _ _ _ p1 r hr

lemma zyCounts3_counts_getD (n0 n1 n2 p0 p1 c0 q : Nat) (hp0 : 1 ≤ p0) (hp1 : 1 ≤ p1)
    (h00 : p0 ≤ n0) (h11 : p1 ≤ n1) (h21 : p1 ≤ n2) (hc0 : c0 < p0) (hq : q < p1)
    (r : Nat) (hr : r < p1) :
    ((zyCounts3 n0 n1 n2 p0 p1 c0 q).getD ([], [])).1.getD r 0 =
      szClosed (n2 / p1) (p1 - n2 % p1) r *
        (szClosed (n1 / p1) (p1 - n1 % p1) q * szClosed (n0 / p0) (p0 - n0 % p0) c0) := by
  rw [zyCounts3_eq n0 n1 n2 p0 p1 c0 q hp0 hp1 h00 h11 h21 hc0 hq]
  simp only [Option.getD_some]
  exact getD_map_range _ hr 0

lemma zyCounts3_displs_getD (n0 n1 n2 p0 p1 c0 q : Nat) (hp0 : 1 ≤ p0) (hp1 : 1 ≤ p1)
    (h00 : p0 ≤ n0) (h11 : p1 ≤ n1) (h21 : p1 ≤ n2) (hc0 : c0 < p0) (hq : q < p1)
    (r : Nat) (hr : r < p1) :
    ((zyCounts3 n0 n1 n2 p0 p1 c0 q).getD ([], [])).2.getD r 0 =
      stClosed (n2 / p1) (p1 - n2 % p1) r *
        (szClosed (n1 / p1) (p1 - n1 % p1) q * szClosed (n0 / p0) (p0 - n0 % p0) c0) := by
  rw [zyCounts3_eq n0 n1 n2 p0 p1 c0 q hp0 hp1 h00 h11 h21 hc0 hq]
  simp only [Option.getD_some]
  exact exclScan_map_getD _ _ _ p1 r hr

/-! ### Nodup of the Decomp3 merge iteration orders -/

lemma keys3_xy_nodup (P a b nl c : Nat) :
    ((List.range P).flatMap fun np =>
      (List.range a).flatMap fun i =>
        (List.range' (stClosed b nl np) (szClosed b nl np)).flatMap fun j =>
          (List.range c).map fun k => ((i, j, k) : Nat × Nat × Nat)).Nodup := by
  refine nodup_flatMap_intervals (List.range P) (List.pairwise_lt_range P) _
    (fun t => t.2.1) (stClosed b nl) (szClosed b nl) ?_ ?_ ?_
  · intro np hnp
    refine nodup_flatMap_intervals (List.range a) (List.pairwise_lt_range a) _
      (fun t => t.1) (fun i => i) (fun _ => 1) ?_ ?_ ?_
    · intro i hi
      refine nodup_flatMap_intervals (List.range' (stClosed b nl np) (szClosed b nl np))
        (List.pairwise_lt_range' _ _) _ (fun t => t.2.1) (fun j => j) (fun _ => 1) ?_ ?_ ?_
      · intro j hj
        refine List.Nodup.map ?_ (List.nodup_range c)
        intro u v huv
        simpa using huv
      · intro j hj t ht
        simp only [List.mem_map] at ht
        obtain ⟨kk, hkk, rfl⟩ := ht
        exact ⟨by simp, by simp⟩
      · intro u v hu hv huv
        change u + 1 ≤ v
        omega
    · intro i hi t ht
      simp only [List.mem_flatMap, List.mem_map] at ht
      obtain ⟨j, hj, kk, hkk, rfl⟩ := ht
      exact ⟨by simp, by simp⟩
    · intro u v hu hv huv
      change u + 1 ≤ v
      omega
  · intro np hnp t ht
    simp only [List.mem_flatMap, List.mem_map] at ht
    obtain ⟨i, hi, j, hj, kk, hkk, rfl⟩ := ht
    rw [List.mem_range'_1] at hj
    simpa using hj
  · intro u v hu hv huv
    rw [← stClosed_succ]
    exact stClosed_mono b nl (by omega)

lemma keys3_yx_nodup (P a b nl c : Nat) :
    ((List.range P).flatMap fun np =>
      (List.range a).flatMap fun j =>
        (List.range' (stClosed b nl np) (szClosed b nl np)).flatMap fun i =>
          (List.range c).map fun k => ((i, j, k) : Nat × Nat × Nat)).Nodup := by
  refine nodup_flatMap_intervals (List.range P) (List.pairwise_lt_range P) _
    (fun t => t.1) (stClosed b nl) (szClosed b nl) ?_ ?_ ?_
  · intro np hnp
    refine nodup_flatMap_intervals (List.range a) (List.pairwise_lt_range a) _
      (fun t => t.2.1) (fun j => j) (fun _ => 1) ?_ ?_ ?_
    · intro j hj
      refine nodup_flatMap_intervals (List.range' (stClosed b nl np) (szClosed b nl np))
        (List.pairwise_lt_range' _ _) _ (fun t => t.1) (fun i => i) (fun _ => 1) ?_ ?_ ?_
      · intro i hi
        refine List.Nodup.map ?_ (List.nodup_range c)
        intro u v huv
        simpa using huv
      · intro i hi t ht
        simp only [List.mem_map] at ht
        obtain ⟨kk, hkk, rfl⟩ := ht
        exact ⟨by simp, by simp⟩
      · intro u v hu hv huv
        change u + 1 ≤ v
        omega
    · intro j hj t ht
      simp only [List.mem_flatMap, List.mem_map] at ht
      obtain ⟨i, hi, kk, hkk, rfl⟩ := ht
      exact ⟨by simp, by simp⟩
    · intro u v hu hv huv
      change u + 1 ≤ v
      omega
  · intro np hnp t ht
    simp only [List.mem_flatMap, List.mem_map] at ht
    obtain ⟨j, hj, i, hi, kk, hkk, rfl⟩ := ht
    rw [List.mem_range'_1] at hi
    simpa using hi
  · intro u v hu hv huv
    rw [← stClosed_succ]
    exact stClosed_mono b nl (by omega)

lemma keys3_yz_nodup (P a b nl c : Nat) :
    ((List.range P).flatMap fun np =>
      (List.range a).flatMap fun j =>
        (List.range c).flatMap fun i =>
          (List.range' (stClosed b nl np) (szClosed b nl np)).map
            fun k => ((i, j, k) : Nat × Nat × Nat)).Nodup := by
  refine nodup_flatMap_intervals (List.range P) (List.pairwise_lt_range P) _
    (fun t => t.2.2) (stClosed b nl) (szClosed b nl) ?_ ?_ ?_
  · intro np hnp
    refine nodup_flatMap_intervals (List.range a) (List.pairwise_lt_range a) _
      (fun t => t.2.1) (fun j => j) (fun _ => 1) ?_ ?_ ?_
    · intro j hj
      refine nodup_flatMap_intervals (List.range c) (List.pairwise_lt_range c) _
        (fun t => t.1) (fun i => i) (fun _ => 1) ?_ ?_ ?_
      · intro i hi
        refine List.Nodup.map ?_ (List.nodup_range' _ _)
        intro u v huv
        simpa using huv
      · intro i hi t ht
        simp only [List.mem_map] at ht
        obtain ⟨kk, hkk, rfl⟩ := ht
        exact ⟨by simp, by simp⟩
      · intro u v hu hv huv
        change u + 1 ≤ v
        omega
    · intro j hj t ht
      simp only [List.mem_flatMap, List.mem_map] at ht
      obtain ⟨i, hi, kk, hkk, rfl⟩ := ht
      exact ⟨by simp, by simp⟩
    · intro u v hu hv huv
      change u + 1 ≤ v
      omega
  · intro np hnp t ht
    simp only [List.mem_flatMap, List.mem_map] at ht
    obtain ⟨j, hj, i, hi, kk, hkk, rfl⟩ := ht
    rw [List.mem_range'_1] at hkk
    simpa using hkk
  · intro u v hu hv huv
    rw [← stClosed_succ]
    exact stClosed_mono b nl (by omega)

lemma keys3_zy_nodup (P a b nl c : Nat) :
    ((List.range P).flatMap fun np =>
      (List.range a).flatMap fun k =>
        (List.range' (stClosed b nl np) (szClosed b nl np)).flatMap fun j =>
          (List.range c).map fun i => ((i, j, k) : Nat × Nat × Nat)).Nodup := by
  refine nodup_flatMap_intervals (List.range P) (List.pairwise_lt_range P) _
    (fun t => t.2.1) (stClosed b nl) (szClosed b nl) ?_ ?_ ?_
  · intro np hnp
    refine nodup_flatMap_intervals (List.range a) (List.pairwise_lt_range a) _
      (fun t => t.2.2) (fun k => k) (fun _ => 1) ?_ ?_ ?_
    · intro k hk
      refine nodup_flatMap_intervals (List.range' (stClosed b nl np) (szClosed b nl np))
        (List.pairwise_lt_range' _ _) _ (fun t => t.2.1) (fun j => j) (fun _ => 1) ?_ ?_ ?_
      · intro j hj
        refine List.Nodup.map ?_ (List.nodup_range c)
        intro u v huv
        simpa using huv
      · intro j hj t ht
        simp only [List.mem_map] at ht
        obtain ⟨ii, hii, rfl⟩ := ht
        exact ⟨by simp, by simp⟩
      · intro u v hu hv huv
        change u + 1 ≤ v
        omega
    · intro k hk t ht
      simp only [List.mem_flatMap, List.mem_map] at ht
      obtain ⟨j, hj, ii, hii, rfl⟩ := ht
      exact ⟨by simp, by simp⟩
    · intro u v hu hv huv
      change u + 1 ≤ v
      omega
  · intro np hnp t ht
    simp only [List.mem_flatMap, List.mem_map] at ht
    obtain ⟨k, hk, j, hj, ii, hii, rfl⟩ := ht
    rw [List.mem_range'_1] at hj
    simpa using hj
  · intro u v hu hv huv
    rw [← stClosed_succ]
    exact stClosed_mono b nl (by omega)

/-! ### The Decomp3 merge iteration orders in closed form -/

lemma merge_xy3_keys_eq (n0 n1 n2 p0 p1 r c1 : Nat) (hp0 : 1 ≤ p0) (hp1 : 1 ≤ p1)
    (h00 : p0 ≤ n0) (h10 : p0 ≤ n1) (h21 : p1 ≤ n2) (hr : r < p0) (hc1 : c1 < p1) :
    merge_xy3_keys (decomp3_x_pencil n0 n1 n2 p0 p1 r c1)
        (decomp3_y_pencil n0 n1 n2 p0 p1 r c1) =
      (List.range p0).flatMap fun np =>
        (List.range (szClosed (n0 / p0) (p0 - n0 % p0) r)).flatMap fun i =>
          (List.range' (stClosed (n1 / p0) (p0 - n1 % p0) np)
            (szClosed (n1 / p0) (p0 - n1 % p0) np)).flatMap fun j =>
            (List.range (szClosed (n2 / p1) (p1 - n2 % p1) c1)).map
              fun k => ((i, j, k) : Nat × Nat × Nat) := by
  have hb1 : 1 ≤ n1 / p0 := (Nat.one_le_div_iff (by omega)).mpr h10
  unfold merge_xy3_keys
  rw [x3_np1, y3_d0, split_sz n0 p0 r hp0 h00 hr, y3_d2, split_sz n2 p1 c1 hp1 h21 hc1]
  refine flatMap_congr_left _ _ _ ?_
  intro np hnp
  have hnp2 : np < p0 := List.mem_range.mp hnp
  rw [x3_d1, split_st_procs n1 p0 r hp0 h10, split_en_procs n1 p0 r hp0 h10,
    getD_map_range _ hnp2 0, getD_map_range _ hnp2 0, en_st_len _ _ _ hb1]

lemma merge_yx3_keys_eq (n0 n1 n2 p0 p1 r c1 : Nat) (hp0 : 1 ≤ p0) (hp1 : 1 ≤ p1)
    (h00 : p0 ≤ n0) (h10 : p0 ≤ n1) (h21 : p1 ≤ n2) (hr : r < p0) (hc1 : c1 < p1) :
    merge_yx3_keys (decomp3_y_pencil n0 n1 n2 p0 p1 r c1)
        (decomp3_x_pencil n0 n1 n2 p0 p1 r c1) =
      (List.range p0).flatMap fun np =>
        (List.range (szClosed (n1 / p0) (p0 - n1 % p0) r)).flatMap fun j =>
          (List.range' (stClosed (n0 / p0) (p0 - n0 % p0) np)
            (szClosed (n0 / p0) (p0 - n0 % p0) np)).flatMap fun i =>
            (List.range (szClosed (n2 / p1) (p1 - n2 % p1) c1)).map
              fun k => ((i, j, k) : Nat × Nat × Nat) := by
  have hb0 : 1 ≤ n0 / p0 := (Nat.one_le_div_iff (by omega)).mpr h00
  unfold merge_yx3_keys
  rw [y3_np0, x3_d1, split_sz n1 p0 r hp0 h10 hr, x3_d2, split_sz n2 p1 c1 hp1 h21 hc1]
  refine flatMap_congr_left _ _ _ ?_
  intro np hnp
  have hnp2 : np < p0 := List.mem_range.mp hnp
  rw [y3_d0, split_st_procs n0 p0 r hp0 h00, split_en_procs n0 p0 r hp0 h00,
    getD_map_range _ hnp2 0, getD_map_range _ hnp2 0, en_st_len _ _ _ hb0]

lemma merge_yz3_keys_eq (n0 n1 n2 p0 p1 c0 r : Nat) (hp0 : 1 ≤ p0) (hp1 : 1 ≤ p1)
    (h00 : p0 ≤ n0) (h11 : p1 ≤ n1) (h21 : p1 ≤ n2) (hc0 : c0 < p0) (hr : r < p1) :
    merge_yz3_keys (decomp3_y_pencil n0 n1 n2 p0 p1 c0 r)
        (decomp3_z_pencil n0 n1 n2 p0 p1 c0 r) =
      (List.range p1).flatMap fun np =>
        (List.range (szClosed (n1 / p1) (p1 - n1 % p1) r)).flatMap fun j =>
          (List.range (szClosed (n0 / p0) (p0 - n0 % p0) c0)).flatMap fun i =>
            (List.range' (stClosed (n2 / p1) (p1 - n2 % p1) np)
              (szClosed (n2 / p1) (p1 - n2 % p1) np)).map
              fun k => ((i, j, k) : Nat × Nat × Nat) := by
  have hb2 : 1 ≤ n2 / p1 := (Nat.one_le_div_iff (by omega)).mpr h21
  unfold merge_yz3_keys
  rw [y3_np2, z3_d1, split_sz n1 p1 r hp1 h11 hr, z3_d0, split_sz n0 p0 c0 hp0 h00 hc0]
  refine flatMap_congr_left _ _ _ ?_
  intro np hnp
  have hnp2 : np < p1 := List.mem_range.mp hnp
  rw [y3_d2, split_st_procs n2 p1 r hp1 h21, split_en_procs n2 p1 r hp1 h21,
    getD_map_range _ hnp2 0, getD_map_range _ hnp2 0, en_st_len _ _ _ hb2]

lemma merge_zy3_keys_eq (n0 n1 n2 p0 p1 c0 r : Nat) (hp0 : 1 ≤ p0) (hp1 : 1 ≤ p1)
    (h00 : p0 ≤ n0) (h11 : p1 ≤ n1) (h21 : p1 ≤ n2) (hc0 : c0 < p0) (hr : r < p1) :
    merge_zy3_keys (decomp3_z_pencil n0 n1 n2 p0 p1 c0 r)
        (decomp3_y_pencil n0 n1 n2 p0 p1 c0 r) =
      (List.range p1).flatMap fun np =>
        (List.range (szClosed (n2 / p1) (p1 - n2 % p1) r)).flatMap fun k =>
          (List.range' (stClosed (n1 / p1) (p1 - n1 % p1) np)
            (szClosed (n1 / p1) (p1 - n1 % p1) np)).flatMap fun j =>
            (List.range (szClosed (n0 / p0) (p0 - n0 % p0) c0)).map
              fun i => ((i, j, k) : Nat × Nat × Nat) := by
  have hb1 : 1 ≤ n1 / p1 := (Nat.one_le_div_iff (by omega)).mpr h11
  unfold merge_zy3_keys
  rw [z3_np1, y3_d2, split_sz n2 p1 r hp1 h21 hr, y3_d0, split_sz n0 p0 c0 hp0 h00 hc0]
  refine flatMap_congr_left _ _ _ ?_
  intro np hnp
  have hnp2 : np < p1 := List.mem_range.mp hnp
  rw [z3_d1, split_st_procs n1 p1 r hp1 h11, split_en_procs n1 p1 r hp1 h11,
    getD_map_range _ hnp2 0, getD_map_range _ hnp2 0, en_st_len _ _ _ hb1]

/-! ### The Decomp3 receive buffers in closed form -/

lemma xy3_buf_eq (n0 n1 n2 p0 p1 c1 : Nat) (hp0 : 1 ≤ p0) (hp1 : 1 ≤ p1)
    (h00 : p0 ≤ n0) (h10 : p0 ≤ n1) (h21 : p1 ≤ n2) (hc1 : c1 < p1)
    (r : Nat) (hr : r < p0) {T : Type} [Inhabited T] (A : Nat → Nat × Nat × Nat → T) :
    allToAllV p0 (fun q => split_xy3 (decomp3_x_pencil n0 n1 n2 p0 p1 q c1) (A q))
      (fun q rr => ((xyCounts3 n0 n1 n2 p0 p1 q c1).getD ([], [])).1.getD rr 0)
      (fun q rr => ((xyCounts3 n0 n1 n2 p0 p1 q c1).getD ([], [])).2.getD rr 0) r =
    (List.range p0).flatMap fun q =>
      ((List.range (szClosed (n0 / p0) (p0 - n0 % p0) r)).flatMap fun i =>
        (List.range' (stClosed (n1 / p0) (p0 - n1 % p0) q)
          (szClosed (n1 / p0) (p0 - n1 % p0) q)).flatMap fun j =>
          (List.range (szClosed (n2 / p1) (p1 - n2 % p1) c1)).map
            fun k => ((i, j, k) : Nat × Nat × Nat)).map
        fun t => A q (stClosed (n0 / p0) (p0 - n0 % p0) r + t.1,
          t.2.1 - stClosed (n1 / p0) (p0 - n1 % p0) q, t.2.2) := by
  unfold allToAllV
  refine flatMap_congr_left _ _ _ ?_
  intro q hq
  have hq2 : q < p0 := List.mem_range.mp hq
  beta_reduce
  rw [xyCounts3_counts_getD n0 n1 n2 p0 p1 q c1 hp0 hp1 h00 h10 h21 hq2 hc1 r hr,
    xyCounts3_displs_getD n0 n1 n2 p0 p1 q c1 hp0 hp1 h00 h10 h21 hq2 hc1 r hr]
  unfold split_xy3
  rw [x3_d0, contig_sz, x3_d1, split_sz n1 p0 q hp0 h10 hq2,
    x3_d2, split_sz n2 p1 c1 hp1 h21 hc1]
  have hcov : stClosed (n0 / p0) (p0 - n0 % p0) r +
      szClosed (n0 / p0) (p0 - n0 % p0) r ≤ n0 := by
    rw [← stClosed_succ]
    have h := stClosed_mono (n0 / p0) (p0 - n0 % p0) (show r + 1 ≤ p0 by omega)
    rw [stClosed_p n0 p0 hp0 h00] at h
    exact h
  rw [flatMap_segment _
    (szClosed (n1 / p0) (p0 - n1 % p0) q * szClosed (n2 / p1) (p1 - n2 % p1) c1)
    (fun i => by
      rw [List.range_eq_range']
      exact length_flatMap_const _ _ (fun j => by simp) 0 _) n0 _ _ hcov]
  rw [List.range'_eq_map_range, List.flatMap_map, List.map_flatMap]
  refine flatMap_congr_left _ _ _ ?_
  intro i hi
  rw [List.map_flatMap, List.range'_eq_map_range, List.flatMap_map]
  refine flatMap_congr_left _ _ _ ?_
  intro jl hjl
  rw [List.map_map]
  refine List.map_congr_left ?_
  intro k hk
  show A q (stClosed (n0 / p0) (p0 - n0 % p0) r + i, jl, k) =
    A q (stClosed (n0 / p0) (p0 - n0 % p0) r + i,
      stClosed (n1 / p0) (p0 - n1 % p0) q + jl - stClosed (n1 / p0) (p0 - n1 % p0) q, k)
  rw [show stClosed (n1 / p0) (p0 - n1 % p0) q + jl - stClosed (n1 / p0) (p0 - n1 % p0) q = jl
    by omega]

lemma yx3_buf_eq (n0 n1 n2 p0 p1 c1 : Nat) (hp0 : 1 ≤ p0) (hp1 : 1 ≤ p1)
    (h00 : p0 ≤ n0) (h10 : p0 ≤ n1) (h21 : p1 ≤ n2) (hc1 : c1 < p1)
    (r : Nat) (hr : r < p0) {T : Type} [Inhabited T] (C : Nat → Nat × Nat × Nat → T) :
    allToAllV p0 (fun q => split_yx3 (decomp3_y_pencil n0 n1 n2 p0 p1 q c1) (C q))
      (fun q rr => ((yxCounts3 n0 n1 n2 p0 p1 q c1).getD ([], [])).1.getD rr 0)
      (fun q rr => ((yxCounts3 n0 n1 n2 p0 p1 q c1).getD ([], [])).2.getD rr 0) r =
    (List.range p0).flatMap fun q =>
      ((List.range (szClosed (n1 / p0) (p0 - n1 % p0) r)).flatMap fun j =>
        (List.range' (stClosed (n0 / p0) (p0 - n0 % p0) q)
          (szClosed (n0 / p0) (p0 - n0 % p0) q)).flatMap fun i =>
          (List.range (szClosed (n2 / p1) (p1 - n2 % p1) c1)).map
            fun k => ((i, j, k) : Nat × Nat × Nat)).map
        fun t => C q (t.1 - stClosed (n0 / p0) (p0 - n0 % p0) q,
          stClosed (n1 / p0) (p0 - n1 % p0) r + t.2.1, t.2.2) := by
  unfold allToAllV
  refine flatMap_congr_left _ _ _ ?_
  intro q hq
  have hq2 : q < p0 := List.mem_range.mp hq
  beta_reduce
  rw [yxCounts3_counts_getD n0 n1 n2 p0 p1 q c1 hp0 hp1 h00 h10 h21 hq2 hc1 r hr,
    yxCounts3_displs_getD n0 n1 n2 p0 p1 q c1 hp0 hp1 h00 h10 h21 hq2 hc1 r hr]
  unfold split_yx3
  rw [y3_d1, contig_sz, y3_d0, split_sz n0 p0 q hp0 h00 hq2,
    y3_d2, split_sz n2 p1 c1 hp1 h21 hc1]
  have hcov : stClosed (n1 / p0) (p0 - n1 % p0) r +
      szClosed (n1 / p0) (p0 - n1 % p0) r ≤ n1 := by
    rw [← stClosed_succ]
    have h := stClosed_mono (n1 / p0) (p0 - n1 % p0) (show r + 1 ≤ p0 by omega)
    rw [stClosed_p n1 p0 hp0 h10] at h
    exact h
  rw [flatMap_segment _
    (szClosed (n0 / p0) (p0 - n0 % p0) q * szClosed (n2 / p1) (p1 - n2 % p1) c1)
    (fun j => by
      rw [List.range_eq_range']
      exact length_flatMap_const _ _ (fun i => by simp) 0 _) n1 _ _ hcov]
  rw [List.range'_eq_map_range, List.flatMap_map, List.map_flatMap]
  refine flatMap_congr_left _ _ _ ?_
  intro jl hjl
  rw [List.map_flatMap, List.range'_eq_map_range, List.flatMap_map]
  refine flatMap_congr_left _ _ _ ?_
  intro il hil
  rw [List.map_map]
  refine List.map_congr_left ?_
  intro k hk
  show C q (il, stClosed (n1 / p0) (p0 - n1 % p0) r + jl, k) =
    C q (stClosed (n0 / p0) (p0 - n0 % p0) q + il - stClosed (n0 / p0) (p0 - n0 % p0) q,
      stClosed (n1 / p0) (p0 - n1 % p0) r + jl, k)
  rw [show stClosed (n0 / p0) (p0 - n0 % p0) q + il - stClosed (n0 / p0) (p0 - n0 % p0) q = il
    by omega]

lemma yz3_buf_eq (n0 n1 n2 p0 p1 c0 : Nat) (hp0 : 1 ≤ p0) (hp1 : 1 ≤ p1)
    (h00 : p0 ≤ n0) (h11 : p1 ≤ n1) (h21 : p1 ≤ n2) (hc0 : c0 < p0)
    (r : Nat) (hr : r < p1) {T : Type} [Inhabited T] (A : Nat → Nat × Nat × Nat → T) :
    allToAllV p1 (fun q => split_yz3 (decomp3_y_pencil n0 n1 n2 p0 p1 c0 q) (A q))
      (fun q rr => ((yzCounts3 n0 n1 n2 p0 p1 c0 q).getD ([], [])).1.getD rr 0)
      (fun q rr => ((yzCounts3 n0 n1 n2 p0 p1 c0 q).getD ([], [])).2.getD rr 0) r =
    (List.range p1).flatMap fun q =>
      ((List.range (szClosed (n1 / p1) (p1 - n1 % p1) r)).flatMap fun j =>
        (List.range (szClosed (n0 / p0) (p0 - n0 % p0) c0)).flatMap fun i =>
          (List.range' (stClosed (n2 / p1) (p1 - n2 % p1) q)
            (szClosed (n2 / p1) (p1 - n2 % p1) q)).map
            fun k => ((i, j, k) : Nat × Nat × Nat)).map
        fun t => A q (t.1, stClosed (n1 / p1) (p1 - n1 % p1) r + t.2.1,
          t.2.2 - stClosed (n2 / p1) (p1 - n2 % p1) q) := by
  unfold allToAllV
  refine flatMap_congr_left _ _ _ ?_
  intro q hq
  have hq2 : q < p1 := List.mem_range.mp hq
  beta_reduce
  rw [yzCounts3_counts_getD n0 n1 n2 p0 p1 c0 q hp0 hp1 h00 h11 h21 hc0 hq2 r hr,
    yzCounts3_displs_getD n0 n1 n2 p0 p1 c0 q hp0 hp1 h00 h11 h21 hc0 hq2 r hr]
  unfold split_yz3
  rw [y3_d1, contig_sz, y3_d0, split_sz n0 p0 c0 hp0 h00 hc0,
    y3_d2, split_sz n2 p1 q hp1 h21 hq2]
  have hcov : stClosed (n1 / p1) (p1 - n1 % p1) r +
      szClosed (n1 / p1) (p1 - n1 % p1) r ≤ n1 := by
    rw [← stClosed_succ]
    have h := stClosed_mono (n1 / p1) (p1 - n1 % p1) (show r + 1 ≤ p1 by omega)
    rw [stClosed_p n1 p1 hp1 h11] at h
    exact h
  rw [flatMap_segment _
    (szClosed (n0 / p0) (p0 - n0 % p0) c0 * szClosed (n2 / p1) (p1 - n2 % p1) q)
    (fun j => by
      rw [List.range_eq_range']
      exact length_flatMap_const _ _ (fun i => by simp) 0 _) n1 _ _ hcov]
  rw [List.range'_eq_map_range, List.flatMap_map, List.map_flatMap]
  refine flatMap_congr_left _ _ _ ?_
  intro jl hjl
  rw [List.map_flatMap]
  refine flatMap_congr_left _ _ _ ?_
  intro i hi
  rw [List.map_map, List.range'_eq_map_range, List.map_map]
  refine List.map_congr_left ?_
  intro kl hkl
  show A q (i, stClosed (n1 / p1) (p1 - n1 % p1) r + jl, kl) =
    A q (i, stClosed (n1 / p1) (p1 - n1 % p1) r + jl,
      stClosed (n2 / p1) (p1 - n2 % p1) q + kl - stClosed (n2 / p1) (p1 - n2 % p1) q)
  rw [show stClosed (n2 / p1) (p1 - n2 % p1) q + kl - stClosed (n2 / p1) (p1 - n2 % p1) q = kl
    by omega]

lemma zy3_buf_eq (n0 n1 n2 p0 p1 c0 : Nat) (hp0 : 1 ≤ p0) (hp1 : 1 ≤ p1)
    (h00 : p0 ≤ n0) (h11 : p1 ≤ n1) (h21 : p1 ≤ n2) (hc0 : c0 < p0)
    (r : Nat) (hr : r < p1) {T : Type} [Inhabited T] (C : Nat → Nat × Nat × Nat → T) :
    allToAllV p1 (fun q => split_zy3 (decomp3_z_pencil n0 n1 n2 p0 p1 c0 q) (C q))
      (fun q rr => ((zyCounts3 n0 n1 n2 p0 p1 c0 q).getD ([], [])).1.getD rr 0)
      (fun q rr => ((zyCounts3 n0 n1 n2 p0 p1 c0 q).getD ([], [])).2.getD rr 0) r =
    (List.range p1).flatMap fun q =>
      ((List.range (szClosed (n2 / p1) (p1 - n2 % p1) r)).flatMap fun k =>
        (List.range' (stClosed (n1 / p1) (p1 - n1 % p1) q)
          (szClosed (n1 / p1) (p1 - n1 % p1) q)).flatMap fun j =>
          (List.range (szClosed (n0 / p0) (p0 - n0 % p0) c0)).map
            fun i => ((i, j, k) : Nat × Nat × Nat)).map
        fun t => C q (t.1, t.2.1 - stClosed (n1 / p1) (p1 - n1 % p1) q,
          stClosed (n2 / p1) (p1 - n2 % p1) r + t.2.2) := by
  unfold allToAllV
  refine flatMap_congr_left _ _ _ ?_
  intro q hq
  have hq2 : q < p1 := List.mem_range.mp hq
  beta_reduce
  rw [zyCounts3_counts_getD n0 n1 n2 p0 p1 c0 q hp0 hp1 h00 h11 h21 hc0 hq2 r hr,
    zyCounts3_displs_getD n0 n1 n2 p0 p1 c0 q hp0 hp1 h00 h11 h21 hc0 hq2 r hr]
  unfold split_zy3
  rw [z3_d2, contig_sz, z3_d1, split_sz n1 p1 q hp1 h11 hq2,
    z3_d0, split_sz n0 p0 c0 hp0 h00 hc0]
  have hcov : stClosed (n2 / p1) (p1 - n2 % p1) r +
      szClosed (n2 / p1) (p1 - n2 % p1) r ≤ n2 := by
    rw [← stClosed_succ]
    have h := stClosed_mono (n2 / p1) (p1 - n2 % p1) (show r + 1 ≤ p1 by omega)
    rw [stClosed_p n2 p1 hp1 h21] at h
    exact h
  rw [flatMap_segment _
    (szClosed (n1 / p1) (p1 - n1 % p1) q * szClosed (n0 / p0) (p0 - n0 % p0) c0)
    (fun k => by
      rw [List.range_eq_range']
      exact length_flatMap_const _ _ (fun j => by simp) 0 _) n2 _ _ hcov]
  rw [List.range'_eq_map_range, List.flatMap_map, List.map_flatMap]
  refine flatMap_congr_left _ _ _ ?_
  intro kl hkl
  rw [List.map_flatMap, List.range'_eq_map_range, List.flatMap_map]
  refine flatMap_congr_left _ _ _ ?_
  intro jl hjl
  rw [List.map_map]
  refine List.map_congr_left ?_
  intro i hi
  show C q (i, jl, stClosed (n2 / p1) (p1 - n2 % p1) r + kl) =
    C q (i, stClosed (n1 / p1) (p1 - n1 % p1) q + jl - stClosed (n1 / p1) (p1 - n1 % p1) q,
      stClosed (n2 / p1) (p1 - n2 % p1) r + kl)
  rw [show stClosed (n1 / p1) (p1 - n1 % p1) q + jl - stClosed (n1 / p1) (p1 - n1 % p1) q = jl
    by omega]

/-! ### Pointwise action of the Decomp3 merges -/

lemma transXY3_pointwise (n0 n1 n2 p0 p1 c1 : Nat) (hp0 : 1 ≤ p0) (hp1 : 1 ≤ p1)
    (h00 : p0 ≤ n0) (h10 : p0 ≤ n1) (h21 : p1 ≤ n2) (hc1 : c1 < p1)
    {T : Type} [Inhabited T] (A : Nat → Nat × Nat × Nat → T)
    (init : Nat × Nat × Nat → T)
    (r : Nat) (hr : r < p0) (q : Nat) (hq : q < p0)
    (iloc : Nat) (hi : iloc < szClosed (n0 / p0) (p0 - n0 % p0) r)
    (jloc : Nat) (hj : jloc < szClosed (n1 / p0) (p0 - n1 % p0) q)
    (k : Nat) (hk : k < szClosed (n2 / p1) (p1 - n2 % p1) c1) :
    merge_xy3 (decomp3_x_pencil n0 n1 n2 p0 p1 r c1)
      (decomp3_y_pencil n0 n1 n2 p0 p1 r c1)
      (allToAllV p0 (fun q2 => split_xy3 (decomp3_x_pencil n0 n1 n2 p0 p1 q2 c1) (A q2))
        (fun q2 rr => ((xyCounts3 n0 n1 n2 p0 p1 q2 c1).getD ([], [])).1.getD rr 0)
        (fun q2 rr => ((xyCounts3 n0 n1 n2 p0 p1 q2 c1).getD ([], [])).2.getD rr 0) r)
      init
      (iloc, stClosed (n1 / p0) (p0 - n1 % p0) q + jloc, k) =
    A q (stClosed (n0 / p0) (p0 - n0 % p0) r + iloc, jloc, k) := by
  unfold merge_xy3
  rw [merge_xy3_keys_eq n0 n1 n2 p0 p1 r c1 hp0 hp1 h00 h10 h21 hr hc1,
    xy3_buf_eq n0 n1 n2 p0 p1 c1 hp0 hp1 h00 h10 h21 hc1 r hr A]
  have hkmem : ((iloc, stClosed (n1 / p0) (p0 - n1 % p0) q + jloc, k) : Nat × Nat × Nat) ∈
      (List.range (szClosed (n0 / p0) (p0 - n0 % p0) r)).flatMap fun i =>
        (List.range' (stClosed (n1 / p0) (p0 - n1 % p0) q)
          (szClosed (n1 / p0) (p0 - n1 % p0) q)).flatMap fun j =>
          (List.range (szClosed (n2 / p1) (p1 - n2 % p1) c1)).map
            fun kk => ((i, j, kk) : Nat × Nat × Nat) := by
    rw [List.mem_flatMap]
    refine ⟨iloc, List.mem_range.mpr hi, ?_⟩
    rw [List.mem_flatMap]
    refine ⟨stClosed (n1 / p0) (p0 - n1 % p0) q + jloc, by rw [List.mem_range'_1]; omega, ?_⟩
    rw [List.mem_map]
    exact ⟨k, List.mem_range.mpr hk, rfl⟩
  refine (writeSeq_blocks (List.range p0)
    (fun np => (List.range (szClosed (n0 / p0) (p0 - n0 % p0) r)).flatMap fun i =>
      (List.range' (stClosed (n1 / p0) (p0 - n1 % p0) np)
        (szClosed (n1 / p0) (p0 - n1 % p0) np)).flatMap fun j =>
        (List.range (szClosed (n2 / p1) (p1 - n2 % p1) c1)).map
          fun kk => ((i, j, kk) : Nat × Nat × Nat))
    (fun q2 t => A q2 (stClosed (n0 / p0) (p0 - n0 % p0) r + t.1,
      t.2.1 - stClosed (n1 / p0) (p0 - n1 % p0) q2, t.2.2))
    init (keys3_xy_nodup p0 _ _ _ _)
    q (List.mem_range.mpr hq) _ hkmem).trans ?_
  show A q (stClosed (n0 / p0) (p0 - n0 % p0) r + iloc,
      stClosed (n1 / p0) (p0 - n1 % p0) q + jloc - stClosed (n1 / p0) (p0 - n1 % p0) q, k) =
    A q (stClosed (n0 / p0) (p0 - n0 % p0) r + iloc, jloc, k)
  rw [show stClosed (n1 / p0) (p0 - n1 % p0) q + jloc - stClosed (n1 / p0) (p0 - n1 % p0) q
    = jloc by omega]

lemma transYX3_pointwise (n0 n1 n2 p0 p1 c1 : Nat) (hp0 : 1 ≤ p0) (hp1 : 1 ≤ p1)
    (h00 : p0 ≤ n0) (h10 : p0 ≤ n1) (h21 : p1 ≤ n2) (hc1 : c1 < p1)
    {T : Type} [Inhabited T] (C : Nat → Nat × Nat × Nat → T)
    (init : Nat × Nat × Nat → T)
    (r : Nat) (hr : r < p0) (q : Nat) (hq : q < p0)
    (iloc : Nat) (hi : iloc < szClosed (n0 / p0) (p0 - n0 % p0) q)
    (jloc : Nat) (hj : jloc < szClosed (n1 / p0) (p0 - n1 % p0) r)
    (k : Nat) (hk : k < szClosed (n2 / p1) (p1 - n2 % p1) c1) :
    merge_yx3 (decomp3_y_pencil n0 n1 n2 p0 p1 r c1)
      (decomp3_x_pencil n0 n1 n2 p0 p1 r c1)
      (allToAllV p0 (fun q2 => split_yx3 (decomp3_y_pencil n0 n1 n2 p0 p1 q2 c1) (C q2))
        (fun q2 rr => ((yxCounts3 n0 n1 n2 p0 p1 q2 c1).getD ([], [])).1.getD rr 0)
        (fun q2 rr => ((yxCounts3 n0 n1 n2 p0 p1 q2 c1).getD ([], [])).2.getD rr 0) r)
      init
      (stClosed (n0 / p0) (p0 - n0 % p0) q + iloc, jloc, k) =
    C q (iloc, stClosed (n1 / p0) (p0 - n1 % p0) r + jloc, k) := by
  unfold merge_yx3
  rw [merge_yx3_keys_eq n0 n1 n2 p0 p1 r c1 hp0 hp1 h00 h10 h21 hr hc1,
    yx3_buf_eq n0 n1 n2 p0 p1 c1 hp0 hp1 h00 h10 h21 hc1 r hr C]
  have hkmem : ((stClosed (n0 / p0) (p0 - n0 % p0) q + iloc, jloc, k) : Nat × Nat × Nat) ∈
      (List.range (szClosed (n1 / p0) (p0 - n1 % p0) r)).flatMap fun j =>
        (List.range' (stClosed (n0 / p0) (p0 - n0 % p0) q)
          (szClosed (n0 / p0) (p0 - n0 % p0) q)).flatMap fun i =>
          (List.range (szClosed (n2 / p1) (p1 - n2 % p1) c1)).map
            fun kk => ((i, j, kk) : Nat × Nat × Nat) := by
    rw [List.mem_flatMap]
    refine ⟨jloc, List.mem_range.mpr hj, ?_⟩
    rw [List.mem_flatMap]
    refine ⟨stClosed (n0 / p0) (p0 - n0 % p0) q + iloc, by rw [List.mem_range'_1]; omega, ?_⟩
    rw [List.mem_map]
    exact ⟨k, List.mem_range.mpr hk, rfl⟩
  refine (writeSeq_blocks (List.range p0)
    (fun np => (List.range (szClosed (n1 / p0) (p0 - n1 % p0) r)).flatMap fun j =>
      (List.range' (stClosed (n0 / p0) (p0 - n0 % p0) np)
        (szClosed (n0 / p0) (p0 - n0 % p0) np)).flatMap fun i =>
        (List.range (szClosed (n2 / p1) (p1 - n2 % p1) c1)).map
          fun kk => ((i, j, kk) : Nat × Nat × Nat))
    (fun q2 t => C q2 (t.1 - stClosed (n0 / p0) (p0 - n0 % p0) q2,
      stClosed (n1 / p0) (p0 - n1 % p0) r + t.2.1, t.2.2))
    init (keys3_yx_nodup p0 _ _ _ _)
    q (List.mem_range.mpr hq) _ hkmem).trans ?_
  show C q (stClosed (n0 / p0) (p0 - n0 % p0) q + iloc - stClosed (n0 / p0) (p0 - n0 % p0) q,
      stClosed (n1 / p0) (p0 - n1 % p0) r + jloc, k) =
    C q (iloc, stClosed (n1 / p0) (p0 - n1 % p0) r + jloc, k)
  rw [show stClosed (n0 / p0) (p0 - n0 % p0) q + iloc - stClosed (n0 / p0) (p0 - n0 % p0) q
    = iloc by omega]

lemma transYZ3_pointwise (n0 n1 n2 p0 p1 c0 : Nat) (hp0 : 1 ≤ p0) (hp1 : 1 ≤ p1)
    (h00 : p0 ≤ n0) (h11 : p1 ≤ n1) (h21 : p1 ≤ n2) (hc0 : c0 < p0)
    {T : Type} [Inhabited T] (A : Nat → Nat × Nat × Nat → T)
    (init : Nat × Nat × Nat → T)
    (r : Nat) (hr : r < p1) (q : Nat) (hq : q < p1)
    (i : Nat) (hi : i < szClosed (n0 / p0) (p0 - n0 % p0) c0)
    (jloc : Nat) (hj : jloc < szClosed (n1 / p1) (p1 - n1 % p1) r)
    (kloc : Nat) (hk : kloc < szClosed (n2 / p1) (p1 - n2 % p1) q) :
    merge_yz3 (decomp3_y_pencil n0 n1 n2 p0 p1 c0 r)
      (decomp3_z_pencil n0 n1 n2 p0 p1 c0 r)
      (allToAllV p1 (fun q2 => split_yz3 (decomp3_y_pencil n0 n1 n2 p0 p1 c0 q2) (A q2))
        (fun q2 rr => ((yzCounts3 n0 n1 n2 p0 p1 c0 q2).getD ([], [])).1.getD rr 0)
        (fun q2 rr => ((yzCounts3 n0 n1 n2 p0 p1 c0 q2).getD ([], [])).2.getD rr 0) r)
      init
      (i, jloc, stClosed (n2 / p1) (p1 - n2 % p1) q + kloc) =
    A q (i, stClosed (n1 / p1) (p1 - n1 % p1) r + jloc, kloc) := by
  unfold merge_yz3
  rw [merge_yz3_keys_eq n0 n1 n2 p0 p1 c0 r hp0 hp1 h00 h11 h21 hc0 hr,
    yz3_buf_eq n0 n1 n2 p0 p1 c0 hp0 hp1 h00 h11 h21 hc0 r hr A]
  have hkmem : ((i, jloc, stClosed (n2 / p1) (p1 - n2 % p1) q + kloc) : Nat × Nat × Nat) ∈
      (List.range (szClosed (n1 / p1) (p1 - n1 % p1) r)).flatMap fun j =>
        (List.range (szClosed (n0 / p0) (p0 - n0 % p0) c0)).flatMap fun i2 =>
          (List.range' (stClosed (n2 / p1) (p1 - n2 % p1) q)
            (szClosed (n2 / p1) (p1 - n2 % p1) q)).map
            fun kk => ((i2, j, kk) : Nat × Nat × Nat) := by
    rw [List.mem_flatMap]
    refine ⟨jloc, List.mem_range.mpr hj, ?_⟩
    rw [List.mem_flatMap]
    refine ⟨i, List.mem_range.mpr hi, ?_⟩
    rw [List.mem_map]
    refine ⟨stClosed (n2 / p1) (p1 - n2 % p1) q + kloc, by rw [List.mem_range'_1]; omega, rfl⟩
  refine (writeSeq_blocks (List.range p1)
    (fun np => (List.range (szClosed (n1 / p1) (p1 - n1 % p1) r)).flatMap fun j =>
      (List.range (szClosed (n0 / p0) (p0 - n0 % p0) c0)).flatMap fun i2 =>
        (List.range' (stClosed (n2 / p1) (p1 - n2 % p1) np)
          (szClosed (n2 / p1) (p1 - n2 % p1) np)).map
          fun kk => ((i2, j, kk) : Nat × Nat × Nat))
    (fun q2 t => A q2 (t.1, stClosed (n1 / p1) (p1 - n1 % p1) r + t.2.1,
      t.2.2 - stClosed (n2 / p1) (p1 - n2 % p1) q2))
    init (keys3_yz_nodup p1 _ _ _ _)
    q (List.mem_range.mpr hq) _ hkmem).trans ?_
  show A q (i, stClosed (n1 / p1) (p1 - n1 % p1) r + jloc,
      stClosed (n2 / p1) (p1 - n2 % p1) q + kloc - stClosed (n2 / p1) (p1 - n2 % p1) q) =
    A q (i, stClosed (n1 / p1) (p1 - n1 % p1) r + jloc, kloc)
  rw [show stClosed (n2 / p1) (p1 - n2 % p1) q + kloc - stClosed (n2 / p1) (p1 - n2 % p1) q
    = kloc by omega]

lemma transZY3_pointwise (n0 n1 n2 p0 p1 c0 : Nat) (hp0 : 1 ≤ p0) (hp1 : 1 ≤ p1)
    (h00 : p0 ≤ n0) (h11 : p1 ≤ n1) (h21 : p1 ≤ n2) (hc0 : c0 < p0)
    {T : Type} [Inhabited T] (C : Nat → Nat × Nat × Nat → T)
    (init : Nat × Nat × Nat → T)
    (r : Nat) (hr : r < p1) (q : Nat) (hq : q < p1)
    (i : Nat) (hi : i < szClosed (n0 / p0) (p0 - n0 % p0) c0)
    (jloc : Nat) (hj : jloc < szClosed (n1 / p1) (p1 - n1 % p1) q)
    (kloc : Nat) (hk : kloc < szClosed (n2 / p1) (p1 - n2 % p1) r) :
    merge_zy3 (decomp3_z_pencil n0 n1 n2 p0 p1 c0 r)
      (decomp3_y_pencil n0 n1 n2 p0 p1 c0 r)
      (allToAllV p1 (fun q2 => split_zy3 (decomp3_z_pencil n0 n1 n2 p0 p1 c0 q2) (C q2))
        (fun q2 rr => ((zyCounts3 n0 n1 n2 p0 p1 c0 q2).getD ([], [])).1.getD rr 0)
        (fun q2 rr => ((zyCounts3 n0 n1 n2 p0 p1 c0 q2).getD ([], [])).2.getD rr 0) r)
      init
      (i, stClosed (n1 / p1) (p1 - n1 % p1) q + jloc, kloc) =
    C q (i, jloc, stClosed (n2 / p1) (p1 - n2 % p1) r + kloc) := by
  unfold merge_zy3
  rw [merge_zy3_keys_eq n0 n1 n2 p0 p1 c0 r hp0 hp1 h00 h11 h21 hc0 hr,
    zy3_buf_eq n0 n1 n2 p0 p1 c0 hp0 hp1 h00 h11 h21 hc0 r hr C]
  have hkmem : ((i, stClosed (n1 / p1) (p1 - n1 % p1) q + jloc, kloc) : Nat × Nat × Nat) ∈
      (List.range (szClosed (n2 / p1) (p1 - n2 % p1) r)).flatMap fun k =>
        (List.range' (stClosed (n1 / p1) (p1 - n1 % p1) q)
          (szClosed (n1 / p1) (p1 - n1 % p1) q)).flatMap fun j =>
          (List.range (szClosed (n0 / p0) (p0 - n0 % p0) c0)).map
            fun i2 => ((i2, j, k) : Nat × Nat × Nat) := by
    rw [List.mem_flatMap]
    refine ⟨kloc, List.mem_range.mpr hk, ?_⟩
    rw [List.mem_flatMap]
    refine ⟨stClosed (n1 / p1) (p1 - n1 % p1) q + jloc, by rw [List.mem_range'_1]; omega, ?_⟩
    rw [List.mem_map]
    exact ⟨i, List.mem_range.mpr hi, rfl⟩
  refine (writeSeq_blocks (List.range p1)
    (fun np => (List.range (szClosed (n2 / p1) (p1 - n2 % p1) r)).flatMap fun k =>
      (List.range' (stClosed (n1 / p1) (p1 - n1 % p1) np)
        (szClosed (n1 / p1) (p1 - n1 % p1) np)).flatMap fun j =>
        (List.range (szClosed (n0 / p0) (p0 - n0 % p0) c0)).map
          fun i2 => ((i2, j, k) : Nat × Nat × Nat))
    (fun q2 t => C q2 (t.1, t.2.1 - stClosed (n1 / p1) (p1 - n1 % p1) q2,
      stClosed (n2 / p1) (p1 - n2 % p1) r + t.2.2))
    init (keys3_zy_nodup p1 _ _ _ _)
    q (List.mem_range.mpr hq) _ hkmem).trans ?_
  show C q (i, stClosed (n1 / p1) (p1 - n1 % p1) q + jloc - stClosed (n1 / p1) (p1 - n1 % p1) q,
      stClosed (n2 / p1) (p1 - n2 % p1) r + kloc) =
    C q (i, jloc, stClosed (n2 / p1) (p1 - n2 % p1) r + kloc)
  rw [show stClosed (n1 / p1) (p1 - n1 % p1) q + jloc - stClosed (n1 / p1) (p1 - n1 % p1) q
    = jloc by omega]

/-! ### The Decomp3 transposes succeed and round-trip -/

lemma transpose_x_to_y_3_some (n0 n1 n2 p0 p1 : Nat) (hp0 : 1 ≤ p0) (hp1 : 1 ≤ p1)
    (h00 : p0 ≤ n0) (h10 : p0 ≤ n1) (h21 : p1 ≤ n2)
    {T : Type} [Inhabited T] (A init : Nat → Nat → Nat × Nat × Nat → T) :
    transpose_x_to_y_3 n0 n1 n2 p0 p1 A init =
      some (fun c0 c1 =>
        merge_xy3 (decomp3_x_pencil n0 n1 n2 p0 p1 c0 c1)
          (decomp3_y_pencil n0 n1 n2 p0 p1 c0 c1)
          (allToAllV p0
            (fun q => split_xy3 (decomp3_x_pencil n0 n1 n2 p0 p1 q c1) (A q c1))
            (fun q rr => ((xyCounts3 n0 n1 n2 p0 p1 q c1).getD ([], [])).1.getD rr 0)
            (fun q rr => ((xyCounts3 n0 n1 n2 p0 p1 q c1).getD ([], [])).2.getD rr 0) c0)
          (init c0 c1)) := by
  have hguard : ((List.range p0).all fun c0 => (List.range p1).all fun c1 =>
      (xyCounts3 n0 n1 n2 p0 p1 c0 c1).isSome &&
        (yxCounts3 n0 n1 n2 p0 p1 c0 c1).isSome) = true := by
    rw [List.all_eq_true]
    intro c0 hc0
    beta_reduce
    rw [List.all_eq_true]
    intro c1 hc1
    have h0 : c0 < p0 := List.mem_range.mp hc0
    have h1 : c1 < p1 := List.mem_range.mp hc1
    rw [xyCounts3_eq n0 n1 n2 p0 p1 c0 c1 hp0 hp1 h00 h10 h21 h0 h1,
      yxCounts3_eq n0 n1 n2 p0 p1 c0 c1 hp0 hp1 h00 h10 h21 h0 h1]
    rfl
  unfold transpose_x_to_y_3
  rw [if_pos hguard]

lemma transpose_y_to_x_3_some (n0 n1 n2 p0 p1 : Nat) (hp0 : 1 ≤ p0) (hp1 : 1 ≤ p1)
    (h00 : p0 ≤ n0) (h10 : p0 ≤ n1) (h21 : p1 ≤ n2)
    {T : Type} [Inhabited T] (C init : Nat → Nat → Nat × Nat × Nat → T) :
    transpose_y_to_x_3 n0 n1 n2 p0 p1 C init =
      some (fun c0 c1 =>
        merge_yx3 (decomp3_y_pencil n0 n1 n2 p0 p1 c0 c1)
          (decomp3_x_pencil n0 n1 n2 p0 p1 c0 c1)
          (allToAllV p0
            (fun q => split_yx3 (decomp3_y_pencil n0 n1 n2 p0 p1 q c1) (C q c1))
            (fun q rr => ((yxCounts3 n0 n1 n2 p0 p1 q c1).getD ([], [])).1.getD rr 0)
            (fun q rr => ((yxCounts3 n0 n1 n2 p0 p1 q c1).getD ([], [])).2.getD rr 0) c0)
          (init c0 c1)) := by
  have hguard : ((List.range p0).all fun c0 => (List.range p1).all fun c1 =>
      (yxCounts3 n0 n1 n2 p0 p1 c0 c1).isSome &&
        (xyCounts3 n0 n1 n2 p0 p1 c0 c1).isSome) = true := by
    rw [List.all_eq_true]
    intro c0 hc0
    beta_reduce
    rw [List.all_eq_true]
    intro c1 hc1
    have h0 : c0 < p0 := List.mem_range.mp hc0
    have h1 : c1 < p1 := List.mem_range.mp hc1
    rw [xyCounts3_eq n0 n1 n2 p0 p1 c0 c1 hp0 hp1 h00 h10 h21 h0 h1,
      yxCounts3_eq n0 n1 n2 p0 p1 c0 c1 hp0 hp1 h00 h10 h21 h0 h1]
    rfl
  unfold transpose_y_to_x_3
  rw [if_pos hguard]

lemma transpose_y_to_z_3_some (n0 n1 n2 p0 p1 : Nat) (hp0 : 1 ≤ p0) (hp1 : 1 ≤ p1)
    (h00 : p0 ≤ n0) (h11 : p1 ≤ n1) (h21 : p1 ≤ n2)
    {T : Type} [Inhabited T] (A init : Nat → Nat → Nat × Nat × Nat → T) :
    transpose_y_to_z_3 n0 n1 n2 p0 p1 A init =
      some (fun c0 c1 =>
        merge_yz3 (decomp3_y_pencil n0 n1 n2 p0 p1 c0 c1)
          (decomp3_z_pencil n0 n1 n2 p0 p1 c0 c1)
          (allToAllV p1
            (fun q => split_yz3 (decomp3_y_pencil n0 n1 n2 p0 p1 c0 q) (A c0 q))
            (fun q rr => ((yzCounts3 n0 n1 n2 p0 p1 c0 q).getD ([], [])).1.getD rr 0)
            (fun q rr => ((yzCounts3 n0 n1 n2 p0 p1 c0 q).getD ([], [])).2.getD rr 0) c1)
          (init c0 c1)) := by
  have hguard : ((List.range p0).all fun c0 => (List.range p1).all fun c1 =>
      (yzCounts3 n0 n1 n2 p0 p1 c0 c1).isSome &&
        (zyCounts3 n0 n1 n2 p0 p1 c0 c1).isSome) = true := by
    rw [List.all_eq_true]
    intro c0 hc0
    beta_reduce
    rw [List.all_eq_true]
    intro c1 hc1
    have h0 : c0 < p0 := List.mem_range.mp hc0
    have h1 : c1 < p1 := List.mem_range.mp hc1
    rw [yzCounts3_eq n0 n1 n2 p0 p1 c0 c1 hp0 hp1 h00 h11 h21 h0 h1,
      zyCounts3_eq n0 n1 n2 p0 p1 c0 c1 hp0 hp1 h00 h11 h21 h0 h1]
    rfl
  unfold transpose_y_to_z_3
  rw [if_pos hguard]

lemma transpose_z_to_y_3_some (n0 n1 n2 p0 p1 : Nat) (hp0 : 1 ≤ p0) (hp1 : 1 ≤ p1)
    (h00 : p0 ≤ n0) (h11 : p1 ≤ n1) (h21 : p1 ≤ n2)
    {T : Type} [Inhabited T] (C init : Nat → Nat → Nat × Nat × Nat → T) :
    transpose_z_to_y_3 n0 n1 n2 p0 p1 C init =
      some (fun c0 c1 =>
        merge_zy3 (decomp3_z_pencil n0 n1 n2 p0 p1 c0 c1)
          (decomp3_y_pencil n0 n1 n2 p0 p1 c0 c1)
          (allToAllV p1
            (fun q => split_zy3 (decomp3_z_pencil n0 n1 n2 p0 p1 c0 q) (C c0 q))
            (fun q rr => ((zyCounts3 n0 n1 n2 p0 p1 c0 q).getD ([], [])).1.getD rr 0)
            (fun q rr => ((zyCounts3 n0 n1 n2 p0 p1 c0 q).getD ([], [])).2.getD rr 0) c1)
          (init c0 c1)) := by
  have hguard : ((List.range p0).all fun c0 => (List.range p1).all fun c1 =>
      (zyCounts3 n0 n1 n2 p0 p1 c0 c1).isSome &&
        (yzCounts3 n0 n1 n2 p0 p1 c0 c1).isSome) = true := by
    rw [List.all_eq_true]
    intro c0 hc0
    beta_reduce
    rw [List.all_eq_true]
    intro c1 hc1
    have h0 : c0 < p0 := List.mem_range.mp hc0
    have h1 : c1 < p1 := List.mem_range.mp hc1
    rw [yzCounts3_eq n0 n1 n2 p0 p1 c0 c1 hp0 hp1 h00 h11 h21 h0 h1,
      zyCounts3_eq n0 n1 n2 p0 p1 c0 c1 hp0 hp1 h00 h11 h21 h0 h1]
    rfl
  unfold transpose_z_to_y_3
  rw [if_pos hguard]

lemma roundtrip3_xyx (n0 n1 n2 p0 p1 : Nat) (hp0 : 1 ≤ p0) (hp1 : 1 ≤ p1)
    (h00 : p0 ≤ n0) (h10 : p0 ≤ n1) (h21 : p1 ≤ n2)
    {T : Type} [Inhabited T] (A i1 i2 : Nat → Nat → Nat × Nat × Nat → T) :
    ∃ B C, transpose_x_to_y_3 n0 n1 n2 p0 p1 A i1 = some B ∧
      transpose_y_to_x_3 n0 n1 n2 p0 p1 B i2 = some C ∧
      ∀ c0, c0 < p0 → ∀ c1, c1 < p1 → ∀ i, i < n0 →
        ∀ j, j < szClosed (n1 / p0) (p0 - n1 % p0) c0 →
        ∀ k, k < szClosed (n2 / p1) (p1 - n2 % p1) c1 →
          C c0 c1 (i, j, k) = A c0 c1 (i, j, k) := by
  refine ⟨_, _, transpose_x_to_y_3_some n0 n1 n2 p0 p1 hp0 hp1 h00 h10 h21 A i1,
    transpose_y_to_x_3_some n0 n1 n2 p0 p1 hp0 hp1 h00 h10 h21 _ i2, ?_⟩
  intro c0 hc0 c1 hc1 i hi j hj k hk
  have hcov : ∃ q, q < p0 ∧ ∃ off, off < szClosed (n0 / p0) (p0 - n0 % p0) q ∧
      i = stClosed (n0 / p0) (p0 - n0 % p0) q + off := by
    refine stClosed_cover (n0 / p0) (p0 - n0 % p0) p0 i ?_
    rw [stClosed_p n0 p0 hp0 h00]
    exact hi
  obtain ⟨q, hq, off, hoff, rfl⟩ := hcov
  beta_reduce
  rw [transYX3_pointwise n0 n1 n2 p0 p1 c1 hp0 hp1 h00 h10 h21 hc1 _ _
    c0 hc0 q hq off hoff j hj k hk]
  exact transXY3_pointwise n0 n1 n2 p0 p1 c1 hp0 hp1 h00 h10 h21 hc1
    (fun q2 => A q2 c1) (i1 q c1) q hq c0 hc0 off hoff j hj k hk

lemma roundtrip3_yxy (n0 n1 n2 p0 p1 : Nat) (hp0 : 1 ≤ p0) (hp1 : 1 ≤ p1)
    (h00 : p0 ≤ n0) (h10 : p0 ≤ n1) (h21 : p1 ≤ n2)
    {T : Type} [Inhabited T] (A i1 i2 : Nat → Nat → Nat × Nat × Nat → T) :
    ∃ B C, transpose_y_to_x_3 n0 n1 n2 p0 p1 A i1 = some B ∧
      transpose_x_to_y_3 n0 n1 n2 p0 p1 B i2 = some C ∧
      ∀ c0, c0 < p0 → ∀ c1, c1 < p1 →
        ∀ i, i < szClosed (n0 / p0) (p0 - n0 % p0) c0 → ∀ j, j < n1 →
        ∀ k, k < szClosed (n2 / p1) (p1 - n2 % p1) c1 →
          C c0 c1 (i, j, k) = A c0 c1 (i, j, k) := by
  refine ⟨_, _, transpose_y_to_x_3_some n0 n1 n2 p0 p1 hp0 hp1 h00 h10 h21 A i1,
    transpose_x_to_y_3_some n0 n1 n2 p0 p1 hp0 hp1 h00 h10 h21 _ i2, ?_⟩
  intro c0 hc0 c1 hc1 i hi j hj k hk
  have hcov : ∃ q, q < p0 ∧ ∃ off, off < szClosed (n1 / p0) (p0 - n1 % p0) q ∧
      j = stClosed (n1 / p0) (p0 - n1 % p0) q + off := by
    refine stClosed_cover (n1 / p0) (p0 - n1 % p0) p0 j ?_
    rw [stClosed_p n1 p0 hp0 h10]
    exact hj
  obtain ⟨q, hq, off, hoff, rfl⟩ := hcov
  beta_reduce
  rw [transXY3_pointwise n0 n1 n2 p0 p1 c1 hp0 hp1 h00 h10 h21 hc1 _ _
    c0 hc0 q hq i hi off hoff k hk]
  exact transYX3_pointwise n0 n1 n2 p0 p1 c1 hp0 hp1 h00 h10 h21 hc1
    (fun q2 => A q2 c1) (i1 q c1) q hq c0 hc0 i hi off hoff k hk

lemma roundtrip3_yzy (n0 n1 n2 p0 p1 : Nat) (hp0 : 1 ≤ p0) (hp1 : 1 ≤ p1)
    (h00 : p0 ≤ n0) (h11 : p1 ≤ n1) (h21 : p1 ≤ n2)
    {T : Type} [Inhabited T] (A i1 i2 : Nat → Nat → Nat × Nat × Nat → T) :
    ∃ B C, transpose_y_to_z_3 n0 n1 n2 p0 p1 A i1 = some B ∧
      transpose_z_to_y_3 n0 n1 n2 p0 p1 B i2 = some C ∧
      ∀ c0, c0 < p0 → ∀ c1, c1 < p1 →
        ∀ i, i < szClosed (n0 / p0) (p0 - n0 % p0) c0 → ∀ j, j < n1 →
        ∀ k, k < szClosed (n2 / p1) (p1 - n2 % p1) c1 →
          C c0 c1 (i, j, k) = A c0 c1 (i, j, k) := by
  refine ⟨_, _, transpose_y_to_z_3_some n0 n1 n2 p0 p1 hp0 hp1 h00 h11 h21 A i1,
    transpose_z_to_y_3_some n0 n1 n2 p0 p1 hp0 hp1 h00 h11 h21 _ i2, ?_⟩
  intro c0 hc0 c1 hc1 i hi j hj k hk
  have hcov : ∃ q, q < p1 ∧ ∃ off, off < szClosed (n1 / p1) (p1 - n1 % p1) q ∧
      j = stClosed (n1 / p1) (p1 - n1 % p1) q + off := by
    refine stClosed_cover (n1 / p1) (p1 - n1 % p1) p1 j ?_
    rw [stClosed_p n1 p1 hp1 h11]
    exact hj
  obtain ⟨q, hq, off, hoff, rfl⟩ := hcov
  beta_reduce
  rw [transZY3_pointwise n0 n1 n2 p0 p1 c0 hp0 hp1 h00 h11 h21 hc0 _ _
    c1 hc1 q hq i hi off hoff k hk]
  exact transYZ3_pointwise n0 n1 n2 p0 p1 c0 hp0 hp1 h00 h11 h21 hc0
    (fun q2 => A c0 q2) (i1 c0 q) q hq c1 hc1 i hi off hoff k hk

lemma roundtrip3_zyz (n0 n1 n2 p0 p1 : Nat) (hp0 : 1 ≤ p0) (hp1 : 1 ≤ p1)
    (h00 : p0 ≤ n0) (h11 : p1 ≤ n1) (h21 : p1 ≤ n2)
    {T : Type} [Inhabited T] (A i1 i2 : Nat → Nat → Nat × Nat × Nat → T) :
    ∃ B C, transpose_z_to_y_3 n0 n1 n2 p0 p1 A i1 = some B ∧
      transpose_y_to_z_3 n0 n1 n2 p0 p1 B i2 = some C ∧
      ∀ c0, c0 < p0 → ∀ c1, c1 < p1 →
        ∀ i, i < szClosed (n0 / p0) (p0 - n0 % p0) c0 →
        ∀ j, j < szClosed (n1 / p1) (p1 - n1 % p1) c1 → ∀ k, k < n2 →
          C c0 c1 (i, j, k) = A c0 c1 (i, j, k) := by
  refine ⟨_, _, transpose_z_to_y_3_some n0 n1 n2 p0 p1 hp0 hp1 h00 h11 h21 A i1,
    transpose_y_to_z_3_some n0 n1 n2 p0 p1 hp0 hp1 h00 h11 h21 _ i2, ?_⟩
  intro c0 hc0 c1 hc1 i hi j hj k hk
  have hcov : ∃ q, q < p1 ∧ ∃ off, off < szClosed (n2 / p1) (p1 - n2 % p1) q ∧
      k = stClosed (n2 / p1) (p1 - n2 % p1) q + off := by
    refine stClosed_cover (n2 / p1) (p1 - n2 % p1) p1 k ?_
    rw [stClosed_p n2 p1 hp1 h21]
    exact hk
  obtain ⟨q, hq, off, hoff, rfl⟩ := hcov
  beta_reduce
  rw [transYZ3_pointwise n0 n1 n2 p0 p1 c0 hp0 hp1 h00 h11 h21 hc0 _ _
    c1 hc1 q hq i hi j hj off hoff]
  exact transZY3_pointwise n0 n1 n2 p0 p1 c0 hp0 hp1 h00 h11 h21 hc0
    (fun q2 => A c0 q2) (i1 c0 q) q hq c1 hc1 i hi j hj off hoff

/-- C1: for the transpose pairs the repository implements — `Decomp2`
x↔y and `Decomp3` x↔y and y↔z, between pencils with different contiguous
axes over the same global shape and topology — transposing a local array
from pencil A to pencil B and then back from B to A reproduces the
original local array exactly on every process (exact element equality on
the whole local index domain of the source pencil, for any element type,
any initial contents of the output buffers, and any process counts that
admit the balanced partition of each split axis). -/
theorem claim_C1_round_trip :
    (∀ (n0 n1 p : Nat), 1 ≤ p → p ≤ n0 → p ≤ n1 →
      ∀ {T : Type} [Inhabited T] (A i1 i2 : Nat → Nat × Nat → T),
      (∃ B C, transpose_x_to_y_2 n0 n1 p A i1 = some B ∧
        transpose_y_to_x_2 n0 n1 p B i2 = some C ∧
        ∀ r, r < p → ∀ i, i < n0 → ∀ j, j < szClosed (n1 / p) (p - n1 % p) r →
          C r (i, j) = A r (i, j)) ∧
      (∃ B C, transpose_y_to_x_2 n0 n1 p A i1 = some B ∧
        transpose_x_to_y_2 n0 n1 p B i2 = some C ∧
        ∀ r, r < p → ∀ i, i < szClosed (n0 / p) (p - n0 % p) r → ∀ j, j < n1 →
          C r (i, j) = A r (i, j))) ∧
    (∀ (n0 n1 n2 p0 p1 : Nat), 1 ≤ p0 → 1 ≤ p1 → p0 ≤ n0 → p0 ≤ n1 → p1 ≤ n2 →
      ∀ {T : Type} [Inhabited T] (A i1 i2 : Nat → Nat → Nat × Nat × Nat → T),
      (∃ B C, transpose_x_to_y_3 n0 n1 n2 p0 p1 A i1 = some B ∧
        transpose_y_to_x_3 n0 n1 n2 p0 p1 B i2 = some C ∧
        ∀ c0, c0 < p0 → ∀ c1, c1 < p1 → ∀ i, i < n0 →
          ∀ j, j < szClosed (n1 / p0) (p0 - n1 % p0) c0 →
          ∀ k, k < szClosed (n2 / p1) (p1 - n2 % p1) c1 →
            C c0 c1 (i, j, k) = A c0 c1 (i, j, k)) ∧
      (∃ B C, transpose_y_to_x_3 n0 n1 n2 p0 p1 A i1 = some B ∧
        transpose_x_to_y_3 n0 n1 n2 p0 p1 B i2 = some C ∧
        ∀ c0, c0 < p0 → ∀ c1, c1 < p1 →
          ∀ i, i < szClosed (n0 / p0) (p0 - n0 % p0) c0 → ∀ j, j < n1 →
          ∀ k, k < szClosed (n2 / p1) (p1 - n2 % p1) c1 →
            C c0 c1 (i, j, k) = A c0 c1 (i, j, k))) ∧
    (∀ (n0 n1 n2 p0 p1 : Nat), 1 ≤ p0 → 1 ≤ p1 → p0 ≤ n0 → p1 ≤ n1 → p1 ≤ n2 →
      ∀ {T : Type} [Inhabited T] (A i1 i2 : Nat → Nat → Nat × Nat × Nat → T),
      (∃ B C, transpose_y_to_z_3 n0 n1 n2 p0 p1 A i1 = some B ∧
        transpose_z_to_y_3 n0 n1 n2 p0 p1 B i2 = some C ∧
        ∀ c0, c0 < p0 → ∀ c1, c1 < p1 →
          ∀ i, i < szClosed (n0 / p0) (p0 - n0 % p0) c0 → ∀ j, j < n1 →
          ∀ k, k < szClosed (n2 / p1) (p1 - n2 % p1) c1 →
            C c0 c1 (i, j, k) = A c0 c1 (i, j, k)) ∧
      (∃ B C, transpose_z_to_y_3 n0 n1 n2 p0 p1 A i1 = some B ∧
        transpose_y_to_z_3 n0 n1 n2 p0 p1 B i2 = some C ∧
        ∀ c0, c0 < p0 → ∀ c1, c1 < p1 →
          ∀ i, i < szClosed (n0 / p0) (p0 - n0 % p0) c0 →
          ∀ j, j < szClosed (n1 / p1) (p1 - n1 % p1) c1 → ∀ k, k < n2 →
            C c0 c1 (i, j, k) = A c0 c1 (i, j, k))) := by
  refine ⟨?_, ?_, ?_⟩
  · intro n0 n1 p hp h0 h1 T hT A i1 i2
    exact ⟨roundtrip2_xyx n0 n1 p hp h0 h1 A i1 i2,
      roundtrip2_yxy n0 n1 p hp h0 h1 A i1 i2⟩
  · intro n0 n1 n2 p0 p1 hp0 hp1 h00 h10 h21 T hT A i1 i2
    exact ⟨roundtrip3_xyx n0 n1 n2 p0 p1 hp0 hp1 h00 h10 h21 A i1 i2,
      roundtrip3_yxy n0 n1 n2 p0 p1 hp0 hp1 h00 h10 h21 A i1 i2⟩
  · intro n0 n1 n2 p0 p1 hp0 hp1 h00 h11 h21 T hT A i1 i2
    exact ⟨roundtrip3_yzy n0 n1 n2 p0 p1 hp0 hp1 h00 h11 h21 A i1 i2,
      roundtrip3_zyz n0 n1 n2 p0 p1 hp0 hp1 h00 h11 h21 A i1 i2⟩

/-- Witness for C1 at `[n0, n1] = [5, 4]`, `p = 2`: the x→y→x round trip
over two processes is the identity on each local x-pencil array. -/
theorem claim_C1_round_trip_witness :
    (1 ≤ 2 ∧ 2 ≤ 5 ∧ 2 ≤ 4) ∧
    ∃ B C, transpose_x_to_y_2 5 4 2
        (fun r t => r * 100 + t.1 * 10 + t.2) (fun _ _ => 0) = some B ∧
      transpose_y_to_x_2 5 4 2 B (fun _ _ => 0) = some C ∧
      ∀ r, r < 2 → ∀ i, i < 5 → ∀ j, j < szClosed (4 / 2) (2 - 4 % 2) r →
        C r (i, j) = (fun (r : Nat) (t : Nat × Nat) => r * 100 + t.1 * 10 + t.2) r (i, j) :=
  ⟨⟨by decide, by decide, by decide⟩,
    (claim_C1_round_trip.1 5 4 2 (by decide) (by decide) (by decide)
      (fun r t => r * 100 + t.1 * 10 + t.2) (fun _ _ => 0) (fun _ _ => 0)).1⟩

end PencilDecomp
